import Mathlib

/-!
# Layer subsystem of the WADE scene renderer

A shallow embedding of `src/wade_src/layer.js`.  Numbers are exact rationals,
JavaScript objects are records, and every method of `Layer.prototype` becomes a
function from the layer record (and the engine globals it reads) to the new
layer record.  Sprites are identified by a `key` (object identity); their
`id` is the mutable draw-order number the layer assigns.

Where the rounding of IEEE doubles matters, a function is given a second time
with every operation rounded (`roundDouble`, `roundDoubleGradual`, names ending
in `_double`); where `NaN` matters, `draw` is given a second time on numbers that
may be `NaN` (`Layer.drawChecked`).  Helpers of the `wade` object and of the
spatial index, whose sources are not part of the layer file, are modelled from
the specification and marked so.
-/

namespace Wade

/-! ## Data model -/

/-- A point or direction `{x, y}`. -/
structure Vec2 where
  x : ℚ
  y : ℚ
  deriving DecidableEq, Repr

/-- An axis-aligned box `{minX, minY, maxX, maxY}`. -/
structure Box where
  minX : ℚ
  minY : ℚ
  maxX : ℚ
  maxY : ℚ
  deriving DecidableEq, Repr

/-- A camera position `{x, y, z}`; `z` is the zoom. -/
structure Camera where
  x : ℚ
  y : ℚ
  z : ℚ
  deriving DecidableEq, Repr

/-- The field `_transform` of a layer: `{scale, translate}`. -/
structure Transform where
  scale : ℚ
  translate : ℚ
  deriving DecidableEq, Repr

/-- The engine globals a layer reads through the `wade` object. -/
structure Engine where
  screenWidth : ℚ
  screenHeight : ℚ
  cameraPosition : Camera
  resolutionFactor : ℚ
  webGlSupported : Bool
  doubleBuffering : Bool
  c_epsilon : ℚ
  webGlContext : Bool
  androidUserAgent : Bool
  deriving DecidableEq, Repr

/-- The part of a layer that the coordinate conversions read:
`_transform`, `_cameraPosition`, `_resolutionFactor`, `_scaleConversionFactor`. -/
structure View where
  transform : Transform
  cameraPosition : Camera
  resolutionFactor : ℚ
  scaleConversionFactor : ℚ
  deriving DecidableEq, Repr

/-! ## Coordinate conversions (`layer.js` 517-631) -/

namespace View

/-- `Layer.prototype.worldPositionToScreen`. -/
def worldPositionToScreen (v : View) (position : Vec2) : Vec2 :=
  { x := v.scaleConversionFactor * (position.x - v.cameraPosition.x * v.transform.translate)
           / v.resolutionFactor,
    y := v.scaleConversionFactor * (position.y - v.cameraPosition.y * v.transform.translate)
           / v.resolutionFactor }

/-- `Layer.prototype.worldDirectionToScreen`. -/
def worldDirectionToScreen (v : View) (direction : Vec2) : Vec2 :=
  { x := v.scaleConversionFactor * direction.x / v.resolutionFactor,
    y := v.scaleConversionFactor * direction.y / v.resolutionFactor }

/-- `Layer.prototype.worldBoxToScreen`. -/
def worldBoxToScreen (v : View) (box : Box) : Box :=
  let worldHalfSize : Vec2 := { x := (box.maxX - box.minX) / 2, y := (box.maxY - box.minY) / 2 }
  let worldPosition : Vec2 := { x := box.minX + worldHalfSize.x, y := box.minY + worldHalfSize.y }
  let screenPosition := v.worldPositionToScreen worldPosition
  let screenHalfSize := v.worldDirectionToScreen worldHalfSize
  { minX := screenPosition.x - screenHalfSize.x,
    minY := screenPosition.y - screenHalfSize.y,
    maxX := screenPosition.x + screenHalfSize.x,
    maxY := screenPosition.y + screenHalfSize.y }

/-- `Layer.prototype.screenPositionToWorld`. -/
def screenPositionToWorld (v : View) (screenPosition : Vec2) : Vec2 :=
  { x := v.cameraPosition.x * v.transform.translate
           + screenPosition.x * v.resolutionFactor / v.scaleConversionFactor,
    y := v.cameraPosition.y * v.transform.translate
           + screenPosition.y * v.resolutionFactor / v.scaleConversionFactor }

/-- `Layer.prototype.screenDirectionToWorld`. -/
def screenDirectionToWorld (v : View) (screenDirection : Vec2) : Vec2 :=
  { x := screenDirection.x * v.resolutionFactor / v.scaleConversionFactor,
    y := screenDirection.y * v.resolutionFactor / v.scaleConversionFactor }

/-- `Layer.prototype.screenBoxToWorld`. -/
def screenBoxToWorld (v : View) (box : Box) : Box :=
  let screenHalfSize : Vec2 := { x := (box.maxX - box.minX) / 2, y := (box.maxY - box.minY) / 2 }
  let screenPosition : Vec2 := { x := box.minX + screenHalfSize.x, y := box.minY + screenHalfSize.y }
  let worldPosition := v.screenPositionToWorld screenPosition
  let worldHalfSize := v.screenDirectionToWorld screenHalfSize
  { minX := worldPosition.x - worldHalfSize.x,
    minY := worldPosition.y - worldHalfSize.y,
    maxX := worldPosition.x + worldHalfSize.x,
    maxY := worldPosition.y + worldHalfSize.y }

/-- `Layer.prototype.worldPositionToCanvas`. -/
def worldPositionToCanvas (v : View) (position : Vec2) : Vec2 :=
  { x := v.scaleConversionFactor * (position.x - v.cameraPosition.x * v.transform.translate),
    y := v.scaleConversionFactor * (position.y - v.cameraPosition.y * v.transform.translate) }

/-- `Layer.prototype.worldDirectionToCanvas`. -/
def worldDirectionToCanvas (v : View) (direction : Vec2) : Vec2 :=
  { x := v.scaleConversionFactor * direction.x,
    y := v.scaleConversionFactor * direction.y }

/-- `Layer.prototype.worldBoxToCanvas`. -/
def worldBoxToCanvas (v : View) (box : Box) : Box :=
  let worldHalfSize : Vec2 := { x := (box.maxX - box.minX) / 2, y := (box.maxY - box.minY) / 2 }
  let worldPosition : Vec2 := { x := box.minX + worldHalfSize.x, y := box.minY + worldHalfSize.y }
  let canvasPosition := v.worldPositionToCanvas worldPosition
  let canvasHalfSize := v.worldDirectionToCanvas worldHalfSize
  { minX := canvasPosition.x - canvasHalfSize.x,
    minY := canvasPosition.y - canvasHalfSize.y,
    maxX := canvasPosition.x + canvasHalfSize.x,
    maxY := canvasPosition.y + canvasHalfSize.y }

/-- `Layer.prototype.canvasPositionToWorld`. -/
def canvasPositionToWorld (v : View) (canvasPosition : Vec2) : Vec2 :=
  { x := v.cameraPosition.x * v.transform.translate + canvasPosition.x / v.scaleConversionFactor,
    y := v.cameraPosition.y * v.transform.translate + canvasPosition.y / v.scaleConversionFactor }

/-- `Layer.prototype.canvasDirectionToWorld`. -/
def canvasDirectionToWorld (v : View) (canvasDirection : Vec2) : Vec2 :=
  { x := canvasDirection.x / v.scaleConversionFactor,
    y := canvasDirection.y / v.scaleConversionFactor }

/-- `Layer.prototype.canvasBoxToWorld`. -/
def canvasBoxToWorld (v : View) (box : Box) : Box :=
  let canvasHalfSize : Vec2 := { x := (box.maxX - box.minX) / 2, y := (box.maxY - box.minY) / 2 }
  let canvasPosition : Vec2 := { x := box.minX + canvasHalfSize.x, y := box.minY + canvasHalfSize.y }
  let worldPosition := v.canvasPositionToWorld canvasPosition
  let worldHalfSize := v.canvasDirectionToWorld canvasHalfSize
  { minX := worldPosition.x - worldHalfSize.x,
    minY := worldPosition.y - worldHalfSize.y,
    maxX := worldPosition.x + worldHalfSize.x,
    maxY := worldPosition.y + worldHalfSize.y }

end View


/-! ## Sprites, the spatial index and the layer record -/

/-- The part of a sprite object the layer reads or writes.  `key` stands for the
identity of the JavaScript object; `id` is the draw-order number written by the
layer; `quadTreeNode` is true when the field of that name holds a node. -/
structure Sprite where
  key : ℕ
  id : ℤ
  position : Vec2
  sortPoint : Vec2
  size : Vec2
  boundingBox : Box
  visible : Bool
  alwaysDrawing : Bool
  needsDrawing : Bool
  quadTreeNode : Bool
  deriving DecidableEq, Repr

/-- The value of `_sorting`: one of the three strings or a comparator function. -/
inductive Sorting where
  | none
  | bottomToTop
  | topToBottom
  | custom (f : Sprite → Sprite → ℚ)

/-- The value of `_renderMode`. -/
inductive RenderMode where
  | canvas2d
  | webgl
  deriving DecidableEq, Repr

/-- Modelled from the spec: the spatial index `QuadTreeNode`, whose source is not
part of the layer file.  The spec (3, 4.1) describes it as a rectangular region of
world space holding the items inserted in it; the node structure is not needed
by the layer, so the index is its bounds and the keys of the items it holds. -/
structure QuadTree where
  minX : ℚ
  minY : ℚ
  maxX : ℚ
  maxY : ℚ
  objects : List ℕ
  deriving DecidableEq, Repr

/-- The fields of a `Layer` object. -/
structure Layer extends View where
  id : ℤ
  sprites : List Sprite
  movingSprites : List ℕ
  sorting : Sorting
  dirtyAreas : List Box
  needsFullRedraw : Bool
  needsFullSorting : Bool
  clearCanvas : Bool
  smoothing : Bool
  useQuadtree : Bool
  renderMode : RenderMode
  useOffScreenTarget : Bool
  alwaysDrawSprites : List ℕ
  canvas : Bool
  contextIsWebGl : Bool
  secondaryCanvas : Bool
  worldBounds : Box
  quadTree : QuadTree
  isAndroidStockBrowser : Bool
  needsFlipping : Bool

/-! ## Helpers of the `wade` object and of the spatial index -/

/-- Modelled from the spec: `wade.expandBox(box, expandBy)`, absent from the
sources; the spec (4.2) has it "union in the bounding boxes", a bounding
region that never shrinks. -/
def expandBox (box expandBy : Box) : Box :=
  { minX := min box.minX expandBy.minX,
    minY := min box.minY expandBy.minY,
    maxX := max box.maxX expandBy.maxX,
    maxY := max box.maxY expandBy.maxY }

/-- Modelled from the spec: `wade.clampBoxToBox(box, containingBox)`, absent from
the sources; the spec (3, 4.2) has it "clamp to the visible rectangle". -/
def clampBoxToBox (box containingBox : Box) : Box :=
  { minX := max box.minX containingBox.minX,
    minY := max box.minY containingBox.minY,
    maxX := min box.maxX containingBox.maxX,
    maxY := min box.maxY containingBox.maxY }

/-- Modelled from the spec: `wade.boxIntersectsBox(a, b)`, absent from the
sources; two closed boxes intersect when they share a point. -/
def boxIntersectsBox (a b : Box) : Bool :=
  decide (a.minX ≤ b.maxX ∧ b.minX ≤ a.maxX ∧ a.minY ≤ b.maxY ∧ b.minY ≤ a.maxY)

/-- Modelled from the spec: `wade.boxContainsBox(a, b)`, absent from the
sources; `a` contains `b` ("the index's bounds contain the world bounds"). -/
def boxContainsBox (a b : Box) : Bool :=
  decide (a.minX ≤ b.minX ∧ a.minY ≤ b.minY ∧ b.maxX ≤ a.maxX ∧ b.maxY ≤ a.maxY)

/-- The global `isNaN` applied to a coordinate.  Coordinates are exact rationals
here, and no rational is NaN. -/
def isNaN (_ : ℚ) : Bool := false

/-- The bounds of the spatial index, read as a box (`wade.boxContainsBox` is
called with the root node itself). -/
def QuadTree.bounds (q : QuadTree) : Box :=
  { minX := q.minX, minY := q.minY, maxX := q.maxX, maxY := q.maxY }

/-- Modelled from the spec: `QuadTreeNode.flagObjects(area, flagName)` with the flag
`needsDrawing`, absent from the sources; the spec (4.1) has it mark "every item
whose bounding box intersects `area`", the items being those the index holds. -/
def flagObjects (q : QuadTree) (area : Box) (sprites : List Sprite) : List Sprite :=
  sprites.map fun s =>
    if s.key ∈ q.objects ∧ boxIntersectsBox s.boundingBox area = true then
      { s with needsDrawing := true }
    else s

/-- Writes to the sprite object with identity `key`: every reference to it in the
array sees the change. -/
def modifySprite (key : ℕ) (f : Sprite → Sprite) (sprites : List Sprite) : List Sprite :=
  sprites.map fun s => if s.key = key then f s else s

/-- Modelled from the spec: `QuadTreeNode.addObject(sprite)`, absent from the
sources: the index holds the item afterwards (spec 4.1, `insert(item)`). -/
def QuadTree.addObject (q : QuadTree) (key : ℕ) : QuadTree :=
  { q with objects := q.objects ++ [key] }

/-- Modelled from the spec: `QuadTreeNode.removeObject(sprite)`, absent from the
sources: the item leaves the node that holds it (spec 4.1, `remove(item)`). -/
def QuadTree.removeObject (q : QuadTree) (key : ℕ) : QuadTree :=
  { q with objects := q.objects.erase key }

/-! ## Sorting -/

/-- The depth a sprite is compared by: `getPosition().y + getSortPoint().y * getSize().y`. -/
def Sprite.sortKey (s : Sprite) : ℚ :=
  s.position.y + s.sortPoint.y * s.size.y

/-- `Layer.prototype._spriteSorter_bottomToTop`. -/
def _spriteSorter_bottomToTop (env : Engine) (spriteA spriteB : Sprite) : ℚ :=
  let delta := spriteA.position.y + spriteA.sortPoint.y * spriteA.size.y
                 - spriteB.position.y - spriteB.sortPoint.y * spriteB.size.y
  if |delta| < env.c_epsilon then ((spriteA.id - spriteB.id : ℤ) : ℚ) else delta

/-- `Layer.prototype._spriteSorter_topToBottom`. -/
def _spriteSorter_topToBottom (env : Engine) (spriteA spriteB : Sprite) : ℚ :=
  let delta := spriteB.position.y + spriteB.sortPoint.y * spriteB.size.y
                 - spriteA.position.y - spriteA.sortPoint.y * spriteA.size.y
  if |delta| < env.c_epsilon then ((spriteA.id - spriteB.id : ℤ) : ℚ) else delta

/-- The value of `_sortingFunction`, which `setSorting` keeps in step with
`_sorting`: a comparator, or nothing for `none`. -/
def Layer.sortingFunction (env : Engine) (L : Layer) : Option (Sprite → Sprite → ℚ) :=
  match L.sorting with
  | Sorting.none => Option.none
  | Sorting.bottomToTop => some (_spriteSorter_bottomToTop env)
  | Sorting.topToBottom => some (_spriteSorter_topToBottom env)
  | Sorting.custom f => some f

/-- `Array.prototype.sort(compare)`: a stable sort that puts `a` before `b` when
`compare(a, b) <= 0`, here by straight insertion.  When `compare` is a
consistent order on the elements every conforming sort returns this list. -/
def jsSort (compare : Sprite → Sprite → ℚ) (array : List Sprite) : List Sprite :=
  array.insertionSort (fun a b => compare a b ≤ 0)

/-- The test `sorting != this._sorting` of `setSorting`: strings compare by value,
functions by identity (`sameFunction` tells whether two comparators are the same
function object). -/
def Sorting.differs (sameFunction : Bool) : Sorting → Sorting → Bool
  | Sorting.none, Sorting.none => false
  | Sorting.bottomToTop, Sorting.bottomToTop => false
  | Sorting.topToBottom, Sorting.topToBottom => false
  | Sorting.custom _, Sorting.custom _ => !sameFunction
  | _, _ => true

/-- `Layer.prototype.setSorting`. -/
def Layer.setSorting (L : Layer) (sorting : Sorting) (sameFunction : Bool) : Layer :=
  if Sorting.differs sameFunction sorting L.sorting then
    { L with sorting := sorting, needsFullSorting := true }
  else L

/-! ## Dirty areas -/

/-- `Layer.prototype.clearDirtyAreas`. -/
def Layer.clearDirtyAreas (L : Layer) : Layer :=
  { L with dirtyAreas := [], needsFullRedraw := false }

/-- `Layer.prototype.addDirtyArea`. -/
def Layer.addDirtyArea (L : Layer) (area : Box) : Layer :=
  { L with dirtyAreas := L.dirtyAreas ++
      [{ minX := area.minX, maxX := area.maxX, minY := area.minY, maxY := area.maxY }] }

/-- Modelled from the spec: `Sprite.prototype.setDirtyArea`, absent from the
sources; the spec (4.3) has the resort "marking the displaced neighbor's region
dirty", that is the sprite adds its bounding box to the layer's dirty areas. -/
def Layer.setDirtyArea (L : Layer) (s : Sprite) : Layer :=
  L.addDirtyArea s.boundingBox

/-- The visible world rectangle of `_joinDirtyAreas`: the screen box in world space. -/
def Layer.screenInWorldSpace (env : Engine) (L : Layer) : Box :=
  let halfWidth := env.screenWidth / 2
  let halfHeight := env.screenHeight / 2
  L.toView.screenBoxToWorld
    { minX := -halfWidth, minY := -halfHeight, maxX := halfWidth, maxY := halfHeight }

/-- `Layer.prototype._joinDirtyAreas`; `none` is the result `0`. -/
def Layer._joinDirtyAreas (env : Engine) (L : Layer) : Option Box :=
  if L.dirtyAreas.length = 0 then
    some { minX := 0, minY := 0, maxX := 0, maxY := 0 }
  else
    let screen := L.screenInWorldSpace env
    let result : Box :=
      { minX := screen.maxX, minY := screen.maxY, maxX := screen.minX, maxY := screen.minY }
    let result := L.dirtyAreas.foldl
      (fun result area => if boxIntersectsBox screen area then expandBox result area else result)
      result
    let result := clampBoxToBox result screen
    if result.maxX ≤ result.minX ∨ result.maxY ≤ result.minY then none else some result

/-! ## The sorting step of `draw` (`layer.js` 201-264) -/

/-- The forward scan `for (k=j+1; ...)` of the incremental resort, run on the
sprites after slot `j`: the sprites the moving sprite is swapped with, in the
order met, and the sprites left after it. -/
def scanForward (f : Sprite → Sprite → ℚ) (movingSprite : Sprite) :
    List Sprite → List Sprite × List Sprite
  | [] => ([], [])
  | x :: rest =>
    if f movingSprite x > 0 then
      ((x :: (scanForward f movingSprite rest).1), (scanForward f movingSprite rest).2)
    else ([], x :: rest)

/-- The backward scan `for (k=j-1; k>=0; k--)`, run on the sprites before slot `j`
listed from slot `j-1` down to slot `0`: the sprites swapped with, in the order
met, and the sprites left before it (still listed downwards). -/
def scanBackward (f : Sprite → Sprite → ℚ) (movingSprite : Sprite) :
    List Sprite → List Sprite × List Sprite
  | [] => ([], [])
  | x :: rest =>
    if f movingSprite x < 0 then
      ((x :: (scanBackward f movingSprite rest).1), (scanBackward f movingSprite rest).2)
    else ([], x :: rest)

/-- One round of the loop over `_movingSprites` (`layer.js` 215-257): find the
moving sprite, scan forward with swaps, and scan backward when nothing was
swapped.  Every sprite swapped with calls `setDirtyArea`. -/
def Layer.relocate (f : Sprite → Sprite → ℚ) (L : Layer) (movingKey : ℕ) : Layer :=
  let j := L.sprites.findIdx (fun s => s.key == movingKey)
  match L.sprites.drop j with
  | [] => L
  | movingSprite :: after =>
    let before := L.sprites.take j
    let fwd := scanForward f movingSprite after
    if fwd.1.length ≠ 0 then
      { fwd.1.foldl Layer.setDirtyArea L with
        sprites := before ++ fwd.1 ++ movingSprite :: fwd.2 }
    else
      let bwd := scanBackward f movingSprite before.reverse
      { bwd.1.foldl Layer.setDirtyArea L with
        sprites := bwd.2.reverse ++ movingSprite :: bwd.1.reverse ++ after }

/-- The sorting step of `draw` (`layer.js` 201-264), including the reset of
`_needsFullSorting` and `_movingSprites`. -/
def Layer.drawSort (env : Engine) (L : Layer) : Layer :=
  let L1 : Layer :=
    match L.sortingFunction env with
    | Option.none => L
    | some f =>
      if L.needsFullSorting ∨ L.movingSprites.length * L.movingSprites.length > L.sprites.length
      then { L with sprites := jsSort f L.sprites }
      else L.movingSprites.foldl (Layer.relocate f) L
  { L1 with needsFullSorting := false, movingSprites := [] }

/-! ## `Layer.prototype.draw` -/

/-- The calls `draw` makes on the drawing context and on the sprites, in order.
Calls that only set GL state (blend function, pixel storage, shader program,
texture binding, the uniforms of the render target) are left out. -/
inductive Call where
  | bindFramebuffer (mainRenderTarget : Bool)
  | restore
  | save
  | setTransform (a b c d e f : ℚ)
  | cameraUniform (s tx ty : ℚ)
  | clearRect (x y w h : ℤ)
  | clear
  | enableScissor
  | scissor (x y w h : ℚ)
  | disableScissor
  | drawArrays
  | spriteDraw (key : ℕ) (gl : Bool)
  | log
  deriving DecidableEq, Repr

/-- A call that clears pixels: `clearRect` or `clear`. -/
def Call.isClear : Call → Bool
  | Call.clearRect _ _ _ _ => true
  | Call.clear => true
  | _ => false

/-- A call of a sprite's draw entry point (`draw` or `draw_gl`). -/
def Call.isSpriteDraw : Call → Bool
  | Call.spriteDraw _ _ => true
  | _ => false

/-- `Math.round`: the nearest integer, halves going up. -/
def jsRound (x : ℚ) : ℤ := ⌊x + 1 / 2⌋

/-- How a call of `draw` ended. -/
inductive Outcome where
  | nothingChanged
  | noDirtyArea
  | invalidCoordinates
  | drawn
  | unfinished
  deriving DecidableEq, Repr

/-- What a call of `draw` leaves behind: the layer, the calls made, how it ended,
and the last value of its local variable `dirtyArea`. -/
structure DrawResult where
  layer : Layer
  calls : List Call
  outcome : Outcome
  dirtyArea : Option Box

/-- How the expansion loop ended: at a fixed point, at the NaN check, or with
the iteration budget of the model used up. -/
inductive Expansion where
  | fixed (dirtyArea : Box) (sprites : List Sprite)
  | invalid (dirtyArea : Box) (sprites : List Sprite)
  | unfinished
  deriving DecidableEq, Repr

/-- The body `for (j ...) expandBox(dirtyArea, boundingBox)` of the expansion loop. -/
def expandToFlagged (dirtyArea : Box) (sprites : List Sprite) : Box :=
  sprites.foldl
    (fun d s => if s.needsDrawing && s.visible then expandBox d s.boundingBox else d)
    dirtyArea

/-- The loop `while (oldArea... != dirtyArea...)` of `draw` (`layer.js` 331-354).
`oldArea` is `none` for the initial `0`, whose coordinates are undefined and so
differ from every number.  The first argument bounds the number of iterations. -/
def expandDirtyArea (q : QuadTree) (canvasInWorldSpace : Box) :
    ℕ → Option Box → Box → List Sprite → Expansion
  | 0, _, _, _ => Expansion.unfinished
  | fuel + 1, oldArea, dirtyArea, sprites =>
    if oldArea = some dirtyArea then Expansion.fixed dirtyArea sprites
    else if isNaN dirtyArea.minX || isNaN dirtyArea.minY
        || isNaN dirtyArea.maxX || isNaN dirtyArea.maxY then
      Expansion.invalid dirtyArea sprites
    else
      let sprites := flagObjects q dirtyArea sprites
      let expanded := expandToFlagged dirtyArea sprites
      expandDirtyArea q canvasInWorldSpace fuel (some dirtyArea)
        (clampBoxToBox expanded canvasInWorldSpace) sprites

/-- The test at the top of `draw` (`layer.js` 174): nothing has changed. -/
def Layer.nothingChanged (L : Layer) : Bool :=
  !L.canvas || (L.dirtyAreas.length == 0 && !L.needsFullRedraw && L.useQuadtree
    && L.alwaysDrawSprites.length == 0)

/-- Lines 179-193 of `draw`: forced full redraw, fallback of the render mode, and
the choice of the context (`_needsFlipping` records the use of the secondary one). -/
def Layer.drawPrepare (env : Engine) (L : Layer) : Layer :=
  let L1 : Layer :=
    if (L.isAndroidStockBrowser && L.clearCanvas)
        || (!L.useOffScreenTarget && L.renderMode == RenderMode.webgl)
    then { L with needsFullRedraw := true } else L
  let L2 : Layer :=
    if L1.renderMode == RenderMode.webgl && !env.webGlSupported
    then { L1 with renderMode := RenderMode.canvas2d } else L1
  { L2 with needsFlipping :=
      L2.needsFullRedraw && L2.renderMode == RenderMode.canvas2d && env.doubleBuffering }

/-- The camera transform set on the context for a full redraw or without quadtree. -/
def Layer.cameraCalls (env : Engine) (L : Layer) (withRestore : Bool) : List Call :=
  let halfCanvasWidth := env.screenWidth * L.resolutionFactor / 2
  let halfCanvasHeight := env.screenHeight * L.resolutionFactor / 2
  let s := L.scaleConversionFactor
  let tx := halfCanvasWidth - L.cameraPosition.x * L.transform.translate * s
  let ty := halfCanvasHeight - L.cameraPosition.y * L.transform.translate * s
  match L.renderMode with
  | RenderMode.canvas2d =>
    (if withRestore then [Call.restore, Call.save] else []) ++
      [Call.setTransform s 0 0 s (jsRound tx) (jsRound ty)]
  | RenderMode.webgl =>
    [Call.cameraUniform s (L.cameraPosition.x * L.transform.translate * s)
      (L.cameraPosition.y * L.transform.translate * s)]

/-- The scissor rectangle computed from `canvasArea` (`layer.js` 387 and 459). -/
def Layer.scissorCall (env : Engine) (L : Layer) (canvasArea : Box) : Call :=
  let canvasHeight := env.screenHeight * L.resolutionFactor
  let halfCanvasWidth := env.screenWidth * L.resolutionFactor / 2
  let halfCanvasHeight := canvasHeight / 2
  Call.scissor (⌊canvasArea.minX + halfCanvasWidth - 1⌋ : ℤ)
    (canvasHeight - (⌊canvasArea.minY + halfCanvasHeight - 1⌋ : ℤ)
      - (⌈canvasArea.maxY - canvasArea.minY + 2⌉ : ℤ))
    (⌈canvasArea.maxX - canvasArea.minX + 2⌉ : ℤ)
    (⌈canvasArea.maxY - canvasArea.minY + 2⌉ : ℤ)

/-- The clearing of the dirty area (`layer.js` 356-392): the calls made and the
value of `canvasArea` afterwards. -/
def Layer.clearCalls (env : Engine) (L : Layer) (dirtyArea : Box) : List Call × Option Box :=
  let canvasWidth := env.screenWidth * L.resolutionFactor
  let canvasHeight := env.screenHeight * L.resolutionFactor
  let halfCanvasWidth := canvasWidth / 2
  let halfCanvasHeight := canvasHeight / 2
  if L.clearCanvas then
    match L.renderMode with
    | RenderMode.canvas2d =>
      if L.needsFullRedraw then
        ([Call.save, Call.setTransform 1 0 0 1 0 0,
          Call.clearRect 0 0 (jsRound canvasWidth) (jsRound canvasHeight), Call.restore], none)
      else
        let canvasArea := L.toView.worldBoxToCanvas dirtyArea
        ([Call.save, Call.setTransform 1 0 0 1 0 0,
          Call.clearRect ⌊canvasArea.minX + halfCanvasWidth - 1⌋
            ⌊canvasArea.minY + halfCanvasHeight - 1⌋
            ⌈canvasArea.maxX - canvasArea.minX + 2⌉
            ⌈canvasArea.maxY - canvasArea.minY + 2⌉,
          Call.restore], some canvasArea)
    | RenderMode.webgl =>
      if L.needsFullRedraw then ([Call.clear], none)
      else
        let canvasArea := L.toView.worldBoxToCanvas dirtyArea
        ([Call.enableScissor, L.scissorCall env canvasArea, Call.clear, Call.disableScissor],
          some canvasArea)
  else ([], none)

/-- The post-render step that draws the offscreen target onto the screen
(`layer.js` 445-483); empty unless in webgl mode with an offscreen target. -/
def Layer.postRenderCalls (env : Engine) (L : Layer) (canvasArea : Option Box) : List Call :=
  if L.renderMode == RenderMode.webgl && L.useOffScreenTarget then
    [Call.bindFramebuffer false] ++
    (match canvasArea with
     | some area => [Call.enableScissor, L.scissorCall env area, Call.clear, Call.disableScissor]
     | none => if L.clearCanvas then [Call.clear] else []) ++
    [Call.drawArrays,
     Call.cameraUniform L.scaleConversionFactor
       (L.cameraPosition.x * L.transform.translate * L.scaleConversionFactor)
       (L.cameraPosition.y * L.transform.translate * L.scaleConversionFactor)]
  else []

/-- The calls of the draw entry point of the listed sprites, in list order. -/
def spriteDrawCalls (mode : RenderMode) (sprites : List Sprite) : List Call :=
  sprites.map fun s => Call.spriteDraw s.key (mode == RenderMode.webgl)

/-- The visible world rectangle of `draw`: the canvas box in world space. -/
def Layer.canvasInWorldSpace (env : Engine) (L : Layer) : Box :=
  let halfCanvasWidth := env.screenWidth * L.resolutionFactor / 2
  let halfCanvasHeight := env.screenHeight * L.resolutionFactor / 2
  L.toView.canvasBoxToWorld
    { minX := -halfCanvasWidth, minY := -halfCanvasHeight,
      maxX := halfCanvasWidth, maxY := halfCanvasHeight }

/-- The quadtree branch of `draw` (`layer.js` 276-405) followed by the
post-render step, on the layer left by the sorting step; `calls` are the calls
made before. -/
def Layer.drawQuadtree (env : Engine) (L : Layer) (calls : List Call) : DrawResult :=
  let canvasInWorldSpace := L.canvasInWorldSpace env
  let start : Option Box × List Call :=
    if L.needsFullRedraw then (some canvasInWorldSpace, L.cameraCalls env true)
    else (L._joinDirtyAreas env, [])
  match start.1 with
  | none =>
    { layer := L.clearDirtyAreas, calls := calls ++ start.2,
      outcome := Outcome.noDirtyArea, dirtyArea := none }
  | some dirtyArea =>
    let cleared := L.sprites.map fun s => { s with needsDrawing := false }
    match expandDirtyArea L.quadTree canvasInWorldSpace (L.sprites.length + 3)
        none dirtyArea cleared with
    | Expansion.unfinished =>
      { layer := { L with sprites := cleared }, calls := calls ++ start.2,
        outcome := Outcome.unfinished, dirtyArea := some dirtyArea }
    | Expansion.invalid area sprites =>
      { layer := { L with sprites := sprites }, calls := calls ++ start.2 ++ [Call.log],
        outcome := Outcome.invalidCoordinates, dirtyArea := some area }
    | Expansion.fixed area sprites =>
      let L1 : Layer := { L with sprites := sprites }
      let clearing := L1.clearCalls env area
      { layer := L1.clearDirtyAreas,
        calls := calls ++ start.2 ++ clearing.1
          ++ spriteDrawCalls L1.renderMode (sprites.filter fun s => s.needsDrawing)
          ++ L1.postRenderCalls env clearing.2,
        outcome := Outcome.drawn, dirtyArea := some area }

/-- The branch of `draw` without quadtree (`layer.js` 406-443) followed by the
post-render step. -/
def Layer.drawEverything (env : Engine) (L : Layer) (calls : List Call) : DrawResult :=
  let canvasWidth := env.screenWidth * L.resolutionFactor
  let canvasHeight := env.screenHeight * L.resolutionFactor
  let clearing : List Call :=
    match L.renderMode with
    | RenderMode.webgl => [Call.clear] ++ L.cameraCalls env false
    | RenderMode.canvas2d =>
      [Call.save, Call.setTransform 1 0 0 1 0 0,
        Call.clearRect 0 0 (jsRound canvasWidth) (jsRound canvasHeight), Call.restore]
        ++ L.cameraCalls env false
  { layer := L.clearDirtyAreas,
    calls := calls ++ clearing ++ spriteDrawCalls L.renderMode L.sprites
      ++ L.postRenderCalls env none,
    outcome := Outcome.drawn, dirtyArea := none }

/-- `Layer.prototype.draw`. -/
def Layer.draw (env : Engine) (L : Layer) : DrawResult :=
  if L.nothingChanged then
    { layer := L, calls := [], outcome := Outcome.nothingChanged, dirtyArea := none }
  else
    let L1 := (L.drawPrepare env).drawSort env
    let calls : List Call :=
      if L1.renderMode == RenderMode.webgl && L1.useOffScreenTarget
      then [Call.bindFramebuffer true] else []
    if L1.useQuadtree then L1.drawQuadtree env calls else L1.drawEverything env calls

/-! ## Transform, camera and resolution -/

/-- `Layer.prototype._updateScaleConversionFactor`; the camera is the one
`wade.getCameraPosition()` returns. -/
def Layer._updateScaleConversionFactor (env : Engine) (L : Layer) : Layer :=
  let cameraPosition := env.cameraPosition
  { L with scaleConversionFactor :=
      (L.transform.scale / cameraPosition.z + 1 - L.transform.scale) * L.resolutionFactor }

/-- `Layer.prototype.setTransform`. -/
def Layer.setTransform (env : Engine) (L : Layer) (scale translate : ℚ) : Layer :=
  let L1 : Layer := { L with transform := { scale := scale, translate := translate } }
  { L1._updateScaleConversionFactor env with needsFullRedraw := true }

/-- `Layer.prototype.onCameraPositionChanged`. -/
def Layer.onCameraPositionChanged (env : Engine) (L : Layer) (cameraPosition : Camera) : Layer :=
  let L1 : Layer :=
    if (L.transform.translate ≠ 0
          ∧ (cameraPosition.x ≠ L.cameraPosition.x ∨ cameraPosition.y ≠ L.cameraPosition.y))
        ∨ (L.transform.scale ≠ 0 ∧ cameraPosition.z ≠ L.cameraPosition.z)
    then { L with needsFullRedraw := true } else L
  let L2 : Layer :=
    { L1 with cameraPosition :=
        { x := cameraPosition.x, y := cameraPosition.y, z := cameraPosition.z } }
  L2._updateScaleConversionFactor env

/-- `Layer.prototype.setSmoothing`; the context properties are not part of the record. -/
def Layer.setSmoothing (L : Layer) (toggle : Bool) : Layer :=
  if toggle ≠ L.smoothing then { L with smoothing := toggle, needsFullRedraw := true } else L

/-- `Layer.prototype.resize`; the pixel sizes of the canvases are not part of
the record. -/
def Layer.resize (L : Layer) : Layer :=
  let L1 : Layer := { L with needsFullRedraw := true }
  if !L1.smoothing then ({ L1 with smoothing := true } : Layer).setSmoothing false else L1

/-- `Layer.prototype.setResolutionFactor`. -/
def Layer.setResolutionFactor (env : Engine) (L : Layer) (resolutionFactor : ℚ) : Layer :=
  if resolutionFactor ≠ L.resolutionFactor then
    let L1 : Layer := { L with resolutionFactor := resolutionFactor }
    (L1._updateScaleConversionFactor env).resize
  else L

/-! ## Sprites in and out of the layer -/

/-- `Layer.prototype._initQuadTree`: a new, empty index around the world bounds. -/
def Layer._initQuadTree (L : Layer) : Layer :=
  let scale : ℚ := 3 / 2
  let halfSizeX := (L.worldBounds.maxX - L.worldBounds.minX) / 2
  let halfSizeY := (L.worldBounds.maxY - L.worldBounds.minY) / 2
  let centerX := L.worldBounds.minX + halfSizeX
  let centerY := L.worldBounds.minY + halfSizeY
  { L with quadTree :=
      { minX := centerX - halfSizeX * scale, minY := centerY - halfSizeY * scale,
        maxX := centerX + halfSizeX * scale, maxY := centerY + halfSizeY * scale,
        objects := [] } }

/-- The call `this._quadTree.addObject(sprite)`: the index holds the sprite and
the sprite records its node. -/
def Layer.quadTreeAdd (L : Layer) (key : ℕ) : Layer :=
  { L with quadTree := L.quadTree.addObject key,
           sprites := modifySprite key (fun s => { s with quadTreeNode := true }) L.sprites }

/-- `Layer.prototype._addSpriteToQuadTree`. -/
def Layer._addSpriteToQuadTree (L : Layer) (key : ℕ) : Layer :=
  if !boxContainsBox L.quadTree.bounds L.worldBounds then
    (L.sprites.map fun s => s.key).foldl Layer.quadTreeAdd L._initQuadTree
  else L.quadTreeAdd key

/-- `Layer.prototype.addAlwaysDrawSprite`. -/
def Layer.addAlwaysDrawSprite (L : Layer) (key : ℕ) : Layer :=
  { L with alwaysDrawSprites := L.alwaysDrawSprites ++ [key] }

/-- `Layer.prototype.addSprite`; `sprite` is the state of the object passed in. -/
def Layer.addSprite (L : Layer) (sprite : Sprite) : Layer :=
  let pushed := L.sprites ++ [sprite]
  let L1 : Layer :=
    { L with sprites := modifySprite sprite.key (fun s => { s with id := pushed.length }) pushed,
             worldBounds := expandBox L.worldBounds sprite.boundingBox }
  let L2 : Layer :=
    if L1.useQuadtree then (L1.addDirtyArea sprite.boundingBox)._addSpriteToQuadTree sprite.key
    else L1
  let L3 : Layer := if sprite.alwaysDrawing then L2.addAlwaysDrawSprite sprite.key else L2
  { L3 with needsFullSorting := true }

/-- `Layer.prototype.onSpritePositionChanged`; `sprite` is the state of the object
passed in, whose position and bounding box the caller has already changed. -/
def Layer.onSpritePositionChanged (L : Layer) (sprite : Sprite) : Layer :=
  let L1 : Layer :=
    if L.useQuadtree && sprite.quadTreeNode then
      let L' : Layer :=
        { L with worldBounds := expandBox L.worldBounds sprite.boundingBox,
                 quadTree := L.quadTree.removeObject sprite.key }
      L'._addSpriteToQuadTree sprite.key
    else L
  { L1 with movingSprites := L1.movingSprites ++ [sprite.key] }

/-- A sprite object changes its position and bounding box (the work of the
sprite itself, outside the layer): every reference to it sees the new values. -/
def Layer.spriteMoved (L : Layer) (key : ℕ) (position : Vec2) (boundingBox : Box) : Layer :=
  { L with
    sprites := modifySprite key
      (fun s => { s with position := position, boundingBox := boundingBox }) L.sprites }

/-! ## Construction -/

/-- `Layer.prototype.createCanvas`; `webGlContext` tells whether the canvas hands
out a WebGL context. -/
def Layer.createCanvas (env : Engine) (L : Layer) : Layer :=
  if !L.canvas then
    let gotWebGl : Bool := L.renderMode != RenderMode.canvas2d && env.webGlContext
    let L1 : Layer := { L with canvas := true, contextIsWebGl := gotWebGl }
    let L2 : Layer :=
      if !gotWebGl || L1.renderMode == RenderMode.canvas2d then
        { L1 with contextIsWebGl := false }
      else { L1 with renderMode := RenderMode.webgl }
    { L2 with needsFullRedraw := true }
  else L

/-- `Layer.prototype.createSecondaryCanvas`. -/
def Layer.createSecondaryCanvas (L : Layer) : Layer :=
  if !L.secondaryCanvas then { L with secondaryCanvas := true } else L

/-- The constructor `Layer(layerId, renderMode)`; `renderMode` is `none` when the
argument is left out. -/
def Layer.new (env : Engine) (layerId : ℤ) (renderMode : Option RenderMode) : Layer :=
  let requested : RenderMode := renderMode.getD RenderMode.webgl
  let mode : RenderMode :=
    if requested == RenderMode.webgl && !env.webGlSupported then RenderMode.canvas2d
    else requested
  let halfWidth := env.screenWidth / 2
  let halfHeight := env.screenHeight / 2
  let L0 : Layer :=
    { transform := { scale := 1, translate := 1 },
      cameraPosition := env.cameraPosition,
      resolutionFactor := env.resolutionFactor,
      scaleConversionFactor := 0,
      id := layerId,
      sprites := [],
      movingSprites := [],
      sorting := Sorting.none,
      dirtyAreas := [],
      needsFullRedraw := true,
      needsFullSorting := false,
      clearCanvas := true,
      smoothing := true,
      useQuadtree := true,
      renderMode := mode,
      useOffScreenTarget := false,
      alwaysDrawSprites := [],
      canvas := false,
      contextIsWebGl := false,
      secondaryCanvas := false,
      worldBounds := { minX := -halfWidth, minY := -halfHeight,
                       maxX := halfWidth, maxY := halfHeight },
      quadTree := { minX := 0, minY := 0, maxX := 0, maxY := 0, objects := [] },
      isAndroidStockBrowser := env.androidUserAgent && !env.webGlSupported,
      needsFlipping := false }
  let L1 := (L0._updateScaleConversionFactor env).createCanvas env
  let L2 := if env.doubleBuffering then L1.createSecondaryCanvas else L1
  L2._initQuadTree

/-! ## Sample configurations -/

/-- A configuration used to instantiate the conversion theorems: camera at
`(3, -2)` with zoom `2`, translate weight `1/2`, resolution factor `2`. -/
def sampleView : View :=
  { transform := { scale := 1, translate := 1 / 2 },
    cameraPosition := { x := 3, y := -2, z := 2 },
    resolutionFactor := 2,
    scaleConversionFactor := 1 }

/-- Engine globals used to instantiate the theorems: a 100 by 100 screen, the
camera at the origin with zoom `1`, no WebGL, no double buffering. -/
def sampleEngine : Engine :=
  { screenWidth := 100, screenHeight := 100,
    cameraPosition := { x := 0, y := 0, z := 1 },
    resolutionFactor := 1,
    webGlSupported := false,
    doubleBuffering := false,
    c_epsilon := 1 / 10000,
    webGlContext := false,
    androidUserAgent := false }

/-- A fresh layer told of a camera at zoom `2` while the engine camera has zoom `1`. -/
def zoomedLayer : Layer :=
  (Layer.new sampleEngine 1 none).onCameraPositionChanged sampleEngine { x := 0, y := 0, z := 2 }

/-- Engine globals with the comparison tolerance set to `1`. -/
def coarseEngine : Engine := { sampleEngine with c_epsilon := 1 }

/-- A visible sprite with the given identity, draw-order id, height and bounding box. -/
def sampleSprite (key : ℕ) (id : ℤ) (y : ℚ) (boundingBox : Box) : Sprite :=
  { key := key, id := id,
    position := { x := 0, y := y },
    sortPoint := { x := 0, y := 0 },
    size := { x := 1, y := 1 },
    boundingBox := boundingBox,
    visible := true, alwaysDrawing := false, needsDrawing := false, quadTreeNode := false }

/-! ## Notions used to state the theorems -/

/-- The number of sprites of the array whose `needsDrawing` flag is not set. -/
def unflagged (sprites : List Sprite) : ℕ :=
  sprites.countP fun s => !s.needsDrawing

/-- The array with every `needsDrawing` flag cleared, as `draw` does before the
expansion loop (`layer.js` 326-329). -/
def clearFlags (sprites : List Sprite) : List Sprite :=
  sprites.map fun s => { s with needsDrawing := false }

/-- Modelled from the spec: `QuadTreeNode.empty()`, absent from the sources: the
index holds no item afterwards. -/
def QuadTree.empty (q : QuadTree) : QuadTree :=
  { q with objects := [] }

/-- `Layer.prototype.useQuadtree`. -/
def Layer.useQuadtree' (L : Layer) (toggle : Bool) : Layer :=
  if toggle ≠ L.useQuadtree then
    let L1 : Layer := { L with useQuadtree := toggle }
    if L1.useQuadtree then
      (L1.sprites.map fun s => s.key).foldl Layer._addSpriteToQuadTree
        { L1 with quadTree := L1.quadTree.empty }
    else L1
  else L

/-- A fresh raster layer on the sample engine. -/
def freshLayer : Layer := Layer.new sampleEngine 1 none

/-- The fresh layer with the quadtree switched off, one sprite added, and drawn once. -/
def plainLayer : Layer :=
  (((freshLayer.useQuadtree' false).addSprite (sampleSprite 1 0 0 ⟨0, 0, 10, 10⟩)).draw
    sampleEngine).layer

/-- The flags the expansion loop leaves when it ends at the area `R`: a sprite
is flagged when the index holds it and its bounding box intersects `R`. -/
def redrawFlags (q : QuadTree) (R : Box) (sprites : List Sprite) : List Sprite :=
  sprites.map fun s =>
    { s with needsDrawing := decide (s.key ∈ q.objects ∧ boxIntersectsBox s.boundingBox R = true) }

/-- Engine globals with a 400 by 400 screen: the visible world rectangle of a fresh
layer is `[-200, 200]` in both directions. -/
def wideEngine : Engine := { sampleEngine with screenWidth := 400, screenHeight := 400 }

/-- Engine globals with a 400 by 400 screen and WebGL available. -/
def glEngine : Engine := { wideEngine with webGlSupported := true, webGlContext := true }

/-- The first item of the three-item scenario, bounding box `{0,0,10,10}`. -/
def item1 : Sprite := sampleSprite 1 0 0 ⟨0, 0, 10, 10⟩

/-- The second item of the three-item scenario, bounding box `{5,5,15,15}`. -/
def item2 : Sprite := sampleSprite 2 0 0 ⟨5, 5, 15, 15⟩

/-- The third item of the three-item scenario, bounding box `{100,100,110,110}`. -/
def item3 : Sprite := sampleSprite 3 0 0 ⟨100, 100, 110, 110⟩

/-- The three-item scenario on the given engine: a fresh layer, the three items
added, one draw, and then the first item's box marked dirty. -/
def scenarioLayer (env : Engine) : Layer :=
  (((((Layer.new env 1 none).addSprite item1).addSprite item2).addSprite item3).draw
    env).layer.addDirtyArea ⟨0, 0, 10, 10⟩

/-- Engine globals with a 100 by 100 screen and the camera at `(200, 200)`: the
visible world rectangle of a fresh layer is `[150, 250]` in both directions. -/
def farEngine : Engine :=
  { sampleEngine with cameraPosition := { x := 200, y := 200, z := 1 } }

/-- An always-draw sprite around the world origin, bounding box `{-1,-1,1,1}`. -/
def originSprite : Sprite :=
  { sampleSprite 7 0 0 ⟨-1, -1, 1, 1⟩ with alwaysDrawing := true }

/-- A fresh layer on the far engine with the always-draw sprite added and drawn
once: no dirty area and no full redraw are pending. -/
def originLayer : Layer :=
  (((Layer.new farEngine 1 none).addSprite originSprite).draw farEngine).layer

/-- The state of a scenario item once it has been added with the given id and
drawn once. -/
def placed (s : Sprite) (id : ℤ) : Sprite :=
  { s with id := id, needsDrawing := true, quadTreeNode := true }

/-- A fresh raster layer sorted bottom to top with three sprites added at heights
`5`, `1` and `3`, in this order. -/
def heightsLayer : Layer :=
  (((freshLayer.setSorting Sorting.bottomToTop false).addSprite
      (sampleSprite 1 0 5 ⟨0, 5, 1, 6⟩)).addSprite
      (sampleSprite 2 0 1 ⟨0, 1, 1, 2⟩)).addSprite
      (sampleSprite 3 0 3 ⟨0, 3, 1, 4⟩)

/-- A sprite of the layer moves: the sprite object takes its new position and
bounding box and then notifies the layer through `onSpritePositionChanged`. -/
def Layer.moveSprite (L : Layer) (key : ℕ) (position : Vec2) (boundingBox : Box) : Layer :=
  let L1 := L.spriteMoved key position boundingBox
  match L1.sprites.find? (fun s => s.key == key) with
  | some s => L1.onSpritePositionChanged s
  | none => L1

/-- A fresh raster layer sorted bottom to top, with sprites added at heights `1`
and `2` and drawn once; then the first sprite moves to height `5`. -/
def movedLayer : Layer :=
  ((((freshLayer.setSorting Sorting.bottomToTop false).addSprite
      (sampleSprite 1 0 1 ⟨0, 1, 1, 2⟩)).addSprite
      (sampleSprite 2 0 2 ⟨0, 2, 1, 3⟩)).draw sampleEngine).layer.moveSprite
    1 ⟨0, 5⟩ ⟨0, 5, 1, 6⟩

/-- A fresh raster layer sorted bottom to top, with five sprites added at heights
`1` to `5` and drawn once. -/
def fiveLayer : Layer :=
  (([sampleSprite 1 0 1 ⟨0, 1, 1, 2⟩, sampleSprite 2 0 2 ⟨0, 2, 1, 3⟩,
      sampleSprite 3 0 3 ⟨0, 3, 1, 4⟩, sampleSprite 4 0 4 ⟨0, 4, 1, 5⟩,
      sampleSprite 5 0 5 ⟨0, 5, 1, 6⟩].foldl Layer.addSprite
    (freshLayer.setSorting Sorting.bottomToTop false)).draw sampleEngine).layer

/-- The five-sprite layer after the first sprite moved to height `10` and the
second to height `20`, each marking its new area dirty. -/
def twoMovedLayer : Layer :=
  (((fiveLayer.moveSprite 1 ⟨0, 10⟩ ⟨0, 10, 1, 11⟩).addDirtyArea ⟨0, 10, 1, 11⟩).moveSprite
    2 ⟨0, 20⟩ ⟨0, 20, 1, 21⟩).addDirtyArea ⟨0, 20, 1, 21⟩

/-- A fresh raster layer on the sample engine holding the always-draw sprite
around the origin. -/
def alwaysLayer : Layer := freshLayer.addSprite originSprite

/-- The areas the expansion loop of `draw` passes to `flagObjects`, in order: the
loop of `expandDirtyArea` with the areas recorded. -/
def flaggedAreas (q : QuadTree) (canvasInWorldSpace : Box) :
    ℕ → Option Box → Box → List Sprite → List Box
  | 0, _, _, _ => []
  | fuel + 1, oldArea, dirtyArea, sprites =>
    if oldArea = some dirtyArea then []
    else
      dirtyArea :: flaggedAreas q canvasInWorldSpace fuel (some dirtyArea)
        (clampBoxToBox (expandToFlagged dirtyArea (flagObjects q dirtyArea sprites))
          canvasInWorldSpace)
        (flagObjects q dirtyArea sprites)

/-- The area the quadtree branch of `draw` starts the expansion from, on the layer
left by the sorting step: the visible rectangle for a full redraw, else the
result of `_joinDirtyAreas`. -/
def Layer.startArea (env : Engine) (L : Layer) : Option Box :=
  if L.needsFullRedraw then some (L.canvasInWorldSpace env) else L._joinDirtyAreas env

/-- The areas a call of `draw` passes to `flagObjects`, in order. -/
def Layer.drawAreas (env : Engine) (L : Layer) : List Box :=
  if L.nothingChanged then []
  else
    let L1 := (L.drawPrepare env).drawSort env
    if L1.useQuadtree then
      match L1.startArea env with
      | none => []
      | some dirtyArea =>
        flaggedAreas L1.quadTree (L1.canvasInWorldSpace env) (L1.sprites.length + 3) none
          dirtyArea (clearFlags L1.sprites)
    else []

/-- A drawn fresh layer with the dirty areas `{0,0,10,10}` and `{100,100,110,110}`. -/
def twoAreasLayer : Layer :=
  ((freshLayer.draw sampleEngine).layer.addDirtyArea ⟨0, 0, 10, 10⟩).addDirtyArea
    ⟨100, 100, 110, 110⟩

/-! ## Evaluation in IEEE doubles -/

/-- Rounding to the nearest integer, a tie going to the even one. -/
def roundHalfEven (m : ℚ) : ℤ :=
  if m - ⌊m⌋ < 1 / 2 then ⌊m⌋
  else if 1 / 2 < m - ⌊m⌋ then ⌊m⌋ + 1
  else if ⌊m⌋ % 2 = 0 then ⌊m⌋ else ⌊m⌋ + 1

/-- The IEEE 754 binary64 number nearest to `q` (53 significant bits, a tie going
to the even significand): what JavaScript keeps of the exact result `q` of an
arithmetic operation.  Overflow and subnormal numbers are left out; no value
used below comes near them. -/
def roundDouble (q : ℚ) : ℚ :=
  if q = 0 then 0
  else
    let unit : ℚ := 2 ^ (Int.log 2 |q| - 52)
    roundHalfEven (q / unit) * unit

/-- `Layer.prototype.worldDirectionToCanvas` as JavaScript evaluates it: the
result of each operation is rounded to a double. -/
def View.worldDirectionToCanvas_double (v : View) (direction : Vec2) : Vec2 :=
  { x := roundDouble (v.scaleConversionFactor * direction.x),
    y := roundDouble (v.scaleConversionFactor * direction.y) }

/-- `Layer.prototype.canvasDirectionToWorld` as JavaScript evaluates it: the
result of each operation is rounded to a double. -/
def View.canvasDirectionToWorld_double (v : View) (canvasDirection : Vec2) : Vec2 :=
  { x := roundDouble (canvasDirection.x / v.scaleConversionFactor),
    y := roundDouble (canvasDirection.y / v.scaleConversionFactor) }

/-- `Layer.prototype._spriteSorter_bottomToTop` as JavaScript evaluates it: the
products first, then the sum and the differences from left to right, the result
of each operation rounded to a double. -/
def _spriteSorter_bottomToTop_double (env : Engine) (spriteA spriteB : Sprite) : ℚ :=
  let delta := roundDouble (roundDouble (roundDouble (spriteA.position.y
      + roundDouble (spriteA.sortPoint.y * spriteA.size.y)) - spriteB.position.y)
    - roundDouble (spriteB.sortPoint.y * spriteB.size.y))
  if |delta| < env.c_epsilon then roundDouble ((spriteA.id : ℚ) - (spriteB.id : ℚ)) else delta

/-- A configuration with scale conversion factor `49`: a layer of scale `48` under
a camera of zoom `1/2`, resolution factor `1`. -/
def steepView : View :=
  { transform := { scale := 48, translate := 1 },
    cameraPosition := { x := 0, y := 0, z := 1 / 2 },
    resolutionFactor := 1,
    scaleConversionFactor := 49 }

/-- A visible sprite with the given identity, draw-order id, height, vertical
sort point and height of its size. -/
def depthSprite (key : ℕ) (id : ℤ) (y sortPointY sizeY : ℚ) : Sprite :=
  { sampleSprite key id y ⟨0, 0, 1, 1⟩ with
      sortPoint := { x := 0, y := sortPointY }, size := { x := 1, y := sizeY } }

/-- An ordinary sprite around the world origin, bounding box `{-1,-1,1,1}`. -/
def cornerSprite : Sprite := sampleSprite 8 0 0 ⟨-1, -1, 1, 1⟩

/-- An always-draw sprite with bounding box `{300,300,301,301}`, away from the
world origin and from the visible rectangle of the far engine. -/
def beaconSprite : Sprite :=
  { sampleSprite 9 0 300 ⟨300, 300, 301, 301⟩ with alwaysDrawing := true }

/-- A fresh layer on the far engine with the ordinary sprite around the origin and
the always-draw sprite added, drawn once: no dirty area and no full redraw are
pending. -/
def mixedLayer : Layer :=
  ((((Layer.new farEngine 1 none).addSprite cornerSprite).addSprite beaconSprite).draw
    farEngine).layer

/-! ## Reordering the sprites (`layer.js` 486-490, 681-700, 1083-1118) -/

/-- `Array.prototype.indexOf` on the array of sprites, by object identity; `-1`
when the array does not hold the sprite. -/
def indexOfSprite (key : ℕ) (array : List Sprite) : ℤ :=
  if array.findIdx (fun s => s.key == key) < array.length then
    (array.findIdx (fun s => s.key == key) : ℤ)
  else -1

/-- `Layer.prototype.getIndexOfSprite`. -/
def Layer.getIndexOfSprite (L : Layer) (sprite : Sprite) : ℤ :=
  indexOfSprite sprite.key L.sprites

/-- A shader object made by `context.createShader`: `handle` tells the objects
apart (the number of shader objects the context made before), `source` is the
source `getPixelShader` was called with (its field `hash` is
`wade.hashString(source)`), `customUniforms` the field of that name. -/
structure Shader where
  handle : ℕ
  source : String
  customUniforms : Option (List (String × String))
  deriving DecidableEq, Repr

/-- What reading a key of the cache object gives when it is not `undefined`: a
shader stored under the key, or a member that the cache, a plain object, inherits
from `Object.prototype`. -/
inductive CacheValue where
  | shader (pixelShader : Shader)
  | inherited (name : String)
  deriving DecidableEq, Repr

/-- The part of a WebGL context that `getPixelShader` reads and writes: the cache
`pixelShaders` (its own keys with their shaders), the number of shader objects
made, and the sources passed to `compileShader`, first to last. -/
structure GlContext where
  pixelShaders : List (String × Shader)
  created : ℕ
  compiled : List String
  deriving DecidableEq, Repr

/-- The names every plain object inherits from `Object.prototype`. -/
def objectPrototypeKeys : List String :=
  ["constructor", "__defineGetter__", "__defineSetter__", "hasOwnProperty",
    "__lookupGetter__", "__lookupSetter__", "isPrototypeOf", "propertyIsEnumerable",
    "toString", "valueOf", "__proto__", "toLocaleString"]

/-- The read `context.pixelShaders[shaderSource]`; `none` is `undefined`. -/
def GlContext.pixelShader (context : GlContext) (shaderSource : String) : Option CacheValue :=
  match context.pixelShaders.lookup shaderSource with
  | some pixelShader => some (CacheValue.shader pixelShader)
  | none =>
    if shaderSource ∈ objectPrototypeKeys then some (CacheValue.inherited shaderSource)
    else none

/-- A JavaScript number that may be `NaN`; the infinities are left out. -/
inductive JsNumber where
  | finite (value : ℚ)
  | nan
  deriving DecidableEq, Repr

/-- The global `isNaN` on a number. -/
def JsNumber.isNaN : JsNumber → Bool
  | JsNumber.nan => true
  | JsNumber.finite _ => false

/-- The comparison `a != b` of two numbers: `NaN` differs from every number, itself
included. -/
def JsNumber.differs : JsNumber → JsNumber → Bool
  | JsNumber.finite a, JsNumber.finite b => decide (a ≠ b)
  | _, _ => true

/-- A box whose coordinates may be `NaN`. -/
structure JsBox where
  minX : JsNumber
  minY : JsNumber
  maxX : JsNumber
  maxY : JsNumber
  deriving DecidableEq, Repr

/-- The test `isNaN(dirtyArea.minX) || ...` of the loop (`layer.js` 334). -/
def JsBox.invalid (dirtyArea : JsBox) : Bool :=
  dirtyArea.minX.isNaN || dirtyArea.minY.isNaN || dirtyArea.maxX.isNaN || dirtyArea.maxY.isNaN

/-- The kinds of calls `draw` makes on a context, on a sprite or on the log. -/
inductive CallKind where
  | bindFramebuffer
  | restore
  | save
  | setTransform
  | uniform4fv
  | log
  | clear
  | clearRect
  | scissor
  | spriteDraw
  | drawArrays
  deriving DecidableEq, Repr

/-- A call that clears pixels. -/
def CallKind.isClear : CallKind → Bool
  | CallKind.clear => true
  | CallKind.clearRect => true
  | _ => false

/-- A call of a sprite's draw entry point. -/
def CallKind.isSpriteDraw : CallKind → Bool
  | CallKind.spriteDraw => true
  | _ => false

/-- Scalar form of world-to-screen after screen-to-world. -/
theorem scalar_toScreen_toWorld (s r c x : ℚ) (hs : s ≠ 0) (hr : r ≠ 0) :
    s * (c + x * r / s - c) / r = x := by
  field_simp
  ring

/-- Scalar form of screen-to-world after world-to-screen. -/
theorem scalar_toWorld_toScreen (s r c x : ℚ) (hs : s ≠ 0) (hr : r ≠ 0) :
    c + s * (x - c) / r * r / s = x := by
  field_simp

/-- Scalar form of world-to-canvas after canvas-to-world. -/
theorem scalar_toCanvas_toWorld (s c x : ℚ) (hs : s ≠ 0) :
    s * (c + x / s - c) = x := by
  field_simp
  ring

/-- Scalar form of canvas-to-world after world-to-canvas. -/
theorem scalar_toWorld_toCanvas (s c x : ℚ) (hs : s ≠ 0) :
    c + s * (x - c) / s = x := by
  field_simp

/-- The box conversion to screen space converts the two corners. -/
theorem worldBoxToScreen_corners (v : View) (b : Box) :
    v.worldBoxToScreen b =
      { minX := v.scaleConversionFactor * (b.minX - v.cameraPosition.x * v.transform.translate)
                  / v.resolutionFactor,
        minY := v.scaleConversionFactor * (b.minY - v.cameraPosition.y * v.transform.translate)
                  / v.resolutionFactor,
        maxX := v.scaleConversionFactor * (b.maxX - v.cameraPosition.x * v.transform.translate)
                  / v.resolutionFactor,
        maxY := v.scaleConversionFactor * (b.maxY - v.cameraPosition.y * v.transform.translate)
                  / v.resolutionFactor } := by
  simp only [View.worldBoxToScreen, View.worldPositionToScreen, View.worldDirectionToScreen,
    Box.mk.injEq]
  refine ⟨?_, ?_, ?_, ?_⟩ <;> ring

/-- The box conversion from screen space converts the two corners. -/
theorem screenBoxToWorld_corners (v : View) (b : Box) :
    v.screenBoxToWorld b =
      { minX := v.cameraPosition.x * v.transform.translate
                  + b.minX * v.resolutionFactor / v.scaleConversionFactor,
        minY := v.cameraPosition.y * v.transform.translate
                  + b.minY * v.resolutionFactor / v.scaleConversionFactor,
        maxX := v.cameraPosition.x * v.transform.translate
                  + b.maxX * v.resolutionFactor / v.scaleConversionFactor,
        maxY := v.cameraPosition.y * v.transform.translate
                  + b.maxY * v.resolutionFactor / v.scaleConversionFactor } := by
  simp only [View.screenBoxToWorld, View.screenPositionToWorld, View.screenDirectionToWorld,
    Box.mk.injEq]
  refine ⟨?_, ?_, ?_, ?_⟩ <;> ring

/-- The box conversion to canvas space converts the two corners. -/
theorem worldBoxToCanvas_corners (v : View) (b : Box) :
    v.worldBoxToCanvas b =
      { minX := v.scaleConversionFactor * (b.minX - v.cameraPosition.x * v.transform.translate),
        minY := v.scaleConversionFactor * (b.minY - v.cameraPosition.y * v.transform.translate),
        maxX := v.scaleConversionFactor * (b.maxX - v.cameraPosition.x * v.transform.translate),
        maxY := v.scaleConversionFactor * (b.maxY - v.cameraPosition.y * v.transform.translate) }
    := by
  simp only [View.worldBoxToCanvas, View.worldPositionToCanvas, View.worldDirectionToCanvas,
    Box.mk.injEq]
  refine ⟨?_, ?_, ?_, ?_⟩ <;> ring

/-- The box conversion from canvas space converts the two corners. -/
theorem canvasBoxToWorld_corners (v : View) (b : Box) :
    v.canvasBoxToWorld b =
      { minX := v.cameraPosition.x * v.transform.translate + b.minX / v.scaleConversionFactor,
        minY := v.cameraPosition.y * v.transform.translate + b.minY / v.scaleConversionFactor,
        maxX := v.cameraPosition.x * v.transform.translate + b.maxX / v.scaleConversionFactor,
        maxY := v.cameraPosition.y * v.transform.translate + b.maxY / v.scaleConversionFactor }
    := by
  simp only [View.canvasBoxToWorld, View.canvasPositionToWorld, View.canvasDirectionToWorld,
    Box.mk.injEq]
  refine ⟨?_, ?_, ?_, ?_⟩ <;> ring

/-- C1: when the scale conversion factor and the resolution factor are non-zero,
converting a point from screen space to world space and back gives the point
again, and so does converting from canvas space to world space and back. -/
theorem position_roundTrip (v : View) (hs : v.scaleConversionFactor ≠ 0)
    (hr : v.resolutionFactor ≠ 0) (p : Vec2) :
    v.worldPositionToScreen (v.screenPositionToWorld p) = p
      ∧ v.worldPositionToCanvas (v.canvasPositionToWorld p) = p := by
  obtain ⟨px, py⟩ := p
  refine ⟨?_, ?_⟩
  · simp only [View.worldPositionToScreen, View.screenPositionToWorld, Vec2.mk.injEq]
    constructor <;> field_simp <;> ring
  · simp only [View.worldPositionToCanvas, View.canvasPositionToWorld, Vec2.mk.injEq]
    constructor <;> field_simp <;> ring

/-- C1 at the sample configuration and the point `(7, 5)`. -/
theorem position_roundTrip_witness :
    sampleView.scaleConversionFactor ≠ 0 ∧ sampleView.resolutionFactor ≠ 0
      ∧ sampleView.worldPositionToScreen (sampleView.screenPositionToWorld ⟨7, 5⟩) = ⟨7, 5⟩
      ∧ sampleView.worldPositionToCanvas (sampleView.canvasPositionToWorld ⟨7, 5⟩) = ⟨7, 5⟩ :=
  ⟨by norm_num [sampleView], by norm_num [sampleView],
    position_roundTrip sampleView (by norm_num [sampleView]) (by norm_num [sampleView]) ⟨7, 5⟩⟩

/-- C2, amended: over exact arithmetic, when the scale conversion factor and the
resolution factor are non-zero, the box conversions between world and screen
space and between world and canvas space are inverse to each other in both
directions, and so are the direction conversions. -/
theorem box_direction_inverse (v : View) (hs : v.scaleConversionFactor ≠ 0)
    (hr : v.resolutionFactor ≠ 0) (b : Box) (d : Vec2) :
    (v.screenBoxToWorld (v.worldBoxToScreen b) = b
      ∧ v.worldBoxToScreen (v.screenBoxToWorld b) = b
      ∧ v.canvasBoxToWorld (v.worldBoxToCanvas b) = b
      ∧ v.worldBoxToCanvas (v.canvasBoxToWorld b) = b)
    ∧ (v.screenDirectionToWorld (v.worldDirectionToScreen d) = d
      ∧ v.worldDirectionToScreen (v.screenDirectionToWorld d) = d
      ∧ v.canvasDirectionToWorld (v.worldDirectionToCanvas d) = d
      ∧ v.worldDirectionToCanvas (v.canvasDirectionToWorld d) = d) := by
  obtain ⟨x0, y0, x1, y1⟩ := b
  obtain ⟨dx, dy⟩ := d
  refine ⟨⟨?_, ?_, ?_, ?_⟩, ⟨?_, ?_, ?_, ?_⟩⟩
  · rw [worldBoxToScreen_corners, screenBoxToWorld_corners]
    simp only [Box.mk.injEq]
    exact ⟨scalar_toWorld_toScreen _ _ _ _ hs hr, scalar_toWorld_toScreen _ _ _ _ hs hr,
      scalar_toWorld_toScreen _ _ _ _ hs hr, scalar_toWorld_toScreen _ _ _ _ hs hr⟩
  · rw [screenBoxToWorld_corners, worldBoxToScreen_corners]
    simp only [Box.mk.injEq]
    exact ⟨scalar_toScreen_toWorld _ _ _ _ hs hr, scalar_toScreen_toWorld _ _ _ _ hs hr,
      scalar_toScreen_toWorld _ _ _ _ hs hr, scalar_toScreen_toWorld _ _ _ _ hs hr⟩
  · rw [worldBoxToCanvas_corners, canvasBoxToWorld_corners]
    simp only [Box.mk.injEq]
    exact ⟨scalar_toWorld_toCanvas _ _ _ hs, scalar_toWorld_toCanvas _ _ _ hs,
      scalar_toWorld_toCanvas _ _ _ hs, scalar_toWorld_toCanvas _ _ _ hs⟩
  · rw [canvasBoxToWorld_corners, worldBoxToCanvas_corners]
    simp only [Box.mk.injEq]
    exact ⟨scalar_toCanvas_toWorld _ _ _ hs, scalar_toCanvas_toWorld _ _ _ hs,
      scalar_toCanvas_toWorld _ _ _ hs, scalar_toCanvas_toWorld _ _ _ hs⟩
  · simp only [View.screenDirectionToWorld, View.worldDirectionToScreen, Vec2.mk.injEq]
    constructor <;> field_simp
  · simp only [View.screenDirectionToWorld, View.worldDirectionToScreen, Vec2.mk.injEq]
    constructor <;> field_simp
  · simp only [View.canvasDirectionToWorld, View.worldDirectionToCanvas, Vec2.mk.injEq]
    constructor <;> field_simp
  · simp only [View.canvasDirectionToWorld, View.worldDirectionToCanvas, Vec2.mk.injEq]
    constructor <;> field_simp

/-- C2, amended, at the sample configuration, the box `{-1, 2, 5, 8}` and the direction
`(3, -4)`. -/
theorem box_direction_inverse_witness :
    sampleView.scaleConversionFactor ≠ 0 ∧ sampleView.resolutionFactor ≠ 0
      ∧ (sampleView.screenBoxToWorld (sampleView.worldBoxToScreen ⟨-1, 2, 5, 8⟩) = ⟨-1, 2, 5, 8⟩
        ∧ sampleView.worldBoxToScreen (sampleView.screenBoxToWorld ⟨-1, 2, 5, 8⟩) = ⟨-1, 2, 5, 8⟩
        ∧ sampleView.canvasBoxToWorld (sampleView.worldBoxToCanvas ⟨-1, 2, 5, 8⟩) = ⟨-1, 2, 5, 8⟩
        ∧ sampleView.worldBoxToCanvas (sampleView.canvasBoxToWorld ⟨-1, 2, 5, 8⟩) = ⟨-1, 2, 5, 8⟩)
      ∧ (sampleView.screenDirectionToWorld (sampleView.worldDirectionToScreen ⟨3, -4⟩) = ⟨3, -4⟩
        ∧ sampleView.worldDirectionToScreen (sampleView.screenDirectionToWorld ⟨3, -4⟩) = ⟨3, -4⟩
        ∧ sampleView.canvasDirectionToWorld (sampleView.worldDirectionToCanvas ⟨3, -4⟩) = ⟨3, -4⟩
        ∧ sampleView.worldDirectionToCanvas (sampleView.canvasDirectionToWorld ⟨3, -4⟩) = ⟨3, -4⟩) :=
  ⟨by norm_num [sampleView], by norm_num [sampleView],
    box_direction_inverse sampleView (by norm_num [sampleView]) (by norm_num [sampleView])
      ⟨-1, 2, 5, 8⟩ ⟨3, -4⟩⟩

/-! ## The scale conversion factor -/

/-- C3 fails as stated: after `onCameraPositionChanged` with a camera of zoom `2`
while the engine camera has zoom `1`, the layer holds zoom `2` but its scale
conversion factor is `1`, not `(scale / 2 + 1 - scale) * resolutionFactor = 1/2`. -/
theorem scaleFactor_heldCamera_counterexample :
    zoomedLayer.cameraPosition.z = 2
      ∧ zoomedLayer.scaleConversionFactor = 1
      ∧ zoomedLayer.scaleConversionFactor ≠
          (zoomedLayer.transform.scale / zoomedLayer.cameraPosition.z + 1
            - zoomedLayer.transform.scale) * zoomedLayer.resolutionFactor := by
  norm_num [zoomedLayer, Layer.new, Layer.onCameraPositionChanged,
    Layer._updateScaleConversionFactor, Layer.createCanvas, Layer.createSecondaryCanvas,
    Layer._initQuadTree, sampleEngine]

/-- C3, amended: after `setTransform`, after `onCameraPositionChanged(c)` and after a
`setResolutionFactor` that changes the factor, the scale conversion factor is
`(layerScale / cameraZoom + 1 - layerScale) * resolutionFactor` with `cameraZoom`
the zoom of the engine camera (`wade.getCameraPosition().z`) at the time of the
call; `setResolutionFactor` with the current factor changes nothing. -/
theorem scaleFactor_after_update (env : Engine) (L : Layer) (scale translate r : ℚ)
    (c : Camera) :
    ((L.setTransform env scale translate).transform = { scale := scale, translate := translate }
      ∧ (L.setTransform env scale translate).scaleConversionFactor
          = (scale / env.cameraPosition.z + 1 - scale) * L.resolutionFactor
      ∧ (L.setTransform env scale translate).resolutionFactor = L.resolutionFactor)
    ∧ ((L.onCameraPositionChanged env c).cameraPosition = c
      ∧ (L.onCameraPositionChanged env c).scaleConversionFactor
          = (L.transform.scale / env.cameraPosition.z + 1 - L.transform.scale)
              * L.resolutionFactor
      ∧ (L.onCameraPositionChanged env c).transform = L.transform
      ∧ (L.onCameraPositionChanged env c).resolutionFactor = L.resolutionFactor)
    ∧ ((L.setResolutionFactor env r).resolutionFactor = r
      ∧ (L.setResolutionFactor env r).scaleConversionFactor
          = (if r = L.resolutionFactor then L.scaleConversionFactor
             else (L.transform.scale / env.cameraPosition.z + 1 - L.transform.scale) * r)
      ∧ (L.setResolutionFactor env r).transform = L.transform) := by
  refine ⟨⟨rfl, rfl, rfl⟩, ⟨?_, ?_, ?_, ?_⟩, ?_⟩
  · simp only [Layer.onCameraPositionChanged, Layer._updateScaleConversionFactor]
  · simp only [Layer.onCameraPositionChanged, Layer._updateScaleConversionFactor]
    split <;> rfl
  · simp only [Layer.onCameraPositionChanged, Layer._updateScaleConversionFactor]
    split <;> rfl
  · simp only [Layer.onCameraPositionChanged, Layer._updateScaleConversionFactor]
    split <;> rfl
  · by_cases h : r = L.resolutionFactor
    · subst h
      simp [Layer.setResolutionFactor]
    · simp only [Layer.setResolutionFactor, h, ne_eq, not_false_eq_true, if_true, if_false,
        Layer.resize, Layer.setSmoothing, Layer._updateScaleConversionFactor]
      refine ⟨?_, ?_, ?_⟩ <;> split <;> simp

/-! ## The comparators -/

/-- The bottom-to-top comparator in terms of the sort keys. -/
theorem spriteSorter_bottomToTop_eq (env : Engine) (a b : Sprite) :
    _spriteSorter_bottomToTop env a b =
      if |a.sortKey - b.sortKey| < env.c_epsilon then ((a.id - b.id : ℤ) : ℚ)
      else a.sortKey - b.sortKey := by
  have h : a.position.y + a.sortPoint.y * a.size.y - b.position.y - b.sortPoint.y * b.size.y
      = a.sortKey - b.sortKey := by
    simp only [Sprite.sortKey]; ring
  simp only [_spriteSorter_bottomToTop, h]

/-- The top-to-bottom comparator in terms of the sort keys. -/
theorem spriteSorter_topToBottom_eq (env : Engine) (a b : Sprite) :
    _spriteSorter_topToBottom env a b =
      if |b.sortKey - a.sortKey| < env.c_epsilon then ((a.id - b.id : ℤ) : ℚ)
      else b.sortKey - a.sortKey := by
  have h : b.position.y + b.sortPoint.y * b.size.y - a.position.y - a.sortPoint.y * a.size.y
      = b.sortKey - a.sortKey := by
    simp only [Sprite.sortKey]; ring
  simp only [_spriteSorter_topToBottom, h]

/-- The comparison by id difference is transitive. -/
theorem idDifference_trans (a b c : ℤ) (hab : ((a - b : ℤ) : ℚ) < 0)
    (hbc : ((b - c : ℤ) : ℚ) < 0) : ((a - c : ℤ) : ℚ) < 0 := by
  have h1 : a - b < 0 := by exact_mod_cast hab
  have h2 : b - c < 0 := by exact_mod_cast hbc
  have h3 : a - c < 0 := by omega
  exact_mod_cast h3

/-- C9, amended: over exact arithmetic, for a positive tolerance and sprites with
distinct ids, the bottom-to-top and top-to-bottom comparators never return `0`,
the comparison of
`b` with `a` is the negation of the comparison of `a` with `b`, and the order is
transitive on triples whose depths pairwise differ by at least the tolerance, or
pairwise by less than the tolerance. -/
theorem spriteSorter_order (env : Engine) (hε : 0 < env.c_epsilon) (a b c : Sprite)
    (hab : a.id ≠ b.id) :
    (_spriteSorter_bottomToTop env a b ≠ 0 ∧ _spriteSorter_topToBottom env a b ≠ 0)
    ∧ (_spriteSorter_bottomToTop env b a = -_spriteSorter_bottomToTop env a b
      ∧ _spriteSorter_topToBottom env b a = -_spriteSorter_topToBottom env a b)
    ∧ (((env.c_epsilon ≤ |a.sortKey - b.sortKey| ∧ env.c_epsilon ≤ |b.sortKey - c.sortKey|
          ∧ env.c_epsilon ≤ |a.sortKey - c.sortKey|)
        ∨ (|a.sortKey - b.sortKey| < env.c_epsilon ∧ |b.sortKey - c.sortKey| < env.c_epsilon
          ∧ |a.sortKey - c.sortKey| < env.c_epsilon)) →
      (_spriteSorter_bottomToTop env a b < 0 → _spriteSorter_bottomToTop env b c < 0 →
          _spriteSorter_bottomToTop env a c < 0)
      ∧ (_spriteSorter_topToBottom env a b < 0 → _spriteSorter_topToBottom env b c < 0 →
          _spriteSorter_topToBottom env a c < 0)) := by
  have hid : ((a.id - b.id : ℤ) : ℚ) ≠ 0 := by
    have : a.id - b.id ≠ 0 := sub_ne_zero.mpr hab
    exact_mod_cast this
  have hneg : ((b.id - a.id : ℤ) : ℚ) = -((a.id - b.id : ℤ) : ℚ) := by push_cast; ring
  refine ⟨⟨?_, ?_⟩, ⟨?_, ?_⟩, ?_⟩
  · rw [spriteSorter_bottomToTop_eq]
    split
    · exact hid
    · rename_i h
      intro h0
      rw [h0] at h
      simp at h
      linarith
  · rw [spriteSorter_topToBottom_eq]
    split
    · exact hid
    · rename_i h
      intro h0
      rw [h0] at h
      simp at h
      linarith
  · rw [spriteSorter_bottomToTop_eq, spriteSorter_bottomToTop_eq, abs_sub_comm b.sortKey]
    split
    · exact hneg
    · ring
  · rw [spriteSorter_topToBottom_eq, spriteSorter_topToBottom_eq, abs_sub_comm a.sortKey]
    split
    · exact hneg
    · ring
  · rintro (⟨h1, h2, h3⟩ | ⟨h1, h2, h3⟩)
    · simp only [spriteSorter_bottomToTop_eq, spriteSorter_topToBottom_eq,
        abs_sub_comm b.sortKey a.sortKey, abs_sub_comm c.sortKey b.sortKey,
        abs_sub_comm c.sortKey a.sortKey, not_lt.mpr h1, not_lt.mpr h2, not_lt.mpr h3,
        if_false]
      constructor <;> intro x y <;> linarith
    · simp only [spriteSorter_bottomToTop_eq, spriteSorter_topToBottom_eq,
        abs_sub_comm b.sortKey a.sortKey, abs_sub_comm c.sortKey b.sortKey,
        abs_sub_comm c.sortKey a.sortKey, h1, h2, h3, if_true]
      exact ⟨idDifference_trans _ _ _, idDifference_trans _ _ _⟩

/-- C9, amended, at tolerance `1` on sprites of depths `0`, `2`, `4` and ids `1`, `2`, `3`. -/
theorem spriteSorter_order_witness :
    0 < coarseEngine.c_epsilon
    ∧ (sampleSprite 1 1 0 ⟨0, 0, 1, 1⟩).id ≠ (sampleSprite 2 2 2 ⟨0, 0, 1, 1⟩).id
    ∧ _spriteSorter_bottomToTop coarseEngine
        (sampleSprite 1 1 0 ⟨0, 0, 1, 1⟩) (sampleSprite 2 2 2 ⟨0, 0, 1, 1⟩) ≠ 0
    ∧ _spriteSorter_bottomToTop coarseEngine
        (sampleSprite 2 2 2 ⟨0, 0, 1, 1⟩) (sampleSprite 1 1 0 ⟨0, 0, 1, 1⟩)
      = -_spriteSorter_bottomToTop coarseEngine
        (sampleSprite 1 1 0 ⟨0, 0, 1, 1⟩) (sampleSprite 2 2 2 ⟨0, 0, 1, 1⟩) :=
  have h := spriteSorter_order coarseEngine (by norm_num [coarseEngine, sampleEngine])
    (sampleSprite 1 1 0 ⟨0, 0, 1, 1⟩) (sampleSprite 2 2 2 ⟨0, 0, 1, 1⟩)
    (sampleSprite 3 3 4 ⟨0, 0, 1, 1⟩) (by decide)
  ⟨by norm_num [coarseEngine, sampleEngine], by decide, h.1.1, h.2.1.1⟩

/-! ## Boxes -/

/-- Containment of boxes, coordinate by coordinate. -/
theorem boxContainsBox_iff (a b : Box) :
    boxContainsBox a b = true ↔
      a.minX ≤ b.minX ∧ a.minY ≤ b.minY ∧ b.maxX ≤ a.maxX ∧ b.maxY ≤ a.maxY := by
  simp [boxContainsBox]

/-- Intersection of boxes, coordinate by coordinate. -/
theorem boxIntersectsBox_iff (a b : Box) :
    boxIntersectsBox a b = true ↔
      a.minX ≤ b.maxX ∧ b.minX ≤ a.maxX ∧ a.minY ≤ b.maxY ∧ b.minY ≤ a.maxY := by
  simp [boxIntersectsBox]

/-- Every box contains itself. -/
theorem boxContainsBox_refl (a : Box) : boxContainsBox a a = true := by
  simp [boxContainsBox]

/-- Containment of boxes is transitive. -/
theorem boxContainsBox_trans {a b c : Box} (hab : boxContainsBox a b = true)
    (hbc : boxContainsBox b c = true) : boxContainsBox a c = true := by
  rw [boxContainsBox_iff] at *
  obtain ⟨h1, h2, h3, h4⟩ := hab
  obtain ⟨g1, g2, g3, g4⟩ := hbc
  exact ⟨h1.trans g1, h2.trans g2, g3.trans h3, g4.trans h4⟩

/-- A box that intersects a box intersects every box containing it. -/
theorem boxIntersectsBox_mono {s a b : Box} (hab : boxContainsBox b a = true)
    (h : boxIntersectsBox s a = true) : boxIntersectsBox s b = true := by
  rw [boxContainsBox_iff] at hab
  rw [boxIntersectsBox_iff] at *
  obtain ⟨h1, h2, h3, h4⟩ := hab
  obtain ⟨g1, g2, g3, g4⟩ := h
  exact ⟨g1.trans h3, h1.trans g2, g3.trans h4, h2.trans g4⟩

/-- A clamped box lies inside the clamping box. -/
theorem clampBoxToBox_within (d V : Box) : boxContainsBox V (clampBoxToBox d V) = true := by
  simp [boxContainsBox, clampBoxToBox]

/-- An expanded box contains the box it was expanded from. -/
theorem expandBox_contains_left (d b : Box) : boxContainsBox (expandBox d b) d = true := by
  simp [boxContainsBox, expandBox]

/-- An expanded box contains the box it was expanded by. -/
theorem expandBox_contains_right (d b : Box) : boxContainsBox (expandBox d b) b = true := by
  simp [boxContainsBox, expandBox]

/-! ## The expansion of the dirty area by the flagged sprites -/

/-- Unfolding of the expansion on a non-empty array. -/
theorem expandToFlagged_cons (d : Box) (s : Sprite) (l : List Sprite) :
    expandToFlagged d (s :: l) =
      expandToFlagged (if s.needsDrawing && s.visible then expandBox d s.boundingBox else d) l := by
  simp [expandToFlagged]

/-- The expansion contains the area it starts from. -/
theorem expandToFlagged_contains (l : List Sprite) (d : Box) :
    boxContainsBox (expandToFlagged d l) d = true := by
  induction l generalizing d with
  | nil => simp [expandToFlagged, boxContainsBox_refl]
  | cons s l ih =>
    rw [expandToFlagged_cons]
    split
    · exact boxContainsBox_trans (ih _) (expandBox_contains_left _ _)
    · exact ih _

/-- The expansion contains the bounding box of every flagged visible sprite. -/
theorem expandToFlagged_contains_sprite (l : List Sprite) (d : Box) (s : Sprite) (hs : s ∈ l)
    (hf : s.needsDrawing = true) (hv : s.visible = true) :
    boxContainsBox (expandToFlagged d l) s.boundingBox = true := by
  induction l generalizing d with
  | nil => simp at hs
  | cons x l ih =>
    rw [expandToFlagged_cons]
    rcases List.mem_cons.mp hs with h | h
    · subst h
      simp only [hf, hv, Bool.and_self, if_true]
      exact boxContainsBox_trans (expandToFlagged_contains _ _) (expandBox_contains_right _ _)
    · exact ih _ h

/-- Each coordinate of the expansion is the coordinate of the area it starts from
or of the bounding box of a flagged visible sprite. -/
theorem expandToFlagged_coordinates (l : List Sprite) (d : Box) :
    ((expandToFlagged d l).minX = d.minX
        ∨ ∃ s ∈ l, s.needsDrawing = true ∧ s.visible = true
            ∧ (expandToFlagged d l).minX = s.boundingBox.minX)
    ∧ ((expandToFlagged d l).minY = d.minY
        ∨ ∃ s ∈ l, s.needsDrawing = true ∧ s.visible = true
            ∧ (expandToFlagged d l).minY = s.boundingBox.minY)
    ∧ ((expandToFlagged d l).maxX = d.maxX
        ∨ ∃ s ∈ l, s.needsDrawing = true ∧ s.visible = true
            ∧ (expandToFlagged d l).maxX = s.boundingBox.maxX)
    ∧ ((expandToFlagged d l).maxY = d.maxY
        ∨ ∃ s ∈ l, s.needsDrawing = true ∧ s.visible = true
            ∧ (expandToFlagged d l).maxY = s.boundingBox.maxY) := by
  induction l generalizing d with
  | nil => simp [expandToFlagged]
  | cons x l ih =>
    rw [expandToFlagged_cons]
    by_cases hx : (x.needsDrawing && x.visible) = true
    · have hx' : x.needsDrawing = true ∧ x.visible = true := by simpa using hx
      simp only [hx, if_true]
      obtain ⟨h1, h2, h3, h4⟩ := ih (expandBox d x.boundingBox)
      refine ⟨?_, ?_, ?_, ?_⟩
      · rcases h1 with h | ⟨s, hs, hf, hv, h⟩
        · rcases min_choice d.minX x.boundingBox.minX with hm | hm
          · left; rw [h]; exact hm
          · right; exact ⟨x, List.mem_cons_self _ _, hx'.1, hx'.2, by rw [h]; exact hm⟩
        · right; exact ⟨s, List.mem_cons_of_mem _ hs, hf, hv, h⟩
      · rcases h2 with h | ⟨s, hs, hf, hv, h⟩
        · rcases min_choice d.minY x.boundingBox.minY with hm | hm
          · left; rw [h]; exact hm
          · right; exact ⟨x, List.mem_cons_self _ _, hx'.1, hx'.2, by rw [h]; exact hm⟩
        · right; exact ⟨s, List.mem_cons_of_mem _ hs, hf, hv, h⟩
      · rcases h3 with h | ⟨s, hs, hf, hv, h⟩
        · rcases max_choice d.maxX x.boundingBox.maxX with hm | hm
          · left; rw [h]; exact hm
          · right; exact ⟨x, List.mem_cons_self _ _, hx'.1, hx'.2, by rw [h]; exact hm⟩
        · right; exact ⟨s, List.mem_cons_of_mem _ hs, hf, hv, h⟩
      · rcases h4 with h | ⟨s, hs, hf, hv, h⟩
        · rcases max_choice d.maxY x.boundingBox.maxY with hm | hm
          · left; rw [h]; exact hm
          · right; exact ⟨x, List.mem_cons_self _ _, hx'.1, hx'.2, by rw [h]; exact hm⟩
        · right; exact ⟨s, List.mem_cons_of_mem _ hs, hf, hv, h⟩
    · simp only [hx, if_false, Bool.false_eq_true]
      obtain ⟨h1, h2, h3, h4⟩ := ih d
      refine ⟨?_, ?_, ?_, ?_⟩
      · rcases h1 with h | ⟨s, hs, hf, hv, h⟩
        · left; exact h
        · right; exact ⟨s, List.mem_cons_of_mem _ hs, hf, hv, h⟩
      · rcases h2 with h | ⟨s, hs, hf, hv, h⟩
        · left; exact h
        · right; exact ⟨s, List.mem_cons_of_mem _ hs, hf, hv, h⟩
      · rcases h3 with h | ⟨s, hs, hf, hv, h⟩
        · left; exact h
        · right; exact ⟨s, List.mem_cons_of_mem _ hs, hf, hv, h⟩
      · rcases h4 with h | ⟨s, hs, hf, hv, h⟩
        · left; exact h
        · right; exact ⟨s, List.mem_cons_of_mem _ hs, hf, hv, h⟩

/-- Expanding by the same flagged sprites and clamping a second time changes nothing. -/
theorem clamp_expand_idem (l : List Sprite) (o V : Box) :
    clampBoxToBox (expandToFlagged (clampBoxToBox (expandToFlagged o l) V) l) V
      = clampBoxToBox (expandToFlagged o l) V := by
  have hc := expandToFlagged_contains l (clampBoxToBox (expandToFlagged o l) V)
  rw [boxContainsBox_iff] at hc
  obtain ⟨c1, c2, c3, c4⟩ := hc
  obtain ⟨k1, k2, k3, k4⟩ :=
    expandToFlagged_coordinates l (clampBoxToBox (expandToFlagged o l) V)
  have hs : ∀ s ∈ l, s.needsDrawing = true → s.visible = true →
      (expandToFlagged o l).minX ≤ s.boundingBox.minX
      ∧ (expandToFlagged o l).minY ≤ s.boundingBox.minY
      ∧ s.boundingBox.maxX ≤ (expandToFlagged o l).maxX
      ∧ s.boundingBox.maxY ≤ (expandToFlagged o l).maxY := fun s hs hf hv =>
    (boxContainsBox_iff _ _).mp (expandToFlagged_contains_sprite l o s hs hf hv)
  simp only [clampBoxToBox] at c1 c2 c3 c4 k1 k2 k3 k4 ⊢
  simp only [Box.mk.injEq]
  refine ⟨?_, ?_, ?_, ?_⟩
  · apply le_antisymm
    · exact max_le c1 (le_max_right _ _)
    · rcases k1 with h | ⟨s, hs', hf, hv, h⟩
      · rw [h]; exact le_max_left _ _
      · rw [h]
        exact max_le (le_max_of_le_left (hs s hs' hf hv).1) (le_max_right _ _)
  · apply le_antisymm
    · exact max_le c2 (le_max_right _ _)
    · rcases k2 with h | ⟨s, hs', hf, hv, h⟩
      · rw [h]; exact le_max_left _ _
      · rw [h]
        exact max_le (le_max_of_le_left (hs s hs' hf hv).2.1) (le_max_right _ _)
  · apply le_antisymm
    · rcases k3 with h | ⟨s, hs', hf, hv, h⟩
      · rw [h]; exact min_le_left _ _
      · rw [h]
        exact le_min (min_le_of_left_le (hs s hs' hf hv).2.2.1) (min_le_right _ _)
    · exact le_min c3 (min_le_right _ _)
  · apply le_antisymm
    · rcases k4 with h | ⟨s, hs', hf, hv, h⟩
      · rw [h]; exact min_le_left _ _
      · rw [h]
        exact le_min (min_le_of_left_le (hs s hs' hf hv).2.2.2) (min_le_right _ _)
    · exact le_min c4 (min_le_right _ _)

/-- Inside the visible rectangle, expanding and clamping does not shrink the area. -/
theorem clamp_expand_contains (l : List Sprite) (d V : Box) (hd : boxContainsBox V d = true) :
    boxContainsBox (clampBoxToBox (expandToFlagged d l) V) d = true := by
  have hc := expandToFlagged_contains l d
  rw [boxContainsBox_iff] at hc hd ⊢
  obtain ⟨c1, c2, c3, c4⟩ := hc
  obtain ⟨d1, d2, d3, d4⟩ := hd
  simp only [clampBoxToBox]
  exact ⟨max_le c1 d1, max_le c2 d2, le_min c3 d3, le_min c4 d4⟩

/-! ## Flagging through the spatial index -/

/-- Unfolding of the flagging on a non-empty array. -/
theorem flagObjects_cons (q : QuadTree) (area : Box) (s : Sprite) (l : List Sprite) :
    flagObjects q area (s :: l) =
      (if s.key ∈ q.objects ∧ boxIntersectsBox s.boundingBox area = true then
        { s with needsDrawing := true } else s) :: flagObjects q area l := by
  simp [flagObjects]

/-- Flagging keeps the length of the array. -/
theorem flagObjects_length (q : QuadTree) (area : Box) (l : List Sprite) :
    (flagObjects q area l).length = l.length := by
  simp [flagObjects]

/-- Flagging changes nothing but `needsDrawing` flags. -/
theorem clearFlags_flagObjects (q : QuadTree) (area : Box) (l : List Sprite) :
    clearFlags (flagObjects q area l) = clearFlags l := by
  simp only [clearFlags, flagObjects, List.map_map]
  apply List.map_congr_left
  intro s _
  simp only [Function.comp]
  split <;> rfl

/-- Flagging never raises the number of sprites without the flag. -/
theorem unflagged_flagObjects_le (q : QuadTree) (area : Box) (l : List Sprite) :
    unflagged (flagObjects q area l) ≤ unflagged l := by
  induction l with
  | nil => simp [flagObjects, unflagged]
  | cons s l ih =>
    rw [flagObjects_cons]
    simp only [unflagged, List.countP_cons] at ih ⊢
    split
    · simp only [Bool.not_true, Bool.false_eq_true, if_false, add_zero]
      split <;> omega
    · omega

/-- Flagging that changes the array lowers the number of sprites without the flag. -/
theorem unflagged_flagObjects_lt (q : QuadTree) (area : Box) (l : List Sprite)
    (h : flagObjects q area l ≠ l) : unflagged (flagObjects q area l) < unflagged l := by
  induction l with
  | nil => simp [flagObjects] at h
  | cons s l ih =>
    have hle := unflagged_flagObjects_le q area l
    rw [flagObjects_cons] at h ⊢
    simp only [unflagged, List.countP_cons] at ih hle ⊢
    by_cases hc : s.key ∈ q.objects ∧ boxIntersectsBox s.boundingBox area = true
    · simp only [hc, and_self, if_true, Bool.not_true, Bool.false_eq_true, if_false,
        add_zero] at h ⊢
      by_cases hf : s.needsDrawing = true
      · have hs : ({ s with needsDrawing := true } : Sprite) = s := by
          cases s; simp only at hf; subst hf; rfl
        rw [hs] at h
        have h' : flagObjects q area l ≠ l := fun e => h (by rw [e])
        have := ih h'
        simp only [hf, Bool.not_true, Bool.false_eq_true, if_false, add_zero]
        exact this
      · simp only [hf, Bool.not_false, if_true]
        omega
    · simp only [hc, if_false] at h ⊢
      have h' : flagObjects q area l ≠ l := fun e => h (by rw [e])
      have := ih h'
      omega

/-- Flagging with an area and then with an area containing it is flagging with
the larger area. -/
theorem flagObjects_absorb (q : QuadTree) (o d : Box) (l : List Sprite)
    (hod : boxContainsBox d o = true) :
    flagObjects q d (flagObjects q o l) = flagObjects q d l := by
  simp only [flagObjects, List.map_map]
  apply List.map_congr_left
  intro s _
  simp only [Function.comp]
  by_cases ho : s.key ∈ q.objects ∧ boxIntersectsBox s.boundingBox o = true
  · have hd : s.key ∈ q.objects ∧ boxIntersectsBox s.boundingBox d = true :=
      ⟨ho.1, boxIntersectsBox_mono hod ho.2⟩
    simp only [ho, hd, and_self, if_true]
  · simp only [ho, if_false]


/-! ## The expansion loop -/

/-- Unfolding of one round of the expansion loop. -/
theorem expandDirtyArea_succ (q : QuadTree) (V : Box) (fuel : ℕ) (old : Option Box) (d : Box)
    (l : List Sprite) :
    expandDirtyArea q V (fuel + 1) old d l =
      if old = some d then Expansion.fixed d l
      else expandDirtyArea q V fuel (some d)
        (clampBoxToBox (expandToFlagged d (flagObjects q d l)) V) (flagObjects q d l) := by
  simp [expandDirtyArea, isNaN]

/-- The expansion loop changes nothing but `needsDrawing` flags. -/
theorem expandDirtyArea_clearFlags (q : QuadTree) (V : Box) (fuel : ℕ) (old : Option Box)
    (d : Box) (l : List Sprite) (R : Box) (l' : List Sprite)
    (h : expandDirtyArea q V fuel old d l = Expansion.fixed R l') :
    clearFlags l' = clearFlags l := by
  induction fuel generalizing old d l with
  | zero => simp [expandDirtyArea] at h
  | succ n ih =>
    rw [expandDirtyArea_succ] at h
    split at h
    · simp only [Expansion.fixed.injEq] at h
      rw [h.2]
    · rw [ih _ _ _ h, clearFlags_flagObjects]

/-- The expansion loop never stops at the NaN check: coordinates are rationals. -/
theorem expandDirtyArea_ne_invalid (q : QuadTree) (V : Box) (fuel : ℕ) (old : Option Box)
    (d : Box) (l : List Sprite) (R : Box) (l' : List Sprite) :
    expandDirtyArea q V fuel old d l ≠ Expansion.invalid R l' := by
  induction fuel generalizing old d l with
  | zero => simp [expandDirtyArea]
  | succ n ih =>
    rw [expandDirtyArea_succ]
    split
    · simp
    · exact ih _ _ _

/-- Termination of the expansion loop after its first round: with an iteration
budget of two more than the number of sprites not yet flagged, the loop reaches
a fixed point. -/
theorem expandDirtyArea_terminates_from (q : QuadTree) (V : Box) (fuel : ℕ) (o d : Box)
    (l : List Sprite) (hd : d = clampBoxToBox (expandToFlagged o l) V)
    (hfuel : unflagged l + 2 ≤ fuel) :
    ∃ R l', expandDirtyArea q V fuel (some o) d l = Expansion.fixed R l' := by
  induction fuel generalizing o d l with
  | zero => omega
  | succ n ih =>
    rw [expandDirtyArea_succ]
    by_cases hod : some o = some d
    · exact ⟨d, l, by simp [hod]⟩
    · simp only [hod, if_false]
      by_cases hsame : flagObjects q d l = l
      · have hd' : clampBoxToBox (expandToFlagged d (flagObjects q d l)) V = d := by
          rw [hsame]
          conv_lhs => rw [hd]
          rw [clamp_expand_idem]
          exact hd.symm
        rw [hd', hsame]
        obtain ⟨m, rfl⟩ : ∃ m, n = m + 1 := ⟨n - 1, by omega⟩
        exact ⟨d, l, by rw [expandDirtyArea_succ]; simp⟩
      · have hlt := unflagged_flagObjects_lt q d l hsame
        exact ih d _ (flagObjects q d l) rfl (by omega)

/-- Termination of the expansion loop: with an iteration budget of three more than
the number of sprites, the loop of `draw` reaches a fixed point. -/
theorem expandDirtyArea_terminates (q : QuadTree) (V : Box) (d : Box) (l : List Sprite)
    (fuel : ℕ) (hfuel : l.length + 3 ≤ fuel) :
    ∃ R l', expandDirtyArea q V fuel none d l = Expansion.fixed R l' := by
  obtain ⟨n, rfl⟩ : ∃ n, fuel = n + 1 := ⟨fuel - 1, by omega⟩
  rw [expandDirtyArea_succ]
  simp only [reduceCtorEq, if_false]
  apply expandDirtyArea_terminates_from q V n d _ _ rfl
  have h1 := unflagged_flagObjects_le q d l
  have h2 : unflagged l ≤ l.length := by
    simp only [unflagged]; exact List.countP_le_length _
  omega

/-- What the expansion loop leaves after its first round, when the area stays
inside the visible rectangle: the sprites flagged are those of the index that
intersect the final area, which contains every earlier area and is a fixed point
of expanding and clamping. -/
theorem expandDirtyArea_fixed_from (q : QuadTree) (V : Box) (l0 : List Sprite) (fuel : ℕ)
    (o d : Box) (l : List Sprite) (R : Box) (l' : List Sprite)
    (hl : l = flagObjects q o l0) (hod : boxContainsBox d o = true)
    (hV : boxContainsBox V d = true) (hd : d = clampBoxToBox (expandToFlagged o l) V)
    (h : expandDirtyArea q V fuel (some o) d l = Expansion.fixed R l') :
    l' = flagObjects q R l0 ∧ boxContainsBox R o = true ∧ boxContainsBox V R = true
      ∧ clampBoxToBox (expandToFlagged R l') V = R := by
  induction fuel generalizing o d l with
  | zero => simp [expandDirtyArea] at h
  | succ n ih =>
    rw [expandDirtyArea_succ] at h
    by_cases hsame : some o = some d
    · simp only [hsame, if_true, Expansion.fixed.injEq] at h
      obtain ⟨h1, h2⟩ := h
      have hod' : o = d := Option.some.inj hsame
      subst h1 h2 hod'
      exact ⟨hl, boxContainsBox_refl _, hV, hd.symm⟩
    · simp only [hsame, if_false] at h
      have hl2 : flagObjects q d l = flagObjects q d l0 := by
        rw [hl, flagObjects_absorb q o d l0 hod]
      obtain ⟨r1, r2, r3, r4⟩ := ih d _ (flagObjects q d l) hl2
        (clamp_expand_contains _ d V hV) (clampBoxToBox_within _ _) rfl h
      exact ⟨r1, boxContainsBox_trans r2 hod, r3, r4⟩

/-- What the expansion loop of `draw` computes from a starting area inside the
visible rectangle and sprites without flags. -/
theorem expandDirtyArea_fixed (q : QuadTree) (V : Box) (l0 : List Sprite) (fuel : ℕ)
    (d : Box) (R : Box) (l' : List Sprite) (hV : boxContainsBox V d = true)
    (h : expandDirtyArea q V fuel none d l0 = Expansion.fixed R l') :
    l' = flagObjects q R l0 ∧ boxContainsBox R d = true ∧ boxContainsBox V R = true
      ∧ clampBoxToBox (expandToFlagged R l') V = R := by
  cases fuel with
  | zero => simp [expandDirtyArea] at h
  | succ n =>
    rw [expandDirtyArea_succ] at h
    simp only [reduceCtorEq, if_false] at h
    exact expandDirtyArea_fixed_from q V l0 n d _ (flagObjects q d l0) R l' rfl
      (clamp_expand_contains _ d V hV) (clampBoxToBox_within _ _) rfl h


/-! ## The sorting step keeps the sprites -/

/-- The forward scan splits the sprites it is given. -/
theorem scanForward_append (f : Sprite → Sprite → ℚ) (m : Sprite) (l : List Sprite) :
    (scanForward f m l).1 ++ (scanForward f m l).2 = l := by
  induction l with
  | nil => simp [scanForward]
  | cons x l ih =>
    simp only [scanForward]
    split
    · simp [ih]
    · simp

/-- The backward scan splits the sprites it is given. -/
theorem scanBackward_append (f : Sprite → Sprite → ℚ) (m : Sprite) (l : List Sprite) :
    (scanBackward f m l).1 ++ (scanBackward f m l).2 = l := by
  induction l with
  | nil => simp [scanBackward]
  | cons x l ih =>
    simp only [scanBackward]
    split
    · simp [ih]
    · simp

/-- Marking the areas of a list of sprites dirty appends their bounding boxes to
the dirty areas and changes nothing else. -/
theorem foldl_setDirtyArea (l : List Sprite) (L : Layer) :
    l.foldl Layer.setDirtyArea L =
      { L with dirtyAreas := L.dirtyAreas ++ l.map fun s => s.boundingBox } := by
  induction l generalizing L with
  | nil => simp
  | cons s l ih =>
    rw [List.foldl_cons, ih]
    simp [Layer.setDirtyArea, Layer.addDirtyArea]

/-- The relocation of one moving sprite permutes the sprites and appends dirty
areas; it changes nothing else. -/
theorem relocate_shape (f : Sprite → Sprite → ℚ) (L : Layer) (k : ℕ) :
    ∃ S extra, S.Perm L.sprites
      ∧ L.relocate f k = { L with sprites := S, dirtyAreas := L.dirtyAreas ++ extra } := by
  have hsplit := List.take_append_drop (L.sprites.findIdx fun s => s.key == k) L.sprites
  unfold Layer.relocate
  simp only
  generalize List.drop (L.sprites.findIdx fun s => s.key == k) L.sprites = dr at hsplit ⊢
  generalize List.take (L.sprites.findIdx fun s => s.key == k) L.sprites = before at hsplit ⊢
  cases dr with
  | nil => exact ⟨L.sprites, [], List.Perm.refl _, by simp⟩
  | cons m after =>
    simp only
    split
    · refine ⟨_, _, ?_, by rw [foldl_setDirtyArea]⟩
      rw [← hsplit]
      have h := scanForward_append f m after
      generalize scanForward f m after = r at h ⊢
      obtain ⟨r1, r2⟩ := r
      simp only at h ⊢
      subst h
      simp only [List.append_assoc]
      apply List.Perm.append_left
      exact List.perm_middle
    · refine ⟨_, _, ?_, by rw [foldl_setDirtyArea]⟩
      rw [← hsplit]
      have h := scanBackward_append f m before.reverse
      generalize scanBackward f m before.reverse = r at h ⊢
      obtain ⟨r1, r2⟩ := r
      simp only at h ⊢
      have h' : before = r2.reverse ++ r1.reverse := by
        rw [← List.reverse_append, h, List.reverse_reverse]
      rw [h']
      simp only [List.append_assoc]
      apply List.Perm.append_left
      rw [List.cons_append, ← List.cons_append]
      exact (List.perm_middle).symm

/-- The relocation of the moving sprites permutes the sprites and appends dirty
areas; it changes nothing else. -/
theorem foldl_relocate_shape (f : Sprite → Sprite → ℚ) (keys : List ℕ) (L : Layer) :
    ∃ S extra, S.Perm L.sprites
      ∧ keys.foldl (Layer.relocate f) L
          = { L with sprites := S, dirtyAreas := L.dirtyAreas ++ extra } := by
  induction keys generalizing L with
  | nil => exact ⟨L.sprites, [], List.Perm.refl _, by simp⟩
  | cons k keys ih =>
    obtain ⟨S1, e1, hp1, h1⟩ := relocate_shape f L k
    obtain ⟨S2, e2, hp2, h2⟩ := ih (L.relocate f k)
    refine ⟨S2, e1 ++ e2, ?_, ?_⟩
    · rw [h1] at hp2; exact hp2.trans hp1
    · rw [List.foldl_cons, h2, h1]
      simp

/-- The sorting step of `draw` permutes the sprites, may append dirty areas, and
resets `_needsFullSorting` and `_movingSprites`; it changes nothing else. -/
theorem drawSort_shape (env : Engine) (L : Layer) :
    ∃ S extra, S.Perm L.sprites
      ∧ L.drawSort env = { L with sprites := S, dirtyAreas := L.dirtyAreas ++ extra,
                                  needsFullSorting := false, movingSprites := [] } := by
  unfold Layer.drawSort
  cases L.sortingFunction env with
  | none => exact ⟨L.sprites, [], List.Perm.refl _, by simp⟩
  | some f =>
    simp only
    split
    · exact ⟨jsSort f L.sprites, [], List.perm_insertionSort _ _, by simp⟩
    · obtain ⟨S, e, hp, h⟩ := foldl_relocate_shape f L.movingSprites L
      exact ⟨S, e, hp, by rw [h]⟩


/-! ## The visible rectangle and the starting area -/

/-- The screen box and the canvas box are the same rectangle of world space. -/
theorem screenInWorldSpace_eq (env : Engine) (L : Layer) :
    L.screenInWorldSpace env = L.canvasInWorldSpace env := by
  simp only [Layer.screenInWorldSpace, Layer.canvasInWorldSpace, screenBoxToWorld_corners,
    canvasBoxToWorld_corners, Box.mk.injEq]
  refine ⟨?_, ?_, ?_, ?_⟩ <;> ring

/-- Flagging sprites whose flags were cleared sets the flags of `redrawFlags`. -/
theorem flagObjects_clearFlags (q : QuadTree) (R : Box) (l : List Sprite) :
    flagObjects q R (clearFlags l) = redrawFlags q R l := by
  simp only [flagObjects, clearFlags, redrawFlags, List.map_map]
  apply List.map_congr_left
  intro s _
  simp only [Function.comp]
  by_cases h : s.key ∈ q.objects ∧ boxIntersectsBox s.boundingBox R = true
  · simp [h]
  · simp only [h, if_false, decide_False]

/-- The members of the flagged array. -/
theorem mem_redrawFlags (q : QuadTree) (R : Box) (l : List Sprite) (s : Sprite) :
    s ∈ redrawFlags q R l ↔
      ∃ s0 ∈ l, s =
        { s0 with
          needsDrawing :=
            decide (s0.key ∈ q.objects ∧ boxIntersectsBox s0.boundingBox R = true) } := by
  simp only [redrawFlags, List.mem_map]
  constructor
  · rintro ⟨a, ha, rfl⟩; exact ⟨a, ha, rfl⟩
  · rintro ⟨a, ha, rfl⟩; exact ⟨a, ha, rfl⟩

/-- The bounding region built by `_joinDirtyAreas` before clamping. -/
theorem joinFold_contains (screen : Box) (areas : List Box) (init : Box) :
    boxContainsBox (areas.foldl
        (fun result area => if boxIntersectsBox screen area then expandBox result area else result)
        init) init = true
    ∧ ∀ a ∈ areas, boxIntersectsBox screen a = true →
        boxContainsBox (areas.foldl
          (fun result area =>
            if boxIntersectsBox screen area then expandBox result area else result)
          init) a = true := by
  induction areas generalizing init with
  | nil => simp [boxContainsBox_refl]
  | cons x l ih =>
    simp only [List.foldl_cons, List.mem_cons]
    by_cases hx : boxIntersectsBox screen x = true
    · simp only [hx, if_true]
      obtain ⟨h1, h2⟩ := ih (expandBox init x)
      refine ⟨boxContainsBox_trans h1 (expandBox_contains_left _ _), ?_⟩
      rintro a (rfl | ha) hi
      · exact boxContainsBox_trans h1 (expandBox_contains_right _ _)
      · exact h2 a ha hi
    · simp only [hx, if_false, Bool.false_eq_true]
      obtain ⟨h1, h2⟩ := ih init
      refine ⟨h1, ?_⟩
      rintro a (rfl | ha) hi
      · exact absurd hi hx
      · exact h2 a ha hi

/-- Clamping keeps containment: the clamped box contains the part of a contained
box that lies in the clamping box. -/
theorem clampBoxToBox_mono {a b : Box} (V : Box) (h : boxContainsBox a b = true) :
    boxContainsBox (clampBoxToBox a V) (clampBoxToBox b V) = true := by
  rw [boxContainsBox_iff] at h ⊢
  obtain ⟨h1, h2, h3, h4⟩ := h
  simp only [clampBoxToBox]
  exact ⟨max_le_max h1 le_rfl, max_le_max h2 le_rfl, min_le_min h3 le_rfl, min_le_min h4 le_rfl⟩

/-- The area `_joinDirtyAreas` returns, when there are dirty areas, lies inside the
visible rectangle and contains the part inside it of every dirty area that
intersects it. -/
theorem joinDirtyAreas_some (env : Engine) (L : Layer) (d0 : Box) (hne : L.dirtyAreas ≠ [])
    (h : L._joinDirtyAreas env = some d0) :
    boxContainsBox (L.canvasInWorldSpace env) d0 = true
    ∧ ∀ a ∈ L.dirtyAreas, boxIntersectsBox (L.canvasInWorldSpace env) a = true →
        boxContainsBox d0 (clampBoxToBox a (L.canvasInWorldSpace env)) = true := by
  have hlen : L.dirtyAreas.length ≠ 0 := by
    intro h0; exact hne (List.length_eq_zero.mp h0)
  simp only [Layer._joinDirtyAreas, hlen, if_false, screenInWorldSpace_eq] at h
  split at h
  · simp at h
  · simp only [Option.some.injEq] at h
    subst h
    refine ⟨clampBoxToBox_within _ _, ?_⟩
    intro a ha hi
    exact clampBoxToBox_mono _ ((joinFold_contains _ _ _).2 a ha hi)


/-! ## The shape of a call of `draw` -/

/-- Lines 179-193 of `draw` write `_needsFullRedraw`, `_renderMode` and
`_needsFlipping` only, and never reset a pending full redraw. -/
theorem drawPrepare_shape (env : Engine) (L : Layer) :
    ∃ fr mode fl, (L.needsFullRedraw = true → fr = true)
      ∧ L.drawPrepare env
          = { L with needsFullRedraw := fr, renderMode := mode, needsFlipping := fl } := by
  unfold Layer.drawPrepare
  simp only
  split <;> split <;>
    first
    | exact ⟨_, _, _, fun _ => rfl, rfl⟩
    | exact ⟨_, _, _, fun h => h, rfl⟩

/-- The calls that set the camera transform clear nothing and draw no sprite. -/
theorem cameraCalls_plain (env : Engine) (L : Layer) (b : Bool) :
    ∀ c ∈ L.cameraCalls env b, c.isSpriteDraw = false ∧ c.isClear = false := by
  unfold Layer.cameraCalls
  cases L.renderMode <;> cases b <;> simp [Call.isSpriteDraw, Call.isClear]

/-- The clearing calls draw no sprite. -/
theorem clearCalls_noSprite (env : Engine) (L : Layer) (d : Box) :
    ∀ c ∈ (L.clearCalls env d).1, c.isSpriteDraw = false := by
  unfold Layer.clearCalls
  cases L.renderMode <;> cases L.clearCanvas <;> cases L.needsFullRedraw <;>
    simp [Call.isSpriteDraw, Layer.scissorCall]

/-- The post-render step draws no sprite. -/
theorem postRenderCalls_noSprite (env : Engine) (L : Layer) (a : Option Box) :
    ∀ c ∈ L.postRenderCalls env a, c.isSpriteDraw = false := by
  unfold Layer.postRenderCalls
  cases L.renderMode <;> cases L.useOffScreenTarget <;> cases L.clearCanvas <;> cases a <;>
    simp [Call.isSpriteDraw, Layer.scissorCall]

/-- Every call of a sprite's draw entry point is a sprite draw. -/
theorem spriteDrawCalls_filter (mode : RenderMode) (l : List Sprite) :
    (spriteDrawCalls mode l).filter Call.isSpriteDraw = spriteDrawCalls mode l := by
  simp [spriteDrawCalls, List.filter_eq_self, Call.isSpriteDraw]

/-- A list of calls none of which is a sprite draw. -/
theorem filter_isSpriteDraw_nil (l : List Call) (h : ∀ c ∈ l, c.isSpriteDraw = false) :
    l.filter Call.isSpriteDraw = [] := by
  simp only [List.filter_eq_nil_iff]
  intro c hc
  simp [h c hc]

/-- The quadtree branch of `draw`, when it reaches the drawing step from a pending
full redraw or a non-empty list of dirty areas. -/
theorem drawQuadtree_drawn (env : Engine) (L : Layer) (calls : List Call)
    (hstart : L.needsFullRedraw = true ∨ L.dirtyAreas ≠ [])
    (h : (L.drawQuadtree env calls).outcome = Outcome.drawn) :
    ∃ d0 R,
      (if L.needsFullRedraw then some (L.canvasInWorldSpace env) else L._joinDirtyAreas env)
        = some d0
      ∧ boxContainsBox (L.canvasInWorldSpace env) d0 = true
      ∧ boxContainsBox R d0 = true
      ∧ boxContainsBox (L.canvasInWorldSpace env) R = true
      ∧ clampBoxToBox (expandToFlagged R (redrawFlags L.quadTree R L.sprites))
          (L.canvasInWorldSpace env) = R
      ∧ expandDirtyArea L.quadTree (L.canvasInWorldSpace env) (L.sprites.length + 3) none d0
          (clearFlags L.sprites) = Expansion.fixed R (redrawFlags L.quadTree R L.sprites)
      ∧ (L.drawQuadtree env calls).dirtyArea = some R
      ∧ (L.drawQuadtree env calls).layer
          = ({ L with sprites := redrawFlags L.quadTree R L.sprites } : Layer).clearDirtyAreas
      ∧ (L.drawQuadtree env calls).calls.filter Call.isSpriteDraw
          = calls.filter Call.isSpriteDraw ++ spriteDrawCalls L.renderMode
              ((redrawFlags L.quadTree R L.sprites).filter fun s => s.needsDrawing) := by
  unfold Layer.drawQuadtree at h ⊢
  simp only at h ⊢
  have hst : ∃ d0, (if L.needsFullRedraw = true then
        ((some (L.canvasInWorldSpace env), L.cameraCalls env true) : Option Box × List Call)
      else (L._joinDirtyAreas env, [])).1 = some d0
      ∧ boxContainsBox (L.canvasInWorldSpace env) d0 = true
      ∧ (if L.needsFullRedraw = true then some (L.canvasInWorldSpace env)
          else L._joinDirtyAreas env) = some d0 := by
    by_cases hf : L.needsFullRedraw = true
    · exact ⟨_, by simp [hf], boxContainsBox_refl _, by simp [hf]⟩
    · have hne : L.dirtyAreas ≠ [] := hstart.resolve_left hf
      cases hj : L._joinDirtyAreas env with
      | none => simp [hf, hj] at h
      | some d0 =>
        exact ⟨d0, by simp [hf, hj], (joinDirtyAreas_some env L d0 hne hj).1, by simp [hf, hj]⟩
  obtain ⟨d0, hd0, hV0, hd0'⟩ := hst
  have hnoSprite : ∀ c ∈ (if L.needsFullRedraw = true then
        ((some (L.canvasInWorldSpace env), L.cameraCalls env true) : Option Box × List Call)
      else (L._joinDirtyAreas env, [])).2, c.isSpriteDraw = false := by
    intro c hc
    by_cases hf : L.needsFullRedraw = true
    · simp only [hf, if_true] at hc
      exact (cameraCalls_plain env L true c hc).1
    · simp [hf] at hc
  rw [hd0] at h ⊢
  simp only at h ⊢
  obtain ⟨R, l', hloop⟩ := expandDirtyArea_terminates L.quadTree (L.canvasInWorldSpace env) d0
    (L.sprites.map fun s => { s with needsDrawing := false }) (L.sprites.length + 3)
    (by simp)
  rw [hloop]
  simp only
  obtain ⟨r1, r2, r3, r4⟩ := expandDirtyArea_fixed L.quadTree (L.canvasInWorldSpace env)
    (clearFlags L.sprites) (L.sprites.length + 3) d0 R l' hV0 hloop
  rw [flagObjects_clearFlags] at r1
  subst r1
  refine ⟨d0, R, hd0', hV0, r2, r3, r4, hloop, rfl, rfl, ?_⟩
  simp only [List.filter_append, spriteDrawCalls_filter]
  rw [filter_isSpriteDraw_nil _ hnoSprite,
    filter_isSpriteDraw_nil _ (clearCalls_noSprite env _ R),
    filter_isSpriteDraw_nil _ (postRenderCalls_noSprite env _ _)]
  simp

/-- Clearing flags twice is clearing them once. -/
theorem clearFlags_clearFlags (l : List Sprite) : clearFlags (clearFlags l) = clearFlags l := by
  simp [clearFlags]

/-- The quadtree branch of `draw` changes nothing of the sprites but their
`needsDrawing` flags. -/
theorem drawQuadtree_clearFlags (env : Engine) (L : Layer) (calls : List Call) :
    clearFlags (L.drawQuadtree env calls).layer.sprites = clearFlags L.sprites := by
  unfold Layer.drawQuadtree
  simp only
  split
  · rfl
  · split
    · exact clearFlags_clearFlags _
    · rename_i h
      exact absurd h (expandDirtyArea_ne_invalid _ _ _ _ _ _ _ _)
    · rename_i h
      exact (expandDirtyArea_clearFlags _ _ _ _ _ _ _ _ h).trans (clearFlags_clearFlags _)

/-- The quadtree branch of `draw` never ends at the NaN check nor with the
iteration budget used up. -/
theorem drawQuadtree_outcome (env : Engine) (L : Layer) (calls : List Call) :
    (L.drawQuadtree env calls).outcome = Outcome.noDirtyArea
      ∨ (L.drawQuadtree env calls).outcome = Outcome.drawn := by
  unfold Layer.drawQuadtree
  simp only
  split
  · left; rfl
  · rename_i d0 _
    obtain ⟨R, l', hloop⟩ := expandDirtyArea_terminates L.quadTree (L.canvasInWorldSpace env)
      d0 (L.sprites.map fun s => { s with needsDrawing := false }) (L.sprites.length + 3)
      (by simp)
    rw [hloop]
    right; rfl

/-- A call of `draw` that is not a no-op: the layer left by lines 179-264 goes
through one of the two drawing branches. -/
theorem draw_eq (env : Engine) (L : Layer) (hn : L.nothingChanged = false) :
    L.draw env =
      if ((L.drawPrepare env).drawSort env).useQuadtree = true then
        ((L.drawPrepare env).drawSort env).drawQuadtree env
          (if (((L.drawPrepare env).drawSort env).renderMode == RenderMode.webgl
              && ((L.drawPrepare env).drawSort env).useOffScreenTarget) = true
           then [Call.bindFramebuffer true] else [])
      else
        ((L.drawPrepare env).drawSort env).drawEverything env
          (if (((L.drawPrepare env).drawSort env).renderMode == RenderMode.webgl
              && ((L.drawPrepare env).drawSort env).useOffScreenTarget) = true
           then [Call.bindFramebuffer true] else []) := by
  unfold Layer.draw
  simp only [hn, Bool.false_eq_true, if_false]

/-- What lines 179-264 of `draw` leave: the conversions, the index and the
quadtree switch are untouched, the sprites are permuted, dirty areas may have
been appended, and a pending full redraw stays pending. -/
theorem drawSorted_shape (env : Engine) (L : Layer) :
    ((L.drawPrepare env).drawSort env).toView = L.toView
    ∧ ((L.drawPrepare env).drawSort env).quadTree = L.quadTree
    ∧ ((L.drawPrepare env).drawSort env).useQuadtree = L.useQuadtree
    ∧ ((L.drawPrepare env).drawSort env).sprites.Perm L.sprites
    ∧ (∃ extra, ((L.drawPrepare env).drawSort env).dirtyAreas = L.dirtyAreas ++ extra)
    ∧ (L.needsFullRedraw = true → ((L.drawPrepare env).drawSort env).needsFullRedraw = true)
    ∧ ((L.drawPrepare env).drawSort env).renderMode = (L.drawPrepare env).renderMode := by
  obtain ⟨fr, mode, fl, hfr, hp⟩ := drawPrepare_shape env L
  obtain ⟨S, extra, hperm, hs⟩ := drawSort_shape env (L.drawPrepare env)
  rw [hs]
  rw [hp] at hperm ⊢
  exact ⟨rfl, rfl, rfl, hperm, ⟨extra, rfl⟩, hfr, rfl⟩

/-- The visible rectangle depends on the conversion fields only. -/
theorem canvasInWorldSpace_congr (env : Engine) (L1 L : Layer) (h : L1.toView = L.toView) :
    L1.canvasInWorldSpace env = L.canvasInWorldSpace env := by
  unfold Layer.canvasInWorldSpace
  rw [h]


/-! ## Dirty-region soundness -/

/-- A call of `draw` with the quadtree enabled that reaches the drawing step from
a pending full redraw or a non-empty list of dirty areas: the final area `R`,
the flags and the sprite draws. -/
theorem draw_drawn (env : Engine) (L : Layer) (hq : L.useQuadtree = true)
    (hstart : L.needsFullRedraw = true ∨ L.dirtyAreas ≠ [])
    (h : (L.draw env).outcome = Outcome.drawn) :
    ∃ R S, S.Perm L.sprites
      ∧ (L.draw env).dirtyArea = some R
      ∧ (L.draw env).layer.sprites = redrawFlags L.quadTree R S
      ∧ boxContainsBox (L.canvasInWorldSpace env) R = true
      ∧ (∀ a ∈ L.dirtyAreas, boxIntersectsBox (L.canvasInWorldSpace env) a = true →
          boxContainsBox R (clampBoxToBox a (L.canvasInWorldSpace env)) = true)
      ∧ clampBoxToBox (expandToFlagged R (redrawFlags L.quadTree R S))
          (L.canvasInWorldSpace env) = R
      ∧ (L.draw env).calls.filter Call.isSpriteDraw
          = spriteDrawCalls (L.draw env).layer.renderMode
              ((redrawFlags L.quadTree R S).filter fun s => s.needsDrawing) := by
  have hn : L.nothingChanged = false := by
    by_contra hc
    have hc' : L.nothingChanged = true := by simpa using hc
    simp [Layer.draw, hc'] at h
  obtain ⟨hview, hqt, huq, hperm, ⟨extra, hdirty⟩, hfull, -⟩ := drawSorted_shape env L
  rw [draw_eq env L hn] at h ⊢
  rw [huq, hq] at h ⊢
  simp only [if_true] at h ⊢
  have hstart' : ((L.drawPrepare env).drawSort env).needsFullRedraw = true
      ∨ ((L.drawPrepare env).drawSort env).dirtyAreas ≠ [] := by
    rcases hstart with hf | hd
    · exact Or.inl (hfull hf)
    · right
      rw [hdirty]
      intro h0
      exact hd (List.append_eq_nil.mp h0).1
  have hV := canvasInWorldSpace_congr env _ _ hview
  obtain ⟨d0, R, hd0, hV0, hR0, hVR, hfix, -, hda, hlayer, hcalls⟩ :=
    drawQuadtree_drawn env _ _ hstart' h
  rw [hV] at hd0 hV0 hVR hfix
  rw [hqt] at hfix hlayer hcalls
  refine ⟨R, _, hperm, hda, ?_, hVR, ?_, hfix, ?_⟩
  · rw [hlayer]; rfl
  · intro a ha hi
    by_cases hf : ((L.drawPrepare env).drawSort env).needsFullRedraw = true
    · simp only [hf, if_true, Option.some.injEq] at hd0
      subst hd0
      exact boxContainsBox_trans hR0 (clampBoxToBox_within _ _)
    · simp only [hf, if_false, Bool.false_eq_true] at hd0
      have hne : ((L.drawPrepare env).drawSort env).dirtyAreas ≠ [] :=
        hstart'.resolve_left hf
      have hj := (joinDirtyAreas_some env _ d0 hne hd0).2 a
        (by rw [hdirty]; exact List.mem_append_left _ ha) (by rw [hV]; exact hi)
      rw [hV] at hj
      exact boxContainsBox_trans hR0 hj
  · rw [hcalls, hlayer]
    have h0 : (if (((L.drawPrepare env).drawSort env).renderMode == RenderMode.webgl
          && ((L.drawPrepare env).drawSort env).useOffScreenTarget) = true
        then [Call.bindFramebuffer true] else []).filter Call.isSpriteDraw = [] := by
      split <;> simp [Call.isSpriteDraw]
    rw [h0]
    rfl

/-- C4 fails as stated: on a 100 by 100 screen (visible world rectangle `[-50, 50]`
in both directions) a sprite with bounding box `{100,100,110,110}` whose own box
is the only dirty area is neither flagged nor drawn; the call draws nothing. -/
theorem draw_offScreenDirtyArea_counterexample :
    (((freshLayer.addSprite item3).draw sampleEngine).layer.addDirtyArea
        ⟨100, 100, 110, 110⟩).useQuadtree = true
    ∧ (((freshLayer.addSprite item3).draw sampleEngine).layer.addDirtyArea
        ⟨100, 100, 110, 110⟩).sprites.map (fun s => (s.key, s.boundingBox))
        = [(3, ⟨100, 100, 110, 110⟩)]
    ∧ ((((freshLayer.addSprite item3).draw sampleEngine).layer.addDirtyArea
        ⟨100, 100, 110, 110⟩).draw sampleEngine).calls = []
    ∧ ((((freshLayer.addSprite item3).draw sampleEngine).layer.addDirtyArea
        ⟨100, 100, 110, 110⟩).draw sampleEngine).layer.sprites.map (fun s => s.needsDrawing)
        = [false] := by
  with_unfolding_all decide

/-! ## The early exit of `draw` -/

/-- C10 fails as stated: a layer with a canvas and the quadtree switched off, one
sprite, no dirty area, no pending full redraw and no always-draw sprite clears
the canvas and draws the sprite at every call of `draw`. -/
theorem draw_withoutQuadtree_counterexample :
    plainLayer.useQuadtree = false ∧ plainLayer.canvas = true
    ∧ plainLayer.dirtyAreas = [] ∧ plainLayer.needsFullRedraw = false
    ∧ plainLayer.alwaysDrawSprites = []
    ∧ (plainLayer.draw sampleEngine).calls =
        [Call.save, Call.setTransform 1 0 0 1 0 0, Call.clearRect 0 0 100 100, Call.restore,
          Call.setTransform 1 0 0 1 50 50, Call.spriteDraw 1 false] := by
  with_unfolding_all decide

/-- C10, amended: for a layer with the quadtree enabled or without a canvas, with
no pending dirty area, the full-redraw flag clear and no always-draw sprite,
`draw` is a no-op: it leaves the layer as it is and makes no call at all (so no
clear and no sprite draw). -/
theorem draw_nothingChanged (env : Engine) (L : Layer)
    (hq : L.useQuadtree = true ∨ L.canvas = false)
    (hd : L.dirtyAreas = []) (hf : L.needsFullRedraw = false)
    (ha : L.alwaysDrawSprites = []) :
    (L.draw env).layer = L ∧ (L.draw env).calls = []
      ∧ (L.draw env).outcome = Outcome.nothingChanged := by
  have hn : L.nothingChanged = true := by
    rcases hq with hq | hc
    · simp [Layer.nothingChanged, hq, hd, hf, ha]
    · simp [Layer.nothingChanged, hc]
  simp [Layer.draw, hn]

/-- C10, amended, at a fresh layer that has been drawn once. -/
theorem draw_nothingChanged_witness :
    (freshLayer.draw sampleEngine).layer.useQuadtree = true
    ∧ (freshLayer.draw sampleEngine).layer.dirtyAreas = []
    ∧ (freshLayer.draw sampleEngine).layer.needsFullRedraw = false
    ∧ (freshLayer.draw sampleEngine).layer.alwaysDrawSprites = []
    ∧ ((freshLayer.draw sampleEngine).layer.draw sampleEngine).calls = [] :=
  ⟨by with_unfolding_all decide, by with_unfolding_all decide, by with_unfolding_all decide,
    by with_unfolding_all decide,
    (draw_nothingChanged sampleEngine (freshLayer.draw sampleEngine).layer
      (Or.inl (by with_unfolding_all decide)) (by with_unfolding_all decide)
      (by with_unfolding_all decide) (by with_unfolding_all decide)).2.1⟩


/-! ## An upper bound of the expansion -/

/-- An expanded box stays inside a box containing both boxes. -/
theorem expandBox_within {B d b : Box} (hd : boxContainsBox B d = true)
    (hb : boxContainsBox B b = true) : boxContainsBox B (expandBox d b) = true := by
  rw [boxContainsBox_iff] at *
  obtain ⟨d1, d2, d3, d4⟩ := hd
  obtain ⟨b1, b2, b3, b4⟩ := hb
  simp only [expandBox]
  exact ⟨le_min d1 b1, le_min d2 b2, max_le d3 b3, max_le d4 b4⟩

/-- A clamped box stays inside every box containing the box before clamping. -/
theorem clampBoxToBox_subset {B d : Box} (V : Box) (hd : boxContainsBox B d = true) :
    boxContainsBox B (clampBoxToBox d V) = true := by
  rw [boxContainsBox_iff] at *
  obtain ⟨d1, d2, d3, d4⟩ := hd
  simp only [clampBoxToBox]
  exact ⟨le_max_of_le_left d1, le_max_of_le_left d2, min_le_of_left_le d3,
    min_le_of_left_le d4⟩

/-- The expansion stays inside a box that contains the starting area and the
bounding boxes of the flagged visible sprites. -/
theorem expandToFlagged_within (B : Box) (l : List Sprite) (d : Box)
    (hd : boxContainsBox B d = true)
    (hl : ∀ s ∈ l, s.needsDrawing = true → s.visible = true →
      boxContainsBox B s.boundingBox = true) :
    boxContainsBox B (expandToFlagged d l) = true := by
  induction l generalizing d with
  | nil => simpa [expandToFlagged] using hd
  | cons x l ih =>
    rw [expandToFlagged_cons]
    have hl' : ∀ s ∈ l, s.needsDrawing = true → s.visible = true →
        boxContainsBox B s.boundingBox = true :=
      fun s hs => hl s (List.mem_cons_of_mem _ hs)
    by_cases hx : (x.needsDrawing && x.visible) = true
    · have hx' : x.needsDrawing = true ∧ x.visible = true := by simpa using hx
      simp only [hx, if_true]
      exact ih _ (expandBox_within hd (hl x (List.mem_cons_self _ _) hx'.1 hx'.2)) hl'
    · simp only [hx, if_false, Bool.false_eq_true]
      exact ih _ hd hl'

/-- The members of a flagged array are the members of the array, some with the
flag set because the index holds them and they intersect the area. -/
theorem mem_flagObjects (q : QuadTree) (area : Box) (l : List Sprite) (s : Sprite)
    (hs : s ∈ flagObjects q area l) :
    s ∈ l ∨ ∃ s0 ∈ l, s = { s0 with needsDrawing := true } ∧ s0.key ∈ q.objects
      ∧ boxIntersectsBox s0.boundingBox area = true := by
  simp only [flagObjects, List.mem_map] at hs
  obtain ⟨s0, hs0, rfl⟩ := hs
  split
  · rename_i hc
    exact Or.inr ⟨s0, hs0, rfl, hc.1, hc.2⟩
  · exact Or.inl hs0

/-- The expansion loop stays inside every box `B` that contains the area it starts
from and is closed: `B` contains the bounding box of every visible sprite of the
index that intersects `B`. -/
theorem expandDirtyArea_within (q : QuadTree) (V B : Box) (fuel : ℕ) (old : Option Box)
    (d : Box) (l : List Sprite) (R : Box) (l' : List Sprite)
    (hd : boxContainsBox B d = true)
    (hflag : ∀ s ∈ l, s.needsDrawing = true → s.visible = true →
      boxContainsBox B s.boundingBox = true)
    (hclosed : ∀ s ∈ l, s.key ∈ q.objects → boxIntersectsBox s.boundingBox B = true →
      s.visible = true → boxContainsBox B s.boundingBox = true)
    (h : expandDirtyArea q V fuel old d l = Expansion.fixed R l') :
    boxContainsBox B R = true := by
  induction fuel generalizing old d l with
  | zero => simp [expandDirtyArea] at h
  | succ n ih =>
    rw [expandDirtyArea_succ] at h
    split at h
    · simp only [Expansion.fixed.injEq] at h
      rw [← h.1]; exact hd
    · have hflag' : ∀ s ∈ flagObjects q d l, s.needsDrawing = true → s.visible = true →
          boxContainsBox B s.boundingBox = true := by
        intro s hs hf hv
        rcases mem_flagObjects q d l s hs with hmem | ⟨s0, hs0, rfl, hk, hi⟩
        · exact hflag s hmem hf hv
        · exact hclosed s0 hs0 hk (boxIntersectsBox_mono hd hi) hv
      have hclosed' : ∀ s ∈ flagObjects q d l, s.key ∈ q.objects →
          boxIntersectsBox s.boundingBox B = true → s.visible = true →
          boxContainsBox B s.boundingBox = true := by
        intro s hs hk hi hv
        rcases mem_flagObjects q d l s hs with hmem | ⟨s0, hs0, rfl, -, -⟩
        · exact hclosed s hmem hk hi hv
        · exact hclosed s0 hs0 hk hi hv
      exact ih _ _ _ (clampBoxToBox_subset V (expandToFlagged_within B _ d hd hflag'))
        hflag' hclosed' h

/-- Two boxes that contain each other are equal. -/
theorem box_antisymm {a b : Box} (hab : boxContainsBox a b = true)
    (hba : boxContainsBox b a = true) : a = b := by
  rw [boxContainsBox_iff] at hab hba
  obtain ⟨a1, a2, a3, a4⟩ := hab
  obtain ⟨b1, b2, b3, b4⟩ := hba
  cases a; cases b
  simp only [Box.mk.injEq] at *
  exact ⟨le_antisymm a1 b1, le_antisymm a2 b2, le_antisymm b3 a3, le_antisymm b4 a4⟩

/-- The quadtree branch of `draw` reaches the drawing step whenever it has an
area to start from. -/
theorem drawQuadtree_outcome_drawn (env : Engine) (L : Layer) (calls : List Call) (d0 : Box)
    (hd0 : (if L.needsFullRedraw then some (L.canvasInWorldSpace env)
      else L._joinDirtyAreas env) = some d0) :
    (L.drawQuadtree env calls).outcome = Outcome.drawn := by
  rcases drawQuadtree_outcome env L calls with h | h
  · exfalso
    unfold Layer.drawQuadtree at h
    simp only at h
    by_cases hf : L.needsFullRedraw = true
    · simp only [hf, if_true] at h
      obtain ⟨R, l', hloop⟩ := expandDirtyArea_terminates L.quadTree
        (L.canvasInWorldSpace env) (L.canvasInWorldSpace env)
        (L.sprites.map fun s => { s with needsDrawing := false }) (L.sprites.length + 3)
        (by simp)
      rw [hloop] at h
      simp at h
    · simp only [hf, if_false, Bool.false_eq_true] at h hd0
      rw [hd0] at h
      simp only at h
      obtain ⟨R, l', hloop⟩ := expandDirtyArea_terminates L.quadTree
        (L.canvasInWorldSpace env) d0
        (L.sprites.map fun s => { s with needsDrawing := false }) (L.sprites.length + 3)
        (by simp)
      rw [hloop] at h
      simp at h
  · exact h


/-! ## The three-item scenario -/

/-- The flag `_needsFullRedraw` after lines 179-193 of `draw`. -/
theorem drawPrepare_needsFullRedraw (env : Engine) (L : Layer) :
    (L.drawPrepare env).needsFullRedraw
      = (L.needsFullRedraw || ((L.isAndroidStockBrowser && L.clearCanvas)
          || (!L.useOffScreenTarget && L.renderMode == RenderMode.webgl))) := by
  unfold Layer.drawPrepare
  simp only
  split <;> split <;> simp_all

/-- Lines 179-193 of `draw` leave the sprites, the dirty areas and the sorting
state as they are. -/
theorem drawPrepare_fields (env : Engine) (L : Layer) :
    (L.drawPrepare env).sprites = L.sprites
    ∧ (L.drawPrepare env).dirtyAreas = L.dirtyAreas
    ∧ (L.drawPrepare env).movingSprites = L.movingSprites
    ∧ (L.drawPrepare env).sorting = L.sorting
    ∧ (L.drawPrepare env).needsFullSorting = L.needsFullSorting
    ∧ (L.drawPrepare env).useOffScreenTarget = L.useOffScreenTarget
    ∧ (L.drawPrepare env).clearCanvas = L.clearCanvas := by
  obtain ⟨fr, mode, fl, -, hp⟩ := drawPrepare_shape env L
  rw [hp]
  exact ⟨rfl, rfl, rfl, rfl, rfl, rfl, rfl⟩

/-- The sorting step of `draw` leaves the full-redraw flag as it is. -/
theorem drawSort_needsFullRedraw (env : Engine) (L : Layer) :
    (L.drawSort env).needsFullRedraw = L.needsFullRedraw := by
  obtain ⟨S, extra, -, hs⟩ := drawSort_shape env L
  rw [hs]

/-- Without a comparator or without moving sprites the sorting step of `draw`
marks no area dirty. -/
theorem drawSort_dirtyAreas (env : Engine) (L : Layer)
    (h : L.sortingFunction env = Option.none ∨ L.movingSprites = []) :
    (L.drawSort env).dirtyAreas = L.dirtyAreas := by
  unfold Layer.drawSort
  cases hf : L.sortingFunction env with
  | none => rfl
  | some f =>
    have hm : L.movingSprites = [] := by
      rcases h with h | h
      · rw [hf] at h; cases h
      · exact h
    simp only [hm, List.length_nil, List.foldl_nil]
    split <;> rfl

/-- The area `_joinDirtyAreas` returns for a single dirty area that lies inside
the visible rectangle and has positive width and height. -/
theorem joinDirtyAreas_single (env : Engine) (L : Layer) (a : Box) (hd : L.dirtyAreas = [a])
    (hV : boxContainsBox (L.canvasInWorldSpace env) a = true)
    (hx : a.minX < a.maxX) (hy : a.minY < a.maxY) :
    L._joinDirtyAreas env = some a := by
  rw [boxContainsBox_iff] at hV
  obtain ⟨v1, v2, v3, v4⟩ := hV
  have hi : boxIntersectsBox (L.canvasInWorldSpace env) a = true := by
    rw [boxIntersectsBox_iff]
    exact ⟨v1.trans hx.le, hx.le.trans v3, v2.trans hy.le, hy.le.trans v4⟩
  have e1 : max (min (L.canvasInWorldSpace env).maxX a.minX) (L.canvasInWorldSpace env).minX
      = a.minX := by
    rw [min_eq_right (hx.le.trans v3), max_eq_left v1]
  have e2 : max (min (L.canvasInWorldSpace env).maxY a.minY) (L.canvasInWorldSpace env).minY
      = a.minY := by
    rw [min_eq_right (hy.le.trans v4), max_eq_left v2]
  have e3 : min (max (L.canvasInWorldSpace env).minX a.maxX) (L.canvasInWorldSpace env).maxX
      = a.maxX := by
    rw [max_eq_right (v1.trans hx.le), min_eq_left v3]
  have e4 : min (max (L.canvasInWorldSpace env).minY a.maxY) (L.canvasInWorldSpace env).maxY
      = a.maxY := by
    rw [max_eq_right (v2.trans hy.le), min_eq_left v4]
  simp only [Layer._joinDirtyAreas, hd, List.length_singleton, one_ne_zero, if_false,
    screenInWorldSpace_eq, List.foldl_cons, List.foldl_nil, hi, if_true, expandBox,
    clampBoxToBox, e1, e2, e3, e4, not_le.mpr hx, not_le.mpr hy, or_self]


/-- C6 fails as stated: in WebGL mode without an offscreen target every call of
`draw` is a full redraw, so in the three-item scenario (400 by 400 screen, only
the first item's box dirty, full-redraw flag clear) the third item is redrawn too. -/
theorem draw_threeItems_webgl_counterexample :
    (scenarioLayer glEngine).useQuadtree = true
    ∧ (scenarioLayer glEngine).needsFullRedraw = false
    ∧ (scenarioLayer glEngine).dirtyAreas = [⟨0, 0, 10, 10⟩]
    ∧ (scenarioLayer glEngine).sprites.map (fun s => (s.key, s.boundingBox, s.visible))
        = [(1, ⟨0, 0, 10, 10⟩, true), (2, ⟨5, 5, 15, 15⟩, true),
            (3, ⟨100, 100, 110, 110⟩, true)]
    ∧ boxContainsBox ((scenarioLayer glEngine).canvasInWorldSpace glEngine)
        ⟨0, 0, 110, 110⟩ = true
    ∧ Call.spriteDraw 3 true ∈ ((scenarioLayer glEngine).draw glEngine).calls := by
  with_unfolding_all decide

/-- C6, amended: a layer with the quadtree enabled, a canvas, no full redraw pending,
in raster mode or with an offscreen target, outside the Android stock browser
work-around, with no moved sprite waiting for an incremental resort, holds three
visible items of the spatial index with bounding boxes `{0,0,10,10}`,
`{5,5,15,15}` and `{100,100,110,110}` inside the visible world rectangle, and its
only pending dirty area is the first item's box.  Then `draw` reaches the drawing
step with the final dirty area `{0,0,15,15}`, calls the draw entry point of items
1 and 2 and does not call the one of item 3. -/
theorem draw_threeItems (env : Engine) (L : Layer) (s1 s2 s3 : Sprite)
    (hq : L.useQuadtree = true) (hc : L.canvas = true) (hf : L.needsFullRedraw = false)
    (hmode : L.renderMode = RenderMode.canvas2d ∨ L.useOffScreenTarget = true)
    (handroid : (L.isAndroidStockBrowser && L.clearCanvas) = false)
    (hmov : L.sortingFunction env = Option.none ∨ L.movingSprites = [])
    (hs : L.sprites = [s1, s2, s3])
    (hb1 : s1.boundingBox = ⟨0, 0, 10, 10⟩) (hb2 : s2.boundingBox = ⟨5, 5, 15, 15⟩)
    (hb3 : s3.boundingBox = ⟨100, 100, 110, 110⟩)
    (hv1 : s1.visible = true) (hv2 : s2.visible = true)
    (hk1 : s1.key ∈ L.quadTree.objects) (hk2 : s2.key ∈ L.quadTree.objects)
    (hne1 : s3.key ≠ s1.key) (hne2 : s3.key ≠ s2.key)
    (hd : L.dirtyAreas = [⟨0, 0, 10, 10⟩])
    (hV : boxContainsBox (L.canvasInWorldSpace env) ⟨0, 0, 110, 110⟩ = true) :
    (L.draw env).outcome = Outcome.drawn
    ∧ (L.draw env).dirtyArea = some ⟨0, 0, 15, 15⟩
    ∧ (∃ gl, Call.spriteDraw s1.key gl ∈ (L.draw env).calls)
    ∧ (∃ gl, Call.spriteDraw s2.key gl ∈ (L.draw env).calls)
    ∧ ∀ gl, Call.spriteDraw s3.key gl ∉ (L.draw env).calls := by
  have hn : L.nothingChanged = false := by
    simp [Layer.nothingChanged, hc, hd]
  obtain ⟨hview, hqt, huq, hperm, -, -, -⟩ := drawSorted_shape env L
  obtain ⟨p1, p2, p3, p4, -, p6, p7⟩ := drawPrepare_fields env L
  have hfr : ((L.drawPrepare env).drawSort env).needsFullRedraw = false := by
    rw [drawSort_needsFullRedraw, drawPrepare_needsFullRedraw, hf, handroid]
    rcases hmode with hm | hm
    · simp [hm]
    · simp [hm]
  have hda : ((L.drawPrepare env).drawSort env).dirtyAreas = [⟨0, 0, 10, 10⟩] := by
    rw [drawSort_dirtyAreas env _ (by
      rcases hmov with h | h
      · left; simpa [Layer.sortingFunction, p4] using h
      · right; rw [p3]; exact h), p2, hd]
  have hVeq := canvasInWorldSpace_congr env _ _ hview
  have hV' := (boxContainsBox_iff _ _).mp hV
  obtain ⟨v1, v2, v3, v4⟩ := hV'
  simp only at v1 v2 v3 v4
  have hjoin : ((L.drawPrepare env).drawSort env)._joinDirtyAreas env = some ⟨0, 0, 10, 10⟩ := by
    apply joinDirtyAreas_single env _ _ hda
    · rw [hVeq, boxContainsBox_iff]
      exact ⟨v1, v2, by simp only; linarith, by simp only; linarith⟩
    · norm_num
    · norm_num
  have hstart : (if ((L.drawPrepare env).drawSort env).needsFullRedraw then
        some (((L.drawPrepare env).drawSort env).canvasInWorldSpace env)
      else ((L.drawPrepare env).drawSort env)._joinDirtyAreas env) = some ⟨0, 0, 10, 10⟩ := by
    simp [hfr, hjoin]
  rw [draw_eq env L hn, huq, hq]
  simp only [if_true]
  have hc0 : (if (((L.drawPrepare env).drawSort env).renderMode == RenderMode.webgl
        && ((L.drawPrepare env).drawSort env).useOffScreenTarget) = true
      then [Call.bindFramebuffer true] else []).filter Call.isSpriteDraw = [] := by
    split <;> simp [Call.isSpriteDraw]
  generalize (if (((L.drawPrepare env).drawSort env).renderMode == RenderMode.webgl
      && ((L.drawPrepare env).drawSort env).useOffScreenTarget) = true
    then [Call.bindFramebuffer true] else []) = calls0 at hc0 ⊢
  have hout := drawQuadtree_outcome_drawn env _ calls0 _ hstart
  obtain ⟨d0, R, hd0, -, hR0, hVR, hfix, hloop, hdirty, hlayer, hcalls⟩ :=
    drawQuadtree_drawn env _ calls0 (Or.inr (by rw [hda]; simp)) hout
  rw [hstart] at hd0
  obtain rfl : (⟨0, 0, 10, 10⟩ : Box) = d0 := Option.some.inj hd0
  rw [hVeq] at hfix hloop hVR
  rw [hqt] at hfix hloop hcalls
  have hmem : ∀ s, s ∈ ((L.drawPrepare env).drawSort env).sprites ↔ s = s1 ∨ s = s2 ∨ s = s3 := by
    intro s
    rw [hperm.mem_iff, hs]
    simp
  -- the final area is `{0,0,15,15}`
  have hupper : boxContainsBox ⟨0, 0, 15, 15⟩ R = true := by
    apply expandDirtyArea_within L.quadTree _ ⟨0, 0, 15, 15⟩ _ _ _ _ R _ _ _ _ hloop
    · norm_num [boxContainsBox]
    · intro s hs' hfl _
      simp only [clearFlags, List.mem_map] at hs'
      obtain ⟨s0, -, rfl⟩ := hs'
      simp at hfl
    · intro s hs' _ hi _
      simp only [clearFlags, List.mem_map] at hs'
      obtain ⟨s0, hs0, rfl⟩ := hs'
      rcases (hmem s0).mp hs0 with rfl | rfl | rfl
      · simp only [hb1]; norm_num [boxContainsBox]
      · simp only [hb2]; norm_num [boxContainsBox]
      · simp only [hb3] at hi
        norm_num [boxIntersectsBox] at hi
  have hs2flag : ({ s2 with needsDrawing := decide (s2.key ∈ L.quadTree.objects
      ∧ boxIntersectsBox s2.boundingBox R = true) } : Sprite)
      ∈ redrawFlags L.quadTree R ((L.drawPrepare env).drawSort env).sprites :=
    (mem_redrawFlags _ _ _ _).mpr ⟨s2, (hmem s2).mpr (Or.inr (Or.inl rfl)), rfl⟩
  have hi2 : boxIntersectsBox s2.boundingBox R = true := by
    apply boxIntersectsBox_mono hR0
    rw [hb2]
    norm_num [boxIntersectsBox]
  have hlower2 := expandToFlagged_contains_sprite _ R _ hs2flag
    (by simp only [decide_eq_true_eq]; exact ⟨hk2, hi2⟩) hv2
  have hlower2' := clampBoxToBox_mono (L.canvasInWorldSpace env) hlower2
  rw [hfix] at hlower2'
  have hlower : boxContainsBox R ⟨0, 0, 15, 15⟩ = true := by
    rw [boxContainsBox_iff] at hlower2' hR0 ⊢
    simp only [clampBoxToBox, hb2] at hlower2'
    obtain ⟨-, -, l3, l4⟩ := hlower2'
    obtain ⟨r1, r2, -, -⟩ := hR0
    simp only at r1 r2
    rw [min_eq_left (by linarith)] at l3 l4
    exact ⟨r1, r2, l3, l4⟩
  obtain rfl : (⟨0, 0, 15, 15⟩ : Box) = R := box_antisymm hupper hlower
  have hdrawn : ∀ s0 ∈ ((L.drawPrepare env).drawSort env).sprites,
      s0.key ∈ L.quadTree.objects → boxIntersectsBox s0.boundingBox ⟨0, 0, 15, 15⟩ = true →
      Call.spriteDraw s0.key (((L.drawPrepare env).drawSort env).renderMode == RenderMode.webgl)
        ∈ (Layer.drawQuadtree env ((L.drawPrepare env).drawSort env) calls0).calls := by
    intro s0 hs0 hk hi
    have hin : Call.spriteDraw s0.key
        (((L.drawPrepare env).drawSort env).renderMode == RenderMode.webgl)
        ∈ (Layer.drawQuadtree env ((L.drawPrepare env).drawSort env) calls0).calls.filter
            Call.isSpriteDraw := by
      rw [hcalls]
      apply List.mem_append_right
      simp only [spriteDrawCalls, List.mem_map, List.mem_filter]
      refine ⟨_, ⟨(mem_redrawFlags _ _ _ _).mpr ⟨s0, hs0, rfl⟩, ?_⟩, rfl⟩
      simp only [decide_eq_true_eq]
      exact ⟨hk, hi⟩
    exact (List.mem_filter.mp hin).1
  refine ⟨hout, hdirty, ?_, ?_, ?_⟩
  · exact ⟨_, hdrawn s1 ((hmem s1).mpr (Or.inl rfl)) hk1
      (by rw [hb1]; norm_num [boxIntersectsBox])⟩
  · exact ⟨_, hdrawn s2 ((hmem s2).mpr (Or.inr (Or.inl rfl))) hk2 hi2⟩
  · intro gl hmem3
    have hmem3' : Call.spriteDraw s3.key gl
        ∈ (Layer.drawQuadtree env _ calls0).calls.filter Call.isSpriteDraw :=
      List.mem_filter.mpr ⟨hmem3, rfl⟩
    rw [hcalls] at hmem3'
    rcases List.mem_append.mp hmem3' with h0 | h0
    · rw [hc0] at h0
      simp at h0
    · simp only [spriteDrawCalls, List.mem_map, List.mem_filter] at h0
      obtain ⟨t, ⟨ht, hflag⟩, hteq⟩ := h0
      obtain ⟨t0, ht0, rfl⟩ := (mem_redrawFlags _ _ _ _).mp ht
      simp only [decide_eq_true_eq] at hflag
      simp only [Call.spriteDraw.injEq] at hteq
      rcases (hmem t0).mp ht0 with rfl | rfl | rfl
      · exact hne1 hteq.1.symm
      · exact hne2 hteq.1.symm
      · rw [hb3] at hflag
        have := hflag.2
        norm_num [boxIntersectsBox] at this

/-- C6, amended, at the three-item scenario on the 400 by 400 screen. -/
theorem draw_threeItems_witness :
    (scenarioLayer wideEngine).sprites = [placed item1 1, placed item2 2, placed item3 3]
    ∧ (scenarioLayer wideEngine).dirtyAreas = [⟨0, 0, 10, 10⟩]
    ∧ ((scenarioLayer wideEngine).draw wideEngine).outcome = Outcome.drawn
    ∧ ((scenarioLayer wideEngine).draw wideEngine).dirtyArea = some ⟨0, 0, 15, 15⟩
    ∧ (∃ gl, Call.spriteDraw (placed item1 1).key gl
        ∈ ((scenarioLayer wideEngine).draw wideEngine).calls)
    ∧ (∃ gl, Call.spriteDraw (placed item2 2).key gl
        ∈ ((scenarioLayer wideEngine).draw wideEngine).calls)
    ∧ ∀ gl, Call.spriteDraw (placed item3 3).key gl
        ∉ ((scenarioLayer wideEngine).draw wideEngine).calls :=
  ⟨by with_unfolding_all decide, by with_unfolding_all decide,
    draw_threeItems wideEngine (scenarioLayer wideEngine) (placed item1 1) (placed item2 2)
      (placed item3 3) (by with_unfolding_all decide) (by with_unfolding_all decide)
      (by with_unfolding_all decide) (Or.inl (by with_unfolding_all decide))
      (by with_unfolding_all decide) (Or.inr (by with_unfolding_all decide))
      (by with_unfolding_all decide) (by with_unfolding_all decide)
      (by with_unfolding_all decide) (by with_unfolding_all decide)
      (by with_unfolding_all decide) (by with_unfolding_all decide)
      (by with_unfolding_all decide) (by with_unfolding_all decide)
      (by with_unfolding_all decide) (by with_unfolding_all decide)
      (by with_unfolding_all decide) (by with_unfolding_all decide)⟩


/-! ## Sorting -/

/-- Inserting into a sorted list keeps it sorted, when the order is total and
transitive on the elements involved. -/
theorem orderedInsert_pairwise (r : Sprite → Sprite → Prop) [DecidableRel r] (a : Sprite)
    (l : List Sprite) (htot : ∀ b ∈ l, r a b ∨ r b a)
    (htrans : ∀ b ∈ l, ∀ c ∈ l, r a b → r b c → r a c) (hs : l.Pairwise r) :
    (l.orderedInsert r a).Pairwise r := by
  induction l with
  | nil => simp
  | cons b l ih =>
    rw [List.pairwise_cons] at hs
    simp only [List.orderedInsert]
    split
    · rename_i hab
      rw [List.pairwise_cons, List.pairwise_cons]
      refine ⟨?_, hs⟩
      intro c hc
      rcases List.mem_cons.mp hc with rfl | hc'
      · exact hab
      · exact htrans b (List.mem_cons_self _ _) c (List.mem_cons_of_mem _ hc') hab (hs.1 c hc')
    · rename_i hab
      rw [List.pairwise_cons]
      refine ⟨?_, ih (fun c hc => htot c (List.mem_cons_of_mem _ hc))
        (fun c hc e he => htrans c (List.mem_cons_of_mem _ hc) e (List.mem_cons_of_mem _ he))
        hs.2⟩
      intro c hc
      rcases (List.mem_orderedInsert r).mp hc with rfl | hc'
      · exact (htot b (List.mem_cons_self _ _)).resolve_left hab
      · exact hs.1 c hc'

/-- Insertion sort sorts, when the order is total and transitive on the elements
of the list. -/
theorem insertionSort_pairwise (r : Sprite → Sprite → Prop) [DecidableRel r]
    (l : List Sprite) (htot : ∀ a ∈ l, ∀ b ∈ l, r a b ∨ r b a)
    (htrans : ∀ a ∈ l, ∀ b ∈ l, ∀ c ∈ l, r a b → r b c → r a c) :
    (l.insertionSort r).Pairwise r := by
  induction l with
  | nil => simp
  | cons a l ih =>
    simp only [List.insertionSort]
    apply orderedInsert_pairwise
    · intro b hb
      exact htot a (List.mem_cons_self _ _) b
        (List.mem_cons_of_mem _ ((List.mem_insertionSort r).mp hb))
    · intro b hb c hc
      exact htrans a (List.mem_cons_self _ _) b
        (List.mem_cons_of_mem _ ((List.mem_insertionSort r).mp hb)) c
        (List.mem_cons_of_mem _ ((List.mem_insertionSort r).mp hc))
    · exact ih (fun x hx y hy => htot x (List.mem_cons_of_mem _ hx) y (List.mem_cons_of_mem _ hy))
        (fun x hx y hy z hz => htrans x (List.mem_cons_of_mem _ hx) y
          (List.mem_cons_of_mem _ hy) z (List.mem_cons_of_mem _ hz))

/-- The full sort of `draw` returns a permutation of the sprites that is in order
for the comparator, whenever the comparator is total and transitive on them. -/
theorem jsSort_sorted (f : Sprite → Sprite → ℚ) (l : List Sprite)
    (htot : ∀ a ∈ l, ∀ b ∈ l, f a b ≤ 0 ∨ f b a ≤ 0)
    (htrans : ∀ a ∈ l, ∀ b ∈ l, ∀ c ∈ l, f a b ≤ 0 → f b c ≤ 0 → f a c ≤ 0) :
    (jsSort f l).Perm l ∧ (jsSort f l).Pairwise (fun a b => f a b ≤ 0) :=
  ⟨List.perm_insertionSort _ _, insertionSort_pairwise _ l htot htrans⟩

/-- Clearing the flags keeps the sort keys and the identities of the sprites. -/
theorem clearFlags_map (l : List Sprite) :
    (clearFlags l).map Sprite.sortKey = l.map Sprite.sortKey
    ∧ (clearFlags l).map (fun s => s.key) = l.map (fun s => s.key) := by
  simp [clearFlags, Sprite.sortKey, Function.comp_def]

/-- A call of `draw` that is not a no-op leaves the sprites in the order of the
sorting step, with nothing but `needsDrawing` flags changed. -/
theorem draw_clearFlags (env : Engine) (L : Layer) (hn : L.nothingChanged = false) :
    clearFlags (L.draw env).layer.sprites
      = clearFlags ((L.drawPrepare env).drawSort env).sprites := by
  rw [draw_eq env L hn]
  split
  · exact drawQuadtree_clearFlags _ _ _
  · rfl

/-- On sprites whose depths pairwise differ by at least the tolerance, the
bottom-to-top comparator orders by depth. -/
theorem spriteSorter_bottomToTop_le (env : Engine) (l : List Sprite)
    (hkeys : l.Pairwise fun a b => env.c_epsilon ≤ |a.sortKey - b.sortKey|)
    (a : Sprite) (ha : a ∈ l) (b : Sprite) (hb : b ∈ l) :
    _spriteSorter_bottomToTop env a b ≤ 0 ↔ a.sortKey ≤ b.sortKey := by
  rw [spriteSorter_bottomToTop_eq]
  by_cases hab : a = b
  · subst hab
    simp
  · have hsymm : Symmetric fun a b : Sprite => env.c_epsilon ≤ |a.sortKey - b.sortKey| := by
      intro x y h
      rw [abs_sub_comm]
      exact h
    have h := hkeys.forall hsymm ha hb hab
    rw [if_neg (not_lt.mpr h)]
    exact sub_nonpos

/-- When a full sort is due, the sorting step of `draw` sorts the sprites with the
active comparator. -/
theorem drawSort_fullSort (env : Engine) (L : Layer) (f : Sprite → Sprite → ℚ)
    (hf : L.sortingFunction env = some f)
    (hfull : L.needsFullSorting = true
      ∨ L.movingSprites.length * L.movingSprites.length > L.sprites.length) :
    (L.drawSort env).sprites = jsSort f L.sprites := by
  unfold Layer.drawSort
  rw [hf]
  simp only [hfull, if_true]

/-- The sprites after a call of `draw` that is not a no-op and performs the full
sort: the sorted sprites, up to `needsDrawing` flags. -/
theorem draw_fullSort (env : Engine) (L : Layer) (f : Sprite → Sprite → ℚ)
    (hn : L.nothingChanged = false) (hf : L.sortingFunction env = some f)
    (hfull : L.needsFullSorting = true
      ∨ L.movingSprites.length * L.movingSprites.length > L.sprites.length) :
    clearFlags (L.draw env).layer.sprites = clearFlags (jsSort f L.sprites) := by
  obtain ⟨p1, -, p3, p4, p5, -, -⟩ := drawPrepare_fields env L
  rw [draw_clearFlags env L hn, drawSort_fullSort env _ f
    (by simpa [Layer.sortingFunction, p4] using hf) (by rw [p5, p3, p1]; exact hfull), p1]

/-- C8, amended: with sort mode `bottomToTop`, over exact arithmetic, when the sort
keys of the sprites pairwise differ by at least the tolerance, a call of `draw`
that performs the full sort leaves the sprites in ascending order of sort key
(and keeps the same sprites);
in particular three sprites added at heights `5`, `1` and `3` are drawn in the
order of the heights `1`, `3`, `5`. -/
theorem draw_bottomToTop_sorted :
    (∀ (env : Engine) (L : Layer), L.sorting = Sorting.bottomToTop →
      L.nothingChanged = false →
      (L.needsFullSorting = true
        ∨ L.movingSprites.length * L.movingSprites.length > L.sprites.length) →
      (L.sprites.Pairwise fun a b => env.c_epsilon ≤ |a.sortKey - b.sortKey|) →
      ((L.draw env).layer.sprites.map Sprite.sortKey).Pairwise (fun x y => x ≤ y)
      ∧ ((L.draw env).layer.sprites.map fun s => s.key).Perm (L.sprites.map fun s => s.key))
    ∧ (heightsLayer.sprites.map (fun s => (s.key, s.position.y)) = [(1, 5), (2, 1), (3, 3)]
      ∧ (heightsLayer.draw sampleEngine).layer.sprites.map (fun s => (s.key, s.position.y))
          = [(2, 1), (3, 3), (1, 5)]
      ∧ (heightsLayer.draw sampleEngine).calls.filter Call.isSpriteDraw
          = [Call.spriteDraw 2 false, Call.spriteDraw 3 false, Call.spriteDraw 1 false]) := by
  refine ⟨?_, by with_unfolding_all decide⟩
  intro env L hsort hn hfull hkeys
  have hf : L.sortingFunction env = some (_spriteSorter_bottomToTop env) := by
    simp [Layer.sortingFunction, hsort]
  have hcf := draw_fullSort env L _ hn hf hfull
  have hle := spriteSorter_bottomToTop_le env L.sprites hkeys
  obtain ⟨hperm, hsorted⟩ := jsSort_sorted (_spriteSorter_bottomToTop env) L.sprites
    (fun a ha b hb => by
      rw [hle a ha b hb, hle b hb a ha]
      exact le_total _ _)
    (fun a ha b hb c hc => by
      rw [hle a ha b hb, hle b hb c hc, hle a ha c hc]
      exact le_trans)
  constructor
  · rw [← (clearFlags_map _).1, hcf, (clearFlags_map _).1, List.pairwise_map]
    apply hsorted.imp_of_mem
    intro a b ha hb hab
    exact (hle a (hperm.mem_iff.mp ha) b (hperm.mem_iff.mp hb)).mp hab
  · rw [← (clearFlags_map _).2, hcf, (clearFlags_map _).2]
    exact hperm.map _

/-- C8, amended, at the layer with sprites at heights `5`, `1`, `3`. -/
theorem draw_bottomToTop_sorted_witness :
    heightsLayer.sorting = Sorting.bottomToTop
    ∧ heightsLayer.nothingChanged = false
    ∧ heightsLayer.needsFullSorting = true
    ∧ (heightsLayer.sprites.Pairwise
        fun a b => sampleEngine.c_epsilon ≤ |a.sortKey - b.sortKey|)
    ∧ ((heightsLayer.draw sampleEngine).layer.sprites.map Sprite.sortKey).Pairwise
        (fun x y => x ≤ y) :=
  have hs : heightsLayer.sorting = Sorting.bottomToTop := by
    with_unfolding_all rfl
  have hp : heightsLayer.sprites.Pairwise
      fun a b => sampleEngine.c_epsilon ≤ |a.sortKey - b.sortKey| := by
    with_unfolding_all decide
  ⟨hs, by with_unfolding_all decide, by with_unfolding_all decide, hp,
    (draw_bottomToTop_sorted.1 sampleEngine heightsLayer hs (by with_unfolding_all decide)
      (Or.inl (by with_unfolding_all decide)) hp).1⟩


/-- C7 fails as stated: after two sprites were added at heights `1` and `2` and
drawn, the first one moves to height `5`; nothing being dirty, the next `draw`
is a no-op and leaves the order `1, 2`, while a full sort by the bottom-to-top
comparator gives `2, 1`. -/
theorem draw_afterMove_counterexample :
    (movedLayer.draw sampleEngine).layer.sprites.map (fun s => (s.key, s.position.y))
      = [(1, 5), (2, 2)]
    ∧ (jsSort (_spriteSorter_bottomToTop sampleEngine)
        (movedLayer.draw sampleEngine).layer.sprites).map (fun s => (s.key, s.position.y))
      = [(2, 2), (1, 5)] := by
  with_unfolding_all decide

/-- The incremental resort of `draw` with two moved sprites: five sprites sorted at
heights `1` to `5`, the first moves to height `10` and the second to height `20`,
both marking their area dirty.  The resort leaves the order `1, 3, 4, 5, 2`
(heights `10, 3, 4, 5, 20`), while a full sort gives `3, 4, 5, 1, 2`. -/
theorem draw_twoMoved_unsorted :
    twoMovedLayer.nothingChanged = false
    ∧ twoMovedLayer.needsFullSorting = false
    ∧ twoMovedLayer.movingSprites = [1, 2]
    ∧ (twoMovedLayer.draw sampleEngine).layer.sprites.map (fun s => (s.key, s.position.y))
      = [(1, 10), (3, 3), (4, 4), (5, 5), (2, 20)]
    ∧ (jsSort (_spriteSorter_bottomToTop sampleEngine)
        (twoMovedLayer.draw sampleEngine).layer.sprites).map (fun s => (s.key, s.position.y))
      = [(3, 3), (4, 4), (5, 5), (1, 10), (2, 20)] := by
  with_unfolding_all decide

/-- C7, amended: for a layer with a comparator, a call of `draw` that is not a no-op
and performs the full sort (a sprite was added or the sort mode set since the
last draw, or the square of the number of moved sprites exceeds the number of
sprites) leaves the sprites, up to their `needsDrawing` flags, in the order of
the sort by the comparator: a permutation of the sprites that is in order
whenever the comparator is total and transitive on them.  Adding a sprite makes
the next sort a full one. -/
theorem draw_fullSort_sorted (env : Engine) (L : Layer) (f : Sprite → Sprite → ℚ)
    (hf : L.sortingFunction env = some f) (hn : L.nothingChanged = false)
    (hfull : L.needsFullSorting = true
      ∨ L.movingSprites.length * L.movingSprites.length > L.sprites.length)
    (htot : ∀ a ∈ L.sprites, ∀ b ∈ L.sprites, f a b ≤ 0 ∨ f b a ≤ 0)
    (htrans : ∀ a ∈ L.sprites, ∀ b ∈ L.sprites, ∀ c ∈ L.sprites,
      f a b ≤ 0 → f b c ≤ 0 → f a c ≤ 0) :
    (clearFlags (L.draw env).layer.sprites = clearFlags (jsSort f L.sprites)
      ∧ (jsSort f L.sprites).Perm L.sprites
      ∧ (jsSort f L.sprites).Pairwise (fun a b => f a b ≤ 0))
    ∧ ∀ s, (L.addSprite s).needsFullSorting = true :=
  ⟨⟨draw_fullSort env L f hn hf hfull, (jsSort_sorted f L.sprites htot htrans).1,
    (jsSort_sorted f L.sprites htot htrans).2⟩, fun _ => rfl⟩

/-- C7, amended, at the layer with sprites at heights `5`, `1`, `3`. -/
theorem draw_fullSort_sorted_witness :
    heightsLayer.nothingChanged = false
    ∧ heightsLayer.needsFullSorting = true
    ∧ clearFlags (heightsLayer.draw sampleEngine).layer.sprites
        = clearFlags (jsSort (_spriteSorter_bottomToTop sampleEngine) heightsLayer.sprites) :=
  ⟨by with_unfolding_all decide, by with_unfolding_all decide,
    (draw_fullSort_sorted sampleEngine heightsLayer (_spriteSorter_bottomToTop sampleEngine)
      (by with_unfolding_all rfl) (by with_unfolding_all decide)
      (Or.inl (by with_unfolding_all decide)) (by with_unfolding_all decide)
      (by with_unfolding_all decide)).1.1⟩


/-! ## Camera notifications -/

/-- C16: `onCameraPositionChanged(c)` sets the full-redraw flag exactly when the
translate weight is non-zero and the camera `x` or `y` differs from the stored
one, or the scale weight is non-zero and the camera `z` differs from the stored
one; otherwise the flag keeps its value; in both cases the stored camera
becomes `c`. -/
theorem onCameraPositionChanged_flag (env : Engine) (L : Layer) (c : Camera) :
    (L.onCameraPositionChanged env c).needsFullRedraw
      = (if (L.transform.translate ≠ 0
              ∧ (c.x ≠ L.cameraPosition.x ∨ c.y ≠ L.cameraPosition.y))
            ∨ (L.transform.scale ≠ 0 ∧ c.z ≠ L.cameraPosition.z)
         then true else L.needsFullRedraw)
    ∧ (L.onCameraPositionChanged env c).cameraPosition = c := by
  refine ⟨?_, ?_⟩
  · unfold Layer.onCameraPositionChanged Layer._updateScaleConversionFactor
    split <;> rfl
  · unfold Layer.onCameraPositionChanged Layer._updateScaleConversionFactor
    rfl

/-! ## Drawing twice -/

/-- The layer left by the quadtree branch of `draw`: the sprites may have been
flagged, the dirty areas and the full-redraw flag are cleared, unless the
drawing stopped at the NaN check (which rationals never reach). -/
theorem drawQuadtree_layer (env : Engine) (L : Layer) (calls : List Call) :
    ∃ S, (L.drawQuadtree env calls).layer
      = ({ L with sprites := S } : Layer).clearDirtyAreas := by
  unfold Layer.drawQuadtree
  simp only
  split
  · exact ⟨L.sprites, rfl⟩
  · rename_i d0 _
    obtain ⟨R, l', hloop⟩ := expandDirtyArea_terminates L.quadTree (L.canvasInWorldSpace env)
      d0 (L.sprites.map fun s => { s with needsDrawing := false }) (L.sprites.length + 3)
      (by simp)
    rw [hloop]
    exact ⟨l', rfl⟩

/-- What lines 179-264 of `draw` leave of the fields read by the early exit. -/
theorem drawSorted_exitFields (env : Engine) (L : Layer) :
    ((L.drawPrepare env).drawSort env).canvas = L.canvas
    ∧ ((L.drawPrepare env).drawSort env).alwaysDrawSprites = L.alwaysDrawSprites := by
  obtain ⟨fr, mode, fl, -, hp⟩ := drawPrepare_shape env L
  obtain ⟨S, extra, -, hs⟩ := drawSort_shape env (L.drawPrepare env)
  rw [hs, hp]
  exact ⟨rfl, rfl⟩

/-- A call of `draw` on a layer in which nothing has changed. -/
theorem draw_of_nothingChanged (env : Engine) (L : Layer) (h : L.nothingChanged = true) :
    L.draw env
      = { layer := L, calls := [], outcome := Outcome.nothingChanged, dirtyArea := none } := by
  simp [Layer.draw, h]

/-- C11 fails as stated: a layer holding an always-draw sprite clears and draws at
every call of `draw`, also at a second call with no change in between; and so
does a layer with the quadtree switched off (the layer `plainLayer` has been
drawn once already). -/
theorem draw_twice_alwaysDraw_counterexample :
    ((alwaysLayer.draw sampleEngine).layer.draw sampleEngine).calls
      = [Call.save, Call.setTransform 1 0 0 1 0 0, Call.clearRect 48 48 4 4, Call.restore,
          Call.spriteDraw 7 false]
    ∧ plainLayer.useQuadtree = false ∧ plainLayer.alwaysDrawSprites = []
    ∧ (plainLayer.draw sampleEngine).calls
      = [Call.save, Call.setTransform 1 0 0 1 0 0, Call.clearRect 0 0 100 100, Call.restore,
          Call.setTransform 1 0 0 1 50 50, Call.spriteDraw 1 false] := by
  with_unfolding_all decide

/-- C11, amended: for a layer with the quadtree enabled and no always-draw sprite,
or without a canvas, a second call of `draw` right after a first one issues no
clear and calls no sprite draw entry point. -/
theorem draw_twice (env : Engine) (L : Layer)
    (hq : (L.useQuadtree = true ∧ L.alwaysDrawSprites = []) ∨ L.canvas = false) :
    ∀ c ∈ ((L.draw env).layer.draw env).calls, c.isClear = false ∧ c.isSpriteDraw = false := by
  have key : (L.draw env).layer.nothingChanged = true := by
    by_cases hn : L.nothingChanged = true
    · simp [Layer.draw, hn]
    · have hn' : L.nothingChanged = false := by simpa using hn
      rcases hq with ⟨hq, ha⟩ | hc
      · obtain ⟨-, -, huq, -, -, -, -⟩ := drawSorted_shape env L
        obtain ⟨-, hal⟩ := drawSorted_exitFields env L
        rw [draw_eq env L hn', huq, hq]
        simp only [if_true]
        obtain ⟨S, hS⟩ := drawQuadtree_layer env ((L.drawPrepare env).drawSort env)
          (if (((L.drawPrepare env).drawSort env).renderMode == RenderMode.webgl
              && ((L.drawPrepare env).drawSort env).useOffScreenTarget) = true
            then [Call.bindFramebuffer true] else [])
        rw [hS]
        simp [Layer.nothingChanged, Layer.clearDirtyAreas, huq, hq, hal, ha]
      · simp [Layer.nothingChanged, hc] at hn'
  rw [draw_of_nothingChanged env _ key]
  intro c hc
  simp at hc

/-- C11, amended, at the three-item scenario on the 400 by 400 screen: the first
call of `draw` clears and draws, the second does not. -/
theorem draw_twice_witness :
    (scenarioLayer wideEngine).useQuadtree = true
    ∧ (scenarioLayer wideEngine).alwaysDrawSprites = []
    ∧ (∃ c ∈ ((scenarioLayer wideEngine).draw wideEngine).calls, c.isClear = true)
    ∧ ∀ c ∈ (((scenarioLayer wideEngine).draw wideEngine).layer.draw wideEngine).calls,
        c.isClear = false ∧ c.isSpriteDraw = false :=
  ⟨by with_unfolding_all decide, by with_unfolding_all decide, by with_unfolding_all decide,
    draw_twice wideEngine (scenarioLayer wideEngine)
      (Or.inl ⟨by with_unfolding_all decide, by with_unfolding_all decide⟩)⟩


/-! ## The areas used by the expansion loop -/

/-- Unfolding of one round of the recorded loop. -/
theorem flaggedAreas_succ (q : QuadTree) (V : Box) (fuel : ℕ) (old : Option Box) (d : Box)
    (l : List Sprite) :
    flaggedAreas q V (fuel + 1) old d l =
      if old = some d then []
      else d :: flaggedAreas q V fuel (some d)
        (clampBoxToBox (expandToFlagged d (flagObjects q d l)) V) (flagObjects q d l) := by
  simp [flaggedAreas]

/-- The first area passed to `flagObjects`, if any, is the current dirty area. -/
theorem flaggedAreas_head (q : QuadTree) (V : Box) (fuel : ℕ) (old : Option Box) (d : Box)
    (l : List Sprite) : ∀ y ∈ (flaggedAreas q V fuel old d l).head?, y = d := by
  cases fuel with
  | zero => simp [flaggedAreas]
  | succ n =>
    rw [flaggedAreas_succ]
    split <;> simp

/-- From an area inside the visible rectangle, every area passed to `flagObjects`
lies inside the visible rectangle. -/
theorem flaggedAreas_within (q : QuadTree) (V : Box) (fuel : ℕ) (old : Option Box) (d : Box)
    (l : List Sprite) (hV : boxContainsBox V d = true) :
    ∀ a ∈ flaggedAreas q V fuel old d l, boxContainsBox V a = true := by
  induction fuel generalizing old d l with
  | zero => simp [flaggedAreas]
  | succ n ih =>
    rw [flaggedAreas_succ]
    split
    · simp
    · intro a ha
      rcases List.mem_cons.mp ha with rfl | ha'
      · exact hV
      · exact ih _ _ _ (clampBoxToBox_within _ _) a ha'

/-- From an area inside the visible rectangle, each area passed to `flagObjects`
contains the one before. -/
theorem flaggedAreas_chain (q : QuadTree) (V : Box) (fuel : ℕ) (old : Option Box) (d : Box)
    (l : List Sprite) (hV : boxContainsBox V d = true) :
    List.Chain' (fun a b => boxContainsBox b a = true) (flaggedAreas q V fuel old d l) := by
  induction fuel generalizing old d l with
  | zero => simp [flaggedAreas]
  | succ n ih =>
    rw [flaggedAreas_succ]
    split
    · simp
    · rw [List.chain'_cons']
      refine ⟨?_, ih _ _ _ (clampBoxToBox_within _ _)⟩
      intro y hy
      rw [flaggedAreas_head q V n _ _ _ y hy]
      exact clamp_expand_contains _ d V hV

/-- Whatever the starting area, every area passed to `flagObjects` after the first
lies inside the visible rectangle. -/
theorem flaggedAreas_tail_within (q : QuadTree) (V : Box) (fuel : ℕ) (d : Box)
    (l : List Sprite) :
    ∀ a ∈ (flaggedAreas q V fuel none d l).tail, boxContainsBox V a = true := by
  cases fuel with
  | zero => simp [flaggedAreas]
  | succ n =>
    rw [flaggedAreas_succ]
    simp only [reduceCtorEq, if_false, List.tail_cons]
    exact flaggedAreas_within q V n _ _ _ (clampBoxToBox_within _ _)

/-- The area the loop ends with lies inside the visible rectangle when the current
area does. -/
theorem expandDirtyArea_final_within_from (q : QuadTree) (V : Box) (fuel : ℕ)
    (old : Option Box) (d : Box) (l : List Sprite) (R : Box) (l' : List Sprite)
    (hV : boxContainsBox V d = true)
    (h : expandDirtyArea q V fuel old d l = Expansion.fixed R l') :
    boxContainsBox V R = true := by
  induction fuel generalizing old d l with
  | zero => simp [expandDirtyArea] at h
  | succ n ih =>
    rw [expandDirtyArea_succ] at h
    split at h
    · simp only [Expansion.fixed.injEq] at h
      rw [← h.1]; exact hV
    · exact ih _ _ _ (clampBoxToBox_within _ _) h

/-- Whatever the starting area, the area the loop of `draw` ends with lies inside
the visible rectangle. -/
theorem expandDirtyArea_final_within (q : QuadTree) (V : Box) (fuel : ℕ) (d : Box)
    (l : List Sprite) (R : Box) (l' : List Sprite)
    (h : expandDirtyArea q V fuel none d l = Expansion.fixed R l') :
    boxContainsBox V R = true := by
  cases fuel with
  | zero => simp [expandDirtyArea] at h
  | succ n =>
    rw [expandDirtyArea_succ] at h
    simp only [reduceCtorEq, if_false] at h
    exact expandDirtyArea_final_within_from q V n _ _ _ R l' (clampBoxToBox_within _ _) h

/-- C12 fails as stated: with the visible rectangle `[150, 250]` in both directions,
the loop started at the zero-sized area at the origin (as `draw` does when only
an always-draw sprite is pending) passes `{0,0,0,0}` and then `{150,150,1,1}` to
`flagObjects`: the second area does not contain the first, and the first does
not lie inside the visible rectangle. -/
theorem expansion_notMonotone_counterexample :
    originLayer.drawAreas farEngine = [⟨0, 0, 0, 0⟩, ⟨150, 150, 1, 1⟩]
    ∧ boxContainsBox ⟨150, 150, 1, 1⟩ ⟨0, 0, 0, 0⟩ = false
    ∧ boxContainsBox (originLayer.canvasInWorldSpace farEngine) ⟨0, 0, 0, 0⟩ = false := by
  with_unfolding_all decide

/-- C12, amended: for every list of sprites and every starting area the expansion
loop of `draw` reaches a fixed point within `sprites + 3` rounds (rational
coordinates never trigger the NaN check); every area it uses after the first
lies inside the visible rectangle; and when the starting area lies inside the
visible rectangle, every area does and each contains the one before. -/
theorem expansion_terminates (q : QuadTree) (V d : Box) (l : List Sprite) :
    (∃ R l', expandDirtyArea q V (l.length + 3) none d l = Expansion.fixed R l'
      ∧ boxContainsBox V R = true)
    ∧ (∀ a ∈ (flaggedAreas q V (l.length + 3) none d l).tail, boxContainsBox V a = true)
    ∧ (boxContainsBox V d = true →
        (∀ a ∈ flaggedAreas q V (l.length + 3) none d l, boxContainsBox V a = true)
        ∧ List.Chain' (fun a b => boxContainsBox b a = true)
            (flaggedAreas q V (l.length + 3) none d l)) := by
  refine ⟨?_, flaggedAreas_tail_within q V _ d l, fun hV =>
    ⟨flaggedAreas_within q V _ _ d l hV, flaggedAreas_chain q V _ _ d l hV⟩⟩
  obtain ⟨R, l', h⟩ := expandDirtyArea_terminates q V d l (l.length + 3) le_rfl
  exact ⟨R, l', h, expandDirtyArea_final_within q V _ d l R l' h⟩

/-- C12, amended, at the first area of the three-item scenario. -/
theorem expansion_terminates_witness :
    boxContainsBox ⟨-200, -200, 200, 200⟩ ⟨0, 0, 10, 10⟩ = true
    ∧ List.Chain' (fun a b => boxContainsBox b a = true)
        (flaggedAreas (scenarioLayer wideEngine).quadTree ⟨-200, -200, 200, 200⟩
          ((scenarioLayer wideEngine).sprites.length + 3) none ⟨0, 0, 10, 10⟩
          (scenarioLayer wideEngine).sprites) :=
  ⟨by with_unfolding_all decide,
    ((expansion_terminates (scenarioLayer wideEngine).quadTree ⟨-200, -200, 200, 200⟩
      ⟨0, 0, 10, 10⟩ (scenarioLayer wideEngine).sprites).2.2
      (by with_unfolding_all decide)).2⟩

/-- The final dirty area of the quadtree branch of `draw` lies inside the visible
rectangle. -/
theorem drawQuadtree_dirtyArea_within (env : Engine) (L : Layer) (calls : List Call) (R : Box)
    (h : (L.drawQuadtree env calls).dirtyArea = some R) :
    boxContainsBox (L.canvasInWorldSpace env) R = true := by
  unfold Layer.drawQuadtree at h
  simp only at h
  split at h
  · simp at h
  · rename_i d0 _
    obtain ⟨R', l', hloop⟩ := expandDirtyArea_terminates L.quadTree (L.canvasInWorldSpace env)
      d0 (L.sprites.map fun s => { s with needsDrawing := false }) (L.sprites.length + 3)
      (by simp)
    rw [hloop] at h
    simp only [Option.some.injEq] at h
    subst h
    exact expandDirtyArea_final_within _ _ _ _ _ _ _ hloop

/-- C26 fails as stated: with the camera at `(200, 200)` and only an always-draw
sprite pending, `draw` passes the zero-sized area at the world origin to
`flagObjects`, outside the visible rectangle `[150, 250]`. -/
theorem draw_areaOutside_counterexample :
    originLayer.useQuadtree = true
    ∧ originLayer.canvasInWorldSpace farEngine = ⟨150, 150, 250, 250⟩
    ∧ (originLayer.drawAreas farEngine).head? = some ⟨0, 0, 0, 0⟩
    ∧ boxContainsBox ⟨150, 150, 250, 250⟩ ⟨0, 0, 0, 0⟩ = false := by
  with_unfolding_all decide

/-- C26, amended: in every call of `draw`, every area passed to `flagObjects` after
the first, and the final dirty area used for clearing, lie inside the visible
world rectangle; when a full redraw or at least one dirty area is pending, the
first area passed to `flagObjects` does too. -/
theorem draw_areas_within (env : Engine) (L : Layer) :
    (∀ a ∈ (L.drawAreas env).tail, boxContainsBox (L.canvasInWorldSpace env) a = true)
    ∧ (∀ R, (L.draw env).dirtyArea = some R →
        boxContainsBox (L.canvasInWorldSpace env) R = true)
    ∧ ((L.needsFullRedraw = true ∨ L.dirtyAreas ≠ []) →
        ∀ a ∈ L.drawAreas env, boxContainsBox (L.canvasInWorldSpace env) a = true) := by
  obtain ⟨hview, -, -, -, ⟨extra, hdirty⟩, hfull, -⟩ := drawSorted_shape env L
  have hV := canvasInWorldSpace_congr env _ _ hview
  refine ⟨?_, ?_, ?_⟩
  · unfold Layer.drawAreas
    simp only
    split
    · simp
    · split
      · split
        · simp
        · rw [hV]
          exact flaggedAreas_tail_within _ _ _ _ _
      · simp
  · intro R hR
    by_cases hn : L.nothingChanged = true
    · simp [Layer.draw, hn] at hR
    · rw [draw_eq env L (by simpa using hn)] at hR
      split at hR
      · rw [← hV]
        exact drawQuadtree_dirtyArea_within env _ _ R hR
      · simp [Layer.drawEverything] at hR
  · intro hstart
    unfold Layer.drawAreas
    simp only
    split
    · simp
    · split
      · split
        · simp
        · rename_i d0 hd0
          rw [hV]
          apply flaggedAreas_within
          unfold Layer.startArea at hd0
          by_cases hf : ((L.drawPrepare env).drawSort env).needsFullRedraw = true
          · simp only [hf, if_true, Option.some.injEq] at hd0
            rw [← hd0, hV]
            exact boxContainsBox_refl _
          · simp only [hf, if_false, Bool.false_eq_true] at hd0
            have hne : ((L.drawPrepare env).drawSort env).dirtyAreas ≠ [] := by
              rcases hstart with h | h
              · exact absurd (hfull h) hf
              · rw [hdirty]
                intro h0
                exact h (List.append_eq_nil.mp h0).1
            have := (joinDirtyAreas_some env _ d0 hne hd0).1
            rw [hV] at this
            exact this
      · simp

/-- C26, amended, at the three-item scenario on the 400 by 400 screen. -/
theorem draw_areas_within_witness :
    ((scenarioLayer wideEngine).needsFullRedraw = true
        ∨ (scenarioLayer wideEngine).dirtyAreas ≠ [])
    ∧ (scenarioLayer wideEngine).drawAreas wideEngine = [⟨0, 0, 10, 10⟩, ⟨0, 0, 15, 15⟩]
    ∧ ∀ a ∈ (scenarioLayer wideEngine).drawAreas wideEngine,
        boxContainsBox ((scenarioLayer wideEngine).canvasInWorldSpace wideEngine) a = true :=
  ⟨Or.inr (by with_unfolding_all decide), by with_unfolding_all decide,
    (draw_areas_within wideEngine (scenarioLayer wideEngine)).2.2
      (Or.inr (by with_unfolding_all decide))⟩


/-! ## Nothing to draw -/

/-- When no full redraw is pending or forced and no incremental resort can mark
areas, lines 179-264 of `draw` leave the full-redraw flag clear and the dirty
areas as they are. -/
theorem drawSorted_partial (env : Engine) (L : Layer) (hf : L.needsFullRedraw = false)
    (hmode : L.renderMode = RenderMode.canvas2d ∨ L.useOffScreenTarget = true)
    (handroid : (L.isAndroidStockBrowser && L.clearCanvas) = false)
    (hmov : L.sortingFunction env = Option.none ∨ L.movingSprites = []) :
    ((L.drawPrepare env).drawSort env).needsFullRedraw = false
    ∧ ((L.drawPrepare env).drawSort env).dirtyAreas = L.dirtyAreas := by
  obtain ⟨-, p2, p3, p4, -, -, -⟩ := drawPrepare_fields env L
  constructor
  · rw [drawSort_needsFullRedraw, drawPrepare_needsFullRedraw, hf, handroid]
    rcases hmode with hm | hm
    · simp [hm]
    · simp [hm]
  · rw [drawSort_dirtyAreas env _ (by
      rcases hmov with h | h
      · left; simpa [Layer.sortingFunction, p4] using h
      · right; rw [p3]; exact h), p2]

/-- The result of `_joinDirtyAreas` depends on the conversion fields and the dirty
areas only. -/
theorem joinDirtyAreas_congr (env : Engine) (L1 L : Layer) (hv : L1.toView = L.toView)
    (hd : L1.dirtyAreas = L.dirtyAreas) : L1._joinDirtyAreas env = L._joinDirtyAreas env := by
  unfold Layer._joinDirtyAreas Layer.screenInWorldSpace
  rw [hv, hd]

/-- C17, where the code departs from it: on a fresh layer of the sample engine
(100 by 100 screen, camera at the origin with zoom `1`) holding one always-draw
sprite with bounding box `{-1,-1,1,1}` and drawn once, there is no dirty area at
all and the area resolved by `_joinDirtyAreas` is the zero-sized `{0,0,0,0}`;
the second call of `draw` does not treat it as nothing to draw: it clears the
rectangle `clearRect(48, 48, 4, 4)` and draws the sprite. -/
theorem draw_zeroArea_counterexample :
    (alwaysLayer.draw sampleEngine).layer.useQuadtree = true
    ∧ (alwaysLayer.draw sampleEngine).layer.needsFullRedraw = false
    ∧ (alwaysLayer.draw sampleEngine).layer.dirtyAreas = []
    ∧ (alwaysLayer.draw sampleEngine).layer._joinDirtyAreas sampleEngine = some ⟨0, 0, 0, 0⟩
    ∧ Call.clearRect 48 48 4 4 ∈ ((alwaysLayer.draw sampleEngine).layer.draw sampleEngine).calls
    ∧ Call.spriteDraw 7 false
        ∈ ((alwaysLayer.draw sampleEngine).layer.draw sampleEngine).calls := by
  with_unfolding_all decide

/-- The part of C17 the code implements: with the quadtree enabled, no full redraw
pending or forced (raster mode or offscreen target, no Android stock browser
work-around) and no incremental resort pending, if `_joinDirtyAreas` returns
`0` (the dirty areas, of which there is at least one, resolve to a region of
zero or negative width or height), then `draw` clears nothing and calls no
sprite draw entry point. -/
theorem draw_noDirtyArea (env : Engine) (L : Layer) (hq : L.useQuadtree = true)
    (hf : L.needsFullRedraw = false)
    (hmode : L.renderMode = RenderMode.canvas2d ∨ L.useOffScreenTarget = true)
    (handroid : (L.isAndroidStockBrowser && L.clearCanvas) = false)
    (hmov : L.sortingFunction env = Option.none ∨ L.movingSprites = [])
    (hjoin : L._joinDirtyAreas env = Option.none) :
    ∀ c ∈ (L.draw env).calls, c.isClear = false ∧ c.isSpriteDraw = false := by
  by_cases hn : L.nothingChanged = true
  · simp [Layer.draw, hn]
  · obtain ⟨hview, -, huq, -, -, -, -⟩ := drawSorted_shape env L
    obtain ⟨hfr, hda⟩ := drawSorted_partial env L hf hmode handroid hmov
    have hj := joinDirtyAreas_congr env _ L hview hda
    rw [draw_eq env L (by simpa using hn), huq, hq]
    simp only [if_true]
    unfold Layer.drawQuadtree
    simp only [hfr, Bool.false_eq_true, if_false, hj, hjoin, List.append_nil]
    intro c hc
    split at hc
    · simp only [List.mem_singleton] at hc
      subst hc
      exact ⟨rfl, rfl⟩
    · simp at hc

/-- The case of a drawn layer whose only dirty area is off-screen. -/
theorem draw_noDirtyArea_witness :
    (((freshLayer.addSprite item3).draw sampleEngine).layer.addDirtyArea
        ⟨100, 100, 110, 110⟩)._joinDirtyAreas sampleEngine = Option.none
    ∧ ∀ c ∈ ((((freshLayer.addSprite item3).draw sampleEngine).layer.addDirtyArea
        ⟨100, 100, 110, 110⟩).draw sampleEngine).calls,
        c.isClear = false ∧ c.isSpriteDraw = false :=
  ⟨by with_unfolding_all decide,
    draw_noDirtyArea sampleEngine
      (((freshLayer.addSprite item3).draw sampleEngine).layer.addDirtyArea
        ⟨100, 100, 110, 110⟩)
      (by with_unfolding_all decide) (by with_unfolding_all decide)
      (Or.inl (by with_unfolding_all decide)) (by with_unfolding_all decide)
      (Or.inr (by with_unfolding_all decide)) (by with_unfolding_all decide)⟩


/-! ## The area the expansion starts from -/

/-- Without a dirty area that intersects the screen, the bounding region built by
`_joinDirtyAreas` is the region it starts from. -/
theorem joinFold_none (screen : Box) (areas : List Box) (init : Box)
    (h : ∀ a ∈ areas, boxIntersectsBox screen a = false) :
    areas.foldl
      (fun result area => if boxIntersectsBox screen area then expandBox result area else result)
      init = init := by
  induction areas generalizing init with
  | nil => rfl
  | cons x l ih =>
    simp only [List.foldl_cons, h x (List.mem_cons_self _ _), Bool.false_eq_true, if_false]
    exact ih init (fun a ha => h a (List.mem_cons_of_mem _ ha))

/-- The bounding region built by `_joinDirtyAreas` lies inside every box that
contains the region it starts from and the dirty areas that intersect the screen. -/
theorem joinFold_within (screen B : Box) (areas : List Box) (init : Box)
    (hinit : boxContainsBox B init = true)
    (h : ∀ a ∈ areas, boxIntersectsBox screen a = true → boxContainsBox B a = true) :
    boxContainsBox B (areas.foldl
      (fun result area => if boxIntersectsBox screen area then expandBox result area else result)
      init) = true := by
  induction areas generalizing init with
  | nil => exact hinit
  | cons x l ih =>
    simp only [List.foldl_cons]
    have hl : ∀ a ∈ l, boxIntersectsBox screen a = true → boxContainsBox B a = true :=
      fun a ha => h a (List.mem_cons_of_mem _ ha)
    by_cases hx : boxIntersectsBox screen x = true
    · simp only [hx, if_true]
      exact ih _ (expandBox_within hinit (h x (List.mem_cons_self _ _) hx)) hl
    · simp only [hx, if_false, Bool.false_eq_true]
      exact ih _ hinit hl

/-- C23 fails as stated: on a 100 by 100 screen with the dirty areas `{0,0,10,10}`
and `{100,100,110,110}` pending, `draw` starts the expansion from `{0,0,10,10}`;
the bounding box of both areas clamped to the visible rectangle is `{0,0,50,50}`. -/
theorem draw_startArea_counterexample :
    twoAreasLayer.dirtyAreas = [⟨0, 0, 10, 10⟩, ⟨100, 100, 110, 110⟩]
    ∧ twoAreasLayer.needsFullRedraw = false
    ∧ twoAreasLayer.startArea sampleEngine = some ⟨0, 0, 10, 10⟩
    ∧ (twoAreasLayer.drawAreas sampleEngine).head? = some ⟨0, 0, 10, 10⟩
    ∧ clampBoxToBox (expandBox ⟨0, 0, 10, 10⟩ ⟨100, 100, 110, 110⟩)
        (twoAreasLayer.canvasInWorldSpace sampleEngine) = ⟨0, 0, 50, 50⟩ := by
  with_unfolding_all decide

/-- C23, amended: in `draw` with the quadtree enabled, the area the expansion
starts from is the full visible world rectangle when a full redraw is pending
or forced; the zero-sized box at the origin when there is no dirty area; and
otherwise, when it exists, the bounding box of the dirty areas that intersect
the visible rectangle, clamped to that rectangle: it lies in the rectangle,
contains the clamped part of each such area, and lies in the clamped part of
every box containing those areas.  The expansion loop of `draw` starts from
this area. -/
theorem draw_startArea (env : Engine) (L : Layer) :
    (L.needsFullRedraw = true → L.startArea env = some (L.canvasInWorldSpace env))
    ∧ (L.needsFullRedraw = false → L.dirtyAreas = [] →
        L.startArea env = some ⟨0, 0, 0, 0⟩)
    ∧ (L.needsFullRedraw = false → L.dirtyAreas ≠ [] → ∀ d0, L.startArea env = some d0 →
        boxContainsBox (L.canvasInWorldSpace env) d0 = true
        ∧ (∀ a ∈ L.dirtyAreas, boxIntersectsBox (L.canvasInWorldSpace env) a = true →
            boxContainsBox d0 (clampBoxToBox a (L.canvasInWorldSpace env)) = true)
        ∧ (∀ B, (∀ a ∈ L.dirtyAreas, boxIntersectsBox (L.canvasInWorldSpace env) a = true →
              boxContainsBox B a = true) →
            boxContainsBox (clampBoxToBox B (L.canvasInWorldSpace env)) d0 = true))
    ∧ (L.nothingChanged = false → L.useQuadtree = true →
        (L.drawAreas env).head? = ((L.drawPrepare env).drawSort env).startArea env) := by
  refine ⟨?_, ?_, ?_, ?_⟩
  · intro hf
    simp [Layer.startArea, hf]
  · intro hf hd
    simp [Layer.startArea, hf, Layer._joinDirtyAreas, hd]
  · intro hf hne d0 hd0
    simp only [Layer.startArea, hf, Bool.false_eq_true, if_false] at hd0
    obtain ⟨h1, h2⟩ := joinDirtyAreas_some env L d0 hne hd0
    refine ⟨h1, h2, ?_⟩
    intro B hB
    have hlen : L.dirtyAreas.length ≠ 0 := by
      intro h0; exact hne (List.length_eq_zero.mp h0)
    simp only [Layer._joinDirtyAreas, hlen, if_false, screenInWorldSpace_eq] at hd0
    by_cases hex : ∃ a0 ∈ L.dirtyAreas, boxIntersectsBox (L.canvasInWorldSpace env) a0 = true
    · obtain ⟨a0, ha0, hi0⟩ := hex
      split at hd0
      · simp at hd0
      · simp only [Option.some.injEq] at hd0
        subst hd0
        apply clampBoxToBox_mono
        apply joinFold_within _ _ _ _ _ hB
        have hBa := (boxContainsBox_iff _ _).mp (hB a0 ha0 hi0)
        have hia := (boxIntersectsBox_iff _ _).mp hi0
        rw [boxContainsBox_iff]
        simp only
        exact ⟨hBa.1.trans hia.2.1, hBa.2.1.trans hia.2.2.2, hia.1.trans hBa.2.2.1,
          hia.2.2.1.trans hBa.2.2.2⟩
    · exfalso
      have hnone : ∀ a ∈ L.dirtyAreas,
          boxIntersectsBox (L.canvasInWorldSpace env) a = false := by
        intro a ha
        by_contra hc
        exact hex ⟨a, ha, by simpa using hc⟩
      rw [joinFold_none _ _ _ hnone] at hd0
      simp only [clampBoxToBox] at hd0
      split at hd0
      · simp at hd0
      · rename_i hdeg
        apply hdeg
        left
        exact le_trans (min_le_left _ _) (le_max_right _ _)
  · intro hn hq
    obtain ⟨-, -, huq, -, -, -, -⟩ := drawSorted_shape env L
    unfold Layer.drawAreas
    simp only [hn, Bool.false_eq_true, if_false, huq, hq, if_true]
    cases hs : ((L.drawPrepare env).drawSort env).startArea env with
    | none => rfl
    | some d0 =>
      simp only [flaggedAreas_succ, reduceCtorEq, if_false, List.head?_cons]

/-- C23, amended, at the layer with one dirty area on the screen and one off it. -/
theorem draw_startArea_witness :
    twoAreasLayer.needsFullRedraw = false ∧ twoAreasLayer.dirtyAreas ≠ []
    ∧ twoAreasLayer.startArea sampleEngine = some ⟨0, 0, 10, 10⟩
    ∧ boxContainsBox (twoAreasLayer.canvasInWorldSpace sampleEngine) ⟨0, 0, 10, 10⟩ = true :=
  ⟨by with_unfolding_all decide, by with_unfolding_all decide, by with_unfolding_all decide,
    ((draw_startArea sampleEngine twoAreasLayer).2.2.1 (by with_unfolding_all decide)
      (by with_unfolding_all decide) ⟨0, 0, 10, 10⟩ (by with_unfolding_all decide)).1⟩

/-! ## Rounding to doubles -/

/-- Rounding down to an integer less than half a unit below. -/
theorem roundHalfEven_of_lt (m : ℚ) (n : ℤ) (h1 : (n : ℚ) ≤ m) (h2 : m - n < 1 / 2) :
    roundHalfEven m = n := by
  have hf : ⌊m⌋ = n := by
    rw [Int.floor_eq_iff]
    constructor
    · exact h1
    · linarith
  simp only [roundHalfEven, hf]
  rw [if_pos h2]

/-- Rounding of a tie to the even integer below. -/
theorem roundHalfEven_tie_even (m : ℚ) (n : ℤ) (h1 : m = n + 1 / 2) (h2 : n % 2 = 0) :
    roundHalfEven m = n := by
  have hf : ⌊m⌋ = n := by
    rw [Int.floor_eq_iff]
    constructor <;> linarith
  simp only [roundHalfEven, hf]
  rw [if_neg (by linarith), if_neg (by linarith), if_pos h2]

/-- Rounding of a tie to the even integer above. -/
theorem roundHalfEven_tie_odd (m : ℚ) (n : ℤ) (h1 : m = n + 1 / 2) (h2 : n % 2 = 1) :
    roundHalfEven m = n + 1 := by
  have hf : ⌊m⌋ = n := by
    rw [Int.floor_eq_iff]
    constructor <;> linarith
  simp only [roundHalfEven, hf]
  rw [if_neg (by linarith), if_neg (by linarith), if_neg (by omega)]

/-- Zero is a double. -/
theorem roundDouble_zero : roundDouble 0 = 0 := by
  simp [roundDouble]

/-- The double nearest to a number between `2 ^ k` and `2 ^ (k + 1)` in absolute
value is its quotient by `2 ^ (k - 52)`, rounded, times `2 ^ (k - 52)`. -/
theorem roundDouble_eq (q : ℚ) (k n : ℤ) (h1 : (2 : ℚ) ^ k ≤ |q|) (h2 : |q| < 2 ^ (k + 1))
    (hn : roundHalfEven (q / 2 ^ (k - 52)) = n) : roundDouble q = n * 2 ^ (k - 52) := by
  have hpos : 0 < |q| := lt_of_lt_of_le (by positivity) h1
  have hq : q ≠ 0 := abs_pos.mp hpos
  have h2' : 1 < 2 := by norm_num
  have hlog : Int.log 2 |q| = k := by
    apply le_antisymm
    · have := (Int.lt_zpow_iff_log_lt h2' hpos).mp (by exact_mod_cast h2)
      omega
    · exact (Int.zpow_le_iff_le_log h2' hpos).mp (by exact_mod_cast h1)
  simp only [roundDouble, hq, if_false, hlog, hn]

/-- One, `-1`, `2 ^ 53` and `2 ^ 54` are doubles. -/
theorem roundDouble_values :
    roundDouble 1 = 1 ∧ roundDouble (-1) = -1
    ∧ roundDouble 9007199254740992 = 9007199254740992
    ∧ roundDouble 18014398509481984 = 18014398509481984 := by
  refine ⟨?_, ?_, ?_, ?_⟩
  · rw [roundDouble_eq 1 0 4503599627370496 (by norm_num) (by norm_num)
      (roundHalfEven_of_lt _ _ (by norm_num) (by norm_num))]
    norm_num
  · rw [roundDouble_eq (-1) 0 (-4503599627370496) (by norm_num) (by norm_num)
      (roundHalfEven_of_lt _ _ (by norm_num) (by norm_num))]
    norm_num
  · rw [roundDouble_eq _ 53 4503599627370496 (by norm_num [abs_of_pos]) (by norm_num [abs_of_pos])
      (roundHalfEven_of_lt _ _ (by norm_num) (by norm_num))]
    norm_num
  · rw [roundDouble_eq _ 54 4503599627370496 (by norm_num [abs_of_pos]) (by norm_num [abs_of_pos])
      (roundHalfEven_of_lt _ _ (by norm_num) (by norm_num))]
    norm_num

/-- In doubles `1 / 49` is `5882252574524729 / 2 ^ 58`, and `49` times that is
`1 - 2 ^ (-53)`. -/
theorem roundDouble_fortyNine :
    roundDouble (1 / 49) = 5882252574524729 / 288230376151711744
    ∧ roundDouble (49 * (5882252574524729 / 288230376151711744))
        = 9007199254740991 / 9007199254740992 := by
  constructor
  · rw [roundDouble_eq (1 / 49) (-6) 5882252574524729 (by norm_num [abs_of_pos])
      (by norm_num [abs_of_pos]) (roundHalfEven_of_lt _ _ (by norm_num) (by norm_num))]
    norm_num
  · rw [roundDouble_eq _ (-1) 9007199254740991 (by norm_num [abs_of_pos])
      (by norm_num [abs_of_pos]) (roundHalfEven_of_lt _ _ (by norm_num) (by norm_num))]
    norm_num

/-- In doubles `2 ^ 53 + 1` is `2 ^ 53` (a tie), and `2 ^ 54 + 1` and `2 ^ 54 - 1`
(a tie) are `2 ^ 54`. -/
theorem roundDouble_absorbed :
    roundDouble 9007199254740993 = 9007199254740992
    ∧ roundDouble 18014398509481985 = 18014398509481984
    ∧ roundDouble 18014398509481983 = 18014398509481984 := by
  refine ⟨?_, ?_, ?_⟩
  · rw [roundDouble_eq _ 53 4503599627370496 (by norm_num [abs_of_pos])
      (by norm_num [abs_of_pos]) (roundHalfEven_tie_even _ _ (by norm_num) (by norm_num))]
    norm_num
  · rw [roundDouble_eq _ 54 4503599627370496 (by norm_num [abs_of_pos])
      (by norm_num [abs_of_pos]) (roundHalfEven_of_lt _ _ (by norm_num) (by norm_num))]
    norm_num
  · rw [roundDouble_eq _ 53 9007199254740992 (by norm_num [abs_of_pos])
      (by norm_num [abs_of_pos])
      (roundHalfEven_tie_odd _ 9007199254740991 (by norm_num) (by norm_num))]
    norm_num

/-- C2 fails as stated: evaluated in doubles at the scale conversion factor `49`,
the direction `(1, 0)` taken from canvas space to world space and back comes out
as `(1 - 2 ^ (-53), 0)` (JavaScript prints `0.9999999999999999`). -/
theorem direction_double_counterexample :
    steepView.scaleConversionFactor ≠ 0 ∧ steepView.resolutionFactor ≠ 0
    ∧ steepView.worldDirectionToCanvas_double (steepView.canvasDirectionToWorld_double ⟨1, 0⟩)
        = ⟨9007199254740991 / 9007199254740992, 0⟩
    ∧ steepView.worldDirectionToCanvas_double (steepView.canvasDirectionToWorld_double ⟨1, 0⟩)
        ≠ ⟨1, 0⟩ := by
  have h : steepView.worldDirectionToCanvas_double
      (steepView.canvasDirectionToWorld_double ⟨1, 0⟩)
        = ⟨9007199254740991 / 9007199254740992, 0⟩ := by
    simp only [View.worldDirectionToCanvas_double, View.canvasDirectionToWorld_double, steepView,
      roundDouble_fortyNine.1, roundDouble_fortyNine.2, zero_div, mul_zero, roundDouble_zero]
  refine ⟨by norm_num [steepView], by norm_num [steepView], h, ?_⟩
  rw [h]
  intro h1
  have h2 := congrArg Vec2.x h1
  norm_num at h2

/-- C8 fails as stated: two sprites of size `2 ^ 54` with sort point `1`, at the
heights `1` (id `1`) and `0` (id `2`), have the sort keys `2 ^ 54 + 1` and
`2 ^ 54`, more than the tolerance apart.  Evaluated in doubles both differences
come out as `0`, the comparator orders by id, and the sort puts the sprite of
the larger key first. -/
theorem spriteSorter_double_counterexample :
    sampleEngine.c_epsilon
      ≤ |(depthSprite 1 1 1 1 18014398509481984).sortKey
          - (depthSprite 2 2 0 1 18014398509481984).sortKey|
    ∧ (depthSprite 2 2 0 1 18014398509481984).sortKey
        < (depthSprite 1 1 1 1 18014398509481984).sortKey
    ∧ _spriteSorter_bottomToTop_double sampleEngine (depthSprite 1 1 1 1 18014398509481984)
        (depthSprite 2 2 0 1 18014398509481984) = -1
    ∧ _spriteSorter_bottomToTop_double sampleEngine (depthSprite 2 2 0 1 18014398509481984)
        (depthSprite 1 1 1 1 18014398509481984) = 1
    ∧ jsSort (_spriteSorter_bottomToTop_double sampleEngine)
        [depthSprite 1 1 1 1 18014398509481984, depthSprite 2 2 0 1 18014398509481984]
        = [depthSprite 1 1 1 1 18014398509481984, depthSprite 2 2 0 1 18014398509481984]
    ∧ jsSort (_spriteSorter_bottomToTop_double sampleEngine)
        [depthSprite 2 2 0 1 18014398509481984, depthSprite 1 1 1 1 18014398509481984]
        = [depthSprite 1 1 1 1 18014398509481984, depthSprite 2 2 0 1 18014398509481984] := by
  obtain ⟨r1, r2, r3, r4⟩ := roundDouble_values
  obtain ⟨a1, a2, a3⟩ := roundDouble_absorbed
  have hAB : _spriteSorter_bottomToTop_double sampleEngine
      (depthSprite 1 1 1 1 18014398509481984) (depthSprite 2 2 0 1 18014398509481984) = -1 := by
    norm_num [_spriteSorter_bottomToTop_double, depthSprite, sampleSprite, sampleEngine,
      r1, r2, r4, a2, roundDouble_zero]
  have hBA : _spriteSorter_bottomToTop_double sampleEngine
      (depthSprite 2 2 0 1 18014398509481984) (depthSprite 1 1 1 1 18014398509481984) = 1 := by
    norm_num [_spriteSorter_bottomToTop_double, depthSprite, sampleSprite, sampleEngine,
      r1, r2, r4, a3, roundDouble_zero]
  refine ⟨?_, ?_, hAB, hBA, ?_, ?_⟩
  · norm_num [Sprite.sortKey, depthSprite, sampleSprite, sampleEngine]
  · norm_num [Sprite.sortKey, depthSprite, sampleSprite]
  · simp [jsSort, List.insertionSort, List.orderedInsert, hAB]
  · simp [jsSort, List.insertionSort, List.orderedInsert, hBA]

/-- C9 fails as stated: with tolerance `1`, three sprites of depths `0`, `1/2`, `5/4`
and ids `3`, `2`, `1` are ordered in a cycle by the bottom-to-top comparator
(the third is before the second, the second before the first, and the third is
not before the first); the values are exact in doubles.  And evaluated in
doubles with the tolerance `1/10000`, two sprites at the height `2 ^ 53`, the
first with id `1` and sort point `1`, the second with id `2` and sort point `0`,
compare as negative in both directions. -/
theorem spriteSorter_counterexample :
    (0 < coarseEngine.c_epsilon
      ∧ _spriteSorter_bottomToTop coarseEngine
          (sampleSprite 3 1 (5 / 4) ⟨0, 0, 1, 1⟩) (sampleSprite 2 2 (1 / 2) ⟨0, 0, 1, 1⟩) < 0
      ∧ _spriteSorter_bottomToTop coarseEngine
          (sampleSprite 2 2 (1 / 2) ⟨0, 0, 1, 1⟩) (sampleSprite 1 3 0 ⟨0, 0, 1, 1⟩) < 0
      ∧ ¬ _spriteSorter_bottomToTop coarseEngine
          (sampleSprite 3 1 (5 / 4) ⟨0, 0, 1, 1⟩) (sampleSprite 1 3 0 ⟨0, 0, 1, 1⟩) < 0)
    ∧ (0 < sampleEngine.c_epsilon
      ∧ (depthSprite 1 1 9007199254740992 1 1).id ≠ (depthSprite 2 2 9007199254740992 0 1).id
      ∧ _spriteSorter_bottomToTop_double sampleEngine
          (depthSprite 1 1 9007199254740992 1 1) (depthSprite 2 2 9007199254740992 0 1) = -1
      ∧ _spriteSorter_bottomToTop_double sampleEngine
          (depthSprite 2 2 9007199254740992 0 1) (depthSprite 1 1 9007199254740992 1 1) = -1) := by
  obtain ⟨r1, r2, r3, r4⟩ := roundDouble_values
  obtain ⟨a1, a2, a3⟩ := roundDouble_absorbed
  refine ⟨⟨by norm_num [coarseEngine, sampleEngine], ?_, ?_, ?_⟩,
    ⟨by norm_num [sampleEngine], by decide, ?_, ?_⟩⟩
  · norm_num [_spriteSorter_bottomToTop, coarseEngine, sampleEngine, sampleSprite, abs_lt]
  · norm_num [_spriteSorter_bottomToTop, coarseEngine, sampleEngine, sampleSprite, abs_lt]
  · norm_num [_spriteSorter_bottomToTop, coarseEngine, sampleEngine, sampleSprite, abs_lt]
  · norm_num [_spriteSorter_bottomToTop_double, depthSprite, sampleSprite, sampleEngine,
      r1, r2, r3, a1, roundDouble_zero]
  · norm_num [_spriteSorter_bottomToTop_double, depthSprite, sampleSprite, sampleEngine,
      r1, r2, r3, a1, roundDouble_zero]


/-! ## Dirty-region soundness from any starting area -/

/-- Flagging twice with the same area is flagging once. -/
theorem flagObjects_idem (q : QuadTree) (d : Box) (l : List Sprite) :
    flagObjects q d (flagObjects q d l) = flagObjects q d l :=
  flagObjects_absorb q d d l (boxContainsBox_refl d)

/-- In an array that flagging with `R` leaves as it is, every sprite of the index
that intersects `R` has its flag set. -/
theorem flagObjects_fixed (q : QuadTree) (R : Box) (l : List Sprite)
    (h : flagObjects q R l = l) (s : Sprite) (hs : s ∈ l) (hk : s.key ∈ q.objects)
    (hi : boxIntersectsBox s.boundingBox R = true) : s.needsDrawing = true := by
  induction l with
  | nil => simp at hs
  | cons a l ih =>
    rw [flagObjects_cons] at h
    simp only [List.cons.injEq] at h
    rcases List.mem_cons.mp hs with rfl | hs'
    · have h1 := h.1
      rw [if_pos ⟨hk, hi⟩] at h1
      rw [← h1]
    · exact ih h.2 hs'

/-- What the expansion loop leaves after its first round, whatever the starting
area: flagging with the final area changes nothing any more, and the final area
is a fixed point of expanding and clamping. -/
theorem expandDirtyArea_flagged_from (q : QuadTree) (V : Box) (fuel : ℕ)
    (o d : Box) (l : List Sprite) (R : Box) (l' : List Sprite)
    (hl : flagObjects q o l = l) (hd : d = clampBoxToBox (expandToFlagged o l) V)
    (h : expandDirtyArea q V fuel (some o) d l = Expansion.fixed R l') :
    flagObjects q R l' = l' ∧ clampBoxToBox (expandToFlagged R l') V = R := by
  induction fuel generalizing o d l with
  | zero => simp [expandDirtyArea] at h
  | succ n ih =>
    rw [expandDirtyArea_succ] at h
    by_cases hsame : some o = some d
    · simp only [hsame, if_true, Expansion.fixed.injEq] at h
      obtain ⟨h1, h2⟩ := h
      have hod : o = d := Option.some.inj hsame
      subst h1 h2 hod
      exact ⟨hl, hd.symm⟩
    · simp only [hsame, if_false] at h
      exact ih d _ (flagObjects q d l) (flagObjects_idem q d l) rfl h

/-- What the expansion loop of `draw` leaves, whatever the starting area. -/
theorem expandDirtyArea_flagged (q : QuadTree) (V : Box) (fuel : ℕ) (d : Box)
    (l : List Sprite) (R : Box) (l' : List Sprite)
    (h : expandDirtyArea q V fuel none d l = Expansion.fixed R l') :
    flagObjects q R l' = l' ∧ clampBoxToBox (expandToFlagged R l') V = R := by
  cases fuel with
  | zero => simp [expandDirtyArea] at h
  | succ n =>
    rw [expandDirtyArea_succ] at h
    simp only [reduceCtorEq, if_false] at h
    exact expandDirtyArea_flagged_from q V n d _ (flagObjects q d l) R l'
      (flagObjects_idem q d l) rfl h

/-- The quadtree branch of `draw`, when it reaches the drawing step from any
starting area: the final area, the flags and the sprite draws. -/
theorem drawQuadtree_drawn_any (env : Engine) (L : Layer) (calls : List Call)
    (h : (L.drawQuadtree env calls).outcome = Outcome.drawn) :
    ∃ R, (L.drawQuadtree env calls).dirtyArea = some R
      ∧ boxContainsBox (L.canvasInWorldSpace env) R = true
      ∧ flagObjects L.quadTree R (L.drawQuadtree env calls).layer.sprites
          = (L.drawQuadtree env calls).layer.sprites
      ∧ clampBoxToBox (expandToFlagged R (L.drawQuadtree env calls).layer.sprites)
          (L.canvasInWorldSpace env) = R
      ∧ (L.drawQuadtree env calls).layer.renderMode = L.renderMode
      ∧ (L.drawQuadtree env calls).calls.filter Call.isSpriteDraw
          = calls.filter Call.isSpriteDraw ++ spriteDrawCalls L.renderMode
              ((L.drawQuadtree env calls).layer.sprites.filter fun s => s.needsDrawing) := by
  unfold Layer.drawQuadtree at h ⊢
  simp only at h ⊢
  have hnoSprite : ∀ c ∈ (if L.needsFullRedraw = true then
        ((some (L.canvasInWorldSpace env), L.cameraCalls env true) : Option Box × List Call)
      else (L._joinDirtyAreas env, [])).2, c.isSpriteDraw = false := by
    intro c hc
    by_cases hf : L.needsFullRedraw = true
    · simp only [hf, if_true] at hc
      exact (cameraCalls_plain env L true c hc).1
    · simp [hf] at hc
  have hst : ∃ d0, (if L.needsFullRedraw = true then
        ((some (L.canvasInWorldSpace env), L.cameraCalls env true) : Option Box × List Call)
      else (L._joinDirtyAreas env, [])).1 = some d0 := by
    cases hc : (if L.needsFullRedraw = true then
        ((some (L.canvasInWorldSpace env), L.cameraCalls env true) : Option Box × List Call)
      else (L._joinDirtyAreas env, [])).1 with
    | none => rw [hc] at h; simp at h
    | some d0 => exact ⟨d0, rfl⟩
  obtain ⟨d0, hd0⟩ := hst
  rw [hd0] at h ⊢
  simp only at h ⊢
  obtain ⟨R, l', hloop⟩ := expandDirtyArea_terminates L.quadTree (L.canvasInWorldSpace env) d0
    (L.sprites.map fun s => { s with needsDrawing := false }) (L.sprites.length + 3)
    (by simp)
  rw [hloop]
  simp only
  obtain ⟨r1, r2⟩ := expandDirtyArea_flagged L.quadTree (L.canvasInWorldSpace env)
    (L.sprites.length + 3) d0 _ R l' hloop
  have r3 := expandDirtyArea_final_within L.quadTree (L.canvasInWorldSpace env)
    (L.sprites.length + 3) d0 _ R l' hloop
  refine ⟨R, rfl, r3, r1, r2, rfl, ?_⟩
  simp only [List.filter_append, spriteDrawCalls_filter]
  rw [filter_isSpriteDraw_nil _ hnoSprite,
    filter_isSpriteDraw_nil _ (clearCalls_noSprite env _ R),
    filter_isSpriteDraw_nil _ (postRenderCalls_noSprite env _ _)]
  simp [Layer.clearDirtyAreas]

/-- A call of `draw` with the quadtree enabled that reaches the drawing step,
whatever the area it starts from: the final area, the flags and the sprite
draws. -/
theorem draw_drawn_any (env : Engine) (L : Layer) (hq : L.useQuadtree = true)
    (h : (L.draw env).outcome = Outcome.drawn) :
    ∃ R, (L.draw env).dirtyArea = some R
      ∧ boxContainsBox (L.canvasInWorldSpace env) R = true
      ∧ flagObjects L.quadTree R (L.draw env).layer.sprites = (L.draw env).layer.sprites
      ∧ clampBoxToBox (expandToFlagged R (L.draw env).layer.sprites)
          (L.canvasInWorldSpace env) = R
      ∧ (L.draw env).calls.filter Call.isSpriteDraw
          = spriteDrawCalls (L.draw env).layer.renderMode
              ((L.draw env).layer.sprites.filter fun s => s.needsDrawing) := by
  have hn : L.nothingChanged = false := by
    by_contra hc
    have hc' : L.nothingChanged = true := by simpa using hc
    simp [Layer.draw, hc'] at h
  obtain ⟨hview, hqt, huq, -, -, -, -⟩ := drawSorted_shape env L
  rw [draw_eq env L hn] at h ⊢
  rw [huq, hq] at h ⊢
  simp only [if_true] at h ⊢
  have hV := canvasInWorldSpace_congr env _ _ hview
  obtain ⟨R, hda, hVR, hflag, hfix, hmode, hcalls⟩ := drawQuadtree_drawn_any env _ _ h
  rw [hV] at hVR hfix
  rw [hqt] at hflag
  refine ⟨R, hda, hVR, hflag, hfix, ?_⟩
  rw [hcalls, hmode]
  have h0 : (if (((L.drawPrepare env).drawSort env).renderMode == RenderMode.webgl
        && ((L.drawPrepare env).drawSort env).useOffScreenTarget) = true
      then [Call.bindFramebuffer true] else []).filter Call.isSpriteDraw = [] := by
    split <;> simp [Call.isSpriteDraw]
  rw [h0]
  rfl

/-- C4, amended: with the quadtree enabled, when `draw` reaches its drawing step,
its final dirty area `R` lies in the visible world rectangle, contains the part
inside that rectangle of every declared dirty area that intersects it, and
contains the part inside that rectangle of the bounding box of every flagged
visible sprite; every sprite held by the spatial index whose bounding box
intersects `R` is flagged `needsDrawing` and has its draw entry point called. -/
theorem draw_flags_dirtyRegion (env : Engine) (L : Layer) (hq : L.useQuadtree = true)
    (h : (L.draw env).outcome = Outcome.drawn) :
    ∃ R, (L.draw env).dirtyArea = some R
      ∧ boxContainsBox (L.canvasInWorldSpace env) R = true
      ∧ (∀ a ∈ L.dirtyAreas, boxIntersectsBox (L.canvasInWorldSpace env) a = true →
          boxContainsBox R (clampBoxToBox a (L.canvasInWorldSpace env)) = true)
      ∧ (∀ s ∈ (L.draw env).layer.sprites, s.needsDrawing = true → s.visible = true →
          boxContainsBox R (clampBoxToBox s.boundingBox (L.canvasInWorldSpace env)) = true)
      ∧ (∀ s ∈ (L.draw env).layer.sprites, s.key ∈ L.quadTree.objects →
          boxIntersectsBox s.boundingBox R = true →
          s.needsDrawing = true
          ∧ Call.spriteDraw s.key ((L.draw env).layer.renderMode == RenderMode.webgl)
              ∈ (L.draw env).calls) := by
  obtain ⟨R, hda, hVR, hflag, hfix, hcalls⟩ := draw_drawn_any env L hq h
  refine ⟨R, hda, hVR, ?_, ?_, ?_⟩
  · intro a ha hi
    by_cases hstart : L.needsFullRedraw = true ∨ L.dirtyAreas ≠ []
    · obtain ⟨R', S, -, hda', -, -, hareas, -, -⟩ := draw_drawn env L hq hstart h
      rw [hda] at hda'
      rw [Option.some.inj hda']
      exact hareas a ha hi
    · have hd : L.dirtyAreas = [] := by
        by_contra hne
        exact hstart (Or.inr hne)
      rw [hd] at ha
      simp at ha
  · intro s hs hf hv
    have hc := expandToFlagged_contains_sprite _ R s hs hf hv
    have := clampBoxToBox_mono (L.canvasInWorldSpace env) hc
    rw [hfix] at this
    exact this
  · intro s hs hk hi
    have hf := flagObjects_fixed _ R _ hflag s hs hk hi
    refine ⟨hf, ?_⟩
    have hmem : Call.spriteDraw s.key ((L.draw env).layer.renderMode == RenderMode.webgl)
        ∈ (L.draw env).calls.filter Call.isSpriteDraw := by
      rw [hcalls]
      simp only [spriteDrawCalls, List.mem_map, List.mem_filter]
      exact ⟨s, ⟨hs, hf⟩, rfl⟩
    exact (List.mem_filter.mp hmem).1

/-- C4, amended, at the layer holding only an always-draw sprite, drawn once: the
second call of `draw` starts from no dirty area at all. -/
theorem draw_flags_dirtyRegion_witness :
    (alwaysLayer.draw sampleEngine).layer.useQuadtree = true
    ∧ (alwaysLayer.draw sampleEngine).layer.dirtyAreas = []
    ∧ (alwaysLayer.draw sampleEngine).layer.needsFullRedraw = false
    ∧ ((alwaysLayer.draw sampleEngine).layer.draw sampleEngine).outcome = Outcome.drawn
    ∧ ∃ R, ((alwaysLayer.draw sampleEngine).layer.draw sampleEngine).dirtyArea = some R
      ∧ boxContainsBox ((alwaysLayer.draw sampleEngine).layer.canvasInWorldSpace sampleEngine) R
          = true :=
  have h := draw_flags_dirtyRegion sampleEngine (alwaysLayer.draw sampleEngine).layer
    (by with_unfolding_all decide) (by with_unfolding_all decide)
  ⟨by with_unfolding_all decide, by with_unfolding_all decide, by with_unfolding_all decide,
    by with_unfolding_all decide, h.choose, h.choose_spec.1, h.choose_spec.2.1⟩


/-! ## Sprites outside the final dirty area -/

/-- The quadtree branch of `draw`, when it reaches the drawing step from a pending
full redraw, from a non-empty list of dirty areas, or with the world origin
inside the visible rectangle: the starting area lies inside the visible
rectangle, and the flags are those of the final area. -/
theorem drawQuadtree_drawn_within (env : Engine) (L : Layer) (calls : List Call)
    (hstart : L.needsFullRedraw = true ∨ L.dirtyAreas ≠ []
      ∨ boxContainsBox (L.canvasInWorldSpace env) ⟨0, 0, 0, 0⟩ = true)
    (h : (L.drawQuadtree env calls).outcome = Outcome.drawn) :
    ∃ R, (L.drawQuadtree env calls).dirtyArea = some R
      ∧ (L.drawQuadtree env calls).layer
          = ({ L with sprites := redrawFlags L.quadTree R L.sprites } : Layer).clearDirtyAreas
      ∧ (L.drawQuadtree env calls).calls.filter Call.isSpriteDraw
          = calls.filter Call.isSpriteDraw ++ spriteDrawCalls L.renderMode
              ((redrawFlags L.quadTree R L.sprites).filter fun s => s.needsDrawing) := by
  by_cases hold : L.needsFullRedraw = true ∨ L.dirtyAreas ≠ []
  · obtain ⟨d0, R, -, -, -, -, -, -, hda, hlayer, hcalls⟩ := drawQuadtree_drawn env L calls hold h
    exact ⟨R, hda, hlayer, hcalls⟩
  · have hf : L.needsFullRedraw = false := by
      by_contra hc
      exact hold (Or.inl (by simpa using hc))
    have hd : L.dirtyAreas = [] := by
      by_contra hc
      exact hold (Or.inr hc)
    have hV0 : boxContainsBox (L.canvasInWorldSpace env) ⟨0, 0, 0, 0⟩ = true := by
      rcases hstart with h1 | h1 | h1
      · rw [hf] at h1; simp at h1
      · exact absurd hd h1
      · exact h1
    have hj : L._joinDirtyAreas env = some ⟨0, 0, 0, 0⟩ := by
      simp [Layer._joinDirtyAreas, hd]
    unfold Layer.drawQuadtree at h ⊢
    simp only [hf, Bool.false_eq_true, if_false, hj] at h ⊢
    obtain ⟨R, l', hloop⟩ := expandDirtyArea_terminates L.quadTree (L.canvasInWorldSpace env)
      ⟨0, 0, 0, 0⟩ (L.sprites.map fun s => { s with needsDrawing := false })
      (L.sprites.length + 3) (by simp)
    rw [hloop]
    simp only
    obtain ⟨r1, -, -, -⟩ := expandDirtyArea_fixed L.quadTree (L.canvasInWorldSpace env)
      (clearFlags L.sprites) (L.sprites.length + 3) ⟨0, 0, 0, 0⟩ R l' hV0 hloop
    rw [flagObjects_clearFlags] at r1
    subst r1
    refine ⟨R, rfl, rfl, ?_⟩
    simp only [List.filter_append, spriteDrawCalls_filter]
    rw [filter_isSpriteDraw_nil _ (clearCalls_noSprite env _ R),
      filter_isSpriteDraw_nil _ (postRenderCalls_noSprite env _ _)]
    simp

/-- A call of `draw` with the quadtree enabled that reaches the drawing step from
a pending full redraw, from a non-empty list of dirty areas, or with the world
origin inside the visible rectangle: the flags are those of the final area. -/
theorem draw_drawn_within (env : Engine) (L : Layer) (hq : L.useQuadtree = true)
    (hstart : L.needsFullRedraw = true ∨ L.dirtyAreas ≠ []
      ∨ boxContainsBox (L.canvasInWorldSpace env) ⟨0, 0, 0, 0⟩ = true)
    (h : (L.draw env).outcome = Outcome.drawn) :
    ∃ R S, S.Perm L.sprites
      ∧ (L.draw env).dirtyArea = some R
      ∧ (L.draw env).layer.sprites = redrawFlags L.quadTree R S
      ∧ (L.draw env).calls.filter Call.isSpriteDraw
          = spriteDrawCalls (L.draw env).layer.renderMode
              ((redrawFlags L.quadTree R S).filter fun s => s.needsDrawing) := by
  have hn : L.nothingChanged = false := by
    by_contra hc
    have hc' : L.nothingChanged = true := by simpa using hc
    simp [Layer.draw, hc'] at h
  obtain ⟨hview, hqt, huq, hperm, ⟨extra, hdirty⟩, hfull, -⟩ := drawSorted_shape env L
  rw [draw_eq env L hn] at h ⊢
  rw [huq, hq] at h ⊢
  simp only [if_true] at h ⊢
  have hV := canvasInWorldSpace_congr env _ _ hview
  have hstart' : ((L.drawPrepare env).drawSort env).needsFullRedraw = true
      ∨ ((L.drawPrepare env).drawSort env).dirtyAreas ≠ []
      ∨ boxContainsBox (((L.drawPrepare env).drawSort env).canvasInWorldSpace env) ⟨0, 0, 0, 0⟩
          = true := by
    rcases hstart with hf | hd | ho
    · exact Or.inl (hfull hf)
    · right; left
      rw [hdirty]
      intro h0
      exact hd (List.append_eq_nil.mp h0).1
    · right; right
      rw [hV]; exact ho
  obtain ⟨R, hda, hlayer, hcalls⟩ := drawQuadtree_drawn_within env _ _ hstart' h
  rw [hqt] at hlayer hcalls
  refine ⟨R, _, hperm, hda, ?_, ?_⟩
  · rw [hlayer]; rfl
  · rw [hcalls, hlayer]
    have h0 : (if (((L.drawPrepare env).drawSort env).renderMode == RenderMode.webgl
          && ((L.drawPrepare env).drawSort env).useOffScreenTarget) = true
        then [Call.bindFramebuffer true] else []).filter Call.isSpriteDraw = [] := by
      split <;> simp [Call.isSpriteDraw]
    rw [h0]
    rfl

/-- C5 fails as stated: with the camera at `(200, 200)` and nothing pending, an
always-draw sprite away from the origin keeps `draw` going, which starts from
the zero-sized area at the world origin; the ordinary sprite around the origin
(not always-draw) is flagged and drawn although its bounding box `{-1,-1,1,1}`
lies wholly outside the final dirty area `{150,150,1,1}`. -/
theorem draw_originArea_counterexample :
    mixedLayer.useQuadtree = true
    ∧ mixedLayer.needsFullRedraw = false ∧ mixedLayer.dirtyAreas = []
    ∧ (mixedLayer.draw farEngine).outcome = Outcome.drawn
    ∧ (mixedLayer.draw farEngine).dirtyArea = some ⟨150, 150, 1, 1⟩
    ∧ (mixedLayer.draw farEngine).layer.sprites.map
        (fun s => (s.key, s.alwaysDrawing, s.boundingBox, s.needsDrawing,
          boxIntersectsBox s.boundingBox ⟨150, 150, 1, 1⟩))
        = [(8, false, ⟨-1, -1, 1, 1⟩, true, false), (9, true, ⟨300, 300, 301, 301⟩, false, false)]
    ∧ (mixedLayer.draw farEngine).calls.filter Call.isSpriteDraw = [Call.spriteDraw 8 false] := by
  with_unfolding_all decide

/-- C5, amended: with the quadtree enabled, in a call of `draw` that reaches the
drawing step from a pending full redraw, from at least one pending dirty area,
or with the world origin inside the visible rectangle, a sprite that is not
always-draw and whose bounding box lies wholly outside the final dirty area is
not flagged `needsDrawing` and its draw entry point is not called; the sprites
drawn are exactly the flagged ones, in the order of the layer's list.  (Sprite
records with the same key stand for the same object and share their bounding
box.) -/
theorem draw_outside_dirtyRegion (env : Engine) (L : Layer) (hq : L.useQuadtree = true)
    (hstart : L.needsFullRedraw = true ∨ L.dirtyAreas ≠ []
      ∨ boxContainsBox (L.canvasInWorldSpace env) ⟨0, 0, 0, 0⟩ = true)
    (hkey : ∀ s ∈ L.sprites, ∀ t ∈ L.sprites, s.key = t.key → s.boundingBox = t.boundingBox)
    (h : (L.draw env).outcome = Outcome.drawn) :
    ∃ R, (L.draw env).dirtyArea = some R
      ∧ (∀ s ∈ (L.draw env).layer.sprites, s.alwaysDrawing = false →
          boxIntersectsBox s.boundingBox R = false →
          s.needsDrawing = false ∧ ∀ gl, Call.spriteDraw s.key gl ∉ (L.draw env).calls)
      ∧ (L.draw env).calls.filter Call.isSpriteDraw
          = spriteDrawCalls (L.draw env).layer.renderMode
              ((L.draw env).layer.sprites.filter fun s => s.needsDrawing) := by
  obtain ⟨R, S, hperm, hda, hsp, hcalls⟩ := draw_drawn_within env L hq hstart h
  refine ⟨R, hda, ?_, by rw [hcalls, hsp]⟩
  intro s hs _ hout
  rw [hsp] at hs
  obtain ⟨s0, hs0, rfl⟩ := (mem_redrawFlags _ _ _ _).mp hs
  simp only at hout
  refine ⟨?_, ?_⟩
  · simp [hout]
  · intro gl hmem
    have hmem' : Call.spriteDraw s0.key gl ∈ (L.draw env).calls.filter Call.isSpriteDraw :=
      List.mem_filter.mpr ⟨hmem, rfl⟩
    rw [hcalls] at hmem'
    simp only [spriteDrawCalls, List.mem_map, List.mem_filter] at hmem'
    obtain ⟨t, ⟨ht, hflag⟩, hteq⟩ := hmem'
    obtain ⟨t0, ht0, rfl⟩ := (mem_redrawFlags _ _ _ _).mp ht
    simp only [decide_eq_true_eq] at hflag
    simp only [Call.spriteDraw.injEq] at hteq
    have hbox := hkey t0 (hperm.mem_iff.mp ht0) s0 (hperm.mem_iff.mp hs0) hteq.1
    rw [hbox, hout] at hflag
    exact absurd hflag.2 (by simp)

/-- C5, amended, at the layer holding only an always-draw sprite around the origin,
drawn once, with the origin inside the visible rectangle: the second call of
`draw` starts from no dirty area at all. -/
theorem draw_outside_dirtyRegion_witness :
    (alwaysLayer.draw sampleEngine).layer.useQuadtree = true
    ∧ (alwaysLayer.draw sampleEngine).layer.needsFullRedraw = false
    ∧ (alwaysLayer.draw sampleEngine).layer.dirtyAreas = []
    ∧ boxContainsBox ((alwaysLayer.draw sampleEngine).layer.canvasInWorldSpace sampleEngine)
        ⟨0, 0, 0, 0⟩ = true
    ∧ ((alwaysLayer.draw sampleEngine).layer.draw sampleEngine).outcome = Outcome.drawn
    ∧ ((alwaysLayer.draw sampleEngine).layer.draw sampleEngine).calls.filter Call.isSpriteDraw
        = spriteDrawCalls ((alwaysLayer.draw sampleEngine).layer.draw sampleEngine).layer.renderMode
            (((alwaysLayer.draw sampleEngine).layer.draw sampleEngine).layer.sprites.filter
              fun s => s.needsDrawing) :=
  have h := draw_outside_dirtyRegion sampleEngine (alwaysLayer.draw sampleEngine).layer
    (by with_unfolding_all decide) (Or.inr (Or.inr (by with_unfolding_all decide)))
    (by with_unfolding_all decide) (by with_unfolding_all decide)
  ⟨by with_unfolding_all decide, by with_unfolding_all decide, by with_unfolding_all decide,
    by with_unfolding_all decide, by with_unfolding_all decide, h.choose_spec.2.2⟩

/-! ## The number of sprites -/

end Wade
